import Mathlib

/-!
# HRMS-Lite: the client-side data-view layer

A shallow embedding of the logic of `frontend/src/pages/Attendance.jsx` and
`frontend/src/pages/Employees.jsx`: the pending-selection mapping, the search
filter, pagination and the sequential batch submission of attendance marks.

Conventions of the embedding.

* A JavaScript string is a Lean `String` (a well-formed sequence of code
  points; on such strings the code-unit substring test of `includes` and the
  code-point substring test coincide, UTF-16 being self-synchronising).
* A plain JavaScript object with string values is the list of its own
  enumerable properties in `[[OwnPropertyKeys]]` order: keys that are array
  indices first, in ascending numeric order, then every other key in creation
  order.
* A React state setter is an effect; a handler produces the list of effects it
  performs, in program order, and the state after the handler is the initial
  state with those effects applied.
* A network call is a function that takes the state of the outside world and
  returns the outcome of the call together with the next state of the world.
-/

namespace HRMS

/-! ## Plain objects -/

/-- Own enumerable properties of a plain object, in `[[OwnPropertyKeys]]` order. -/
abbrev JsObject := List (String × String)

/-- Numeric value of a string of decimal digits. -/
def indexValue (k : String) : Nat :=
  k.data.foldl (fun n c => 10 * n + (c.toNat - 48)) 0

/-- A property key is an array index when it is the canonical decimal form of
an integer in `0 .. 2^32 - 2`. -/
def isArrayIndex (k : String) : Bool :=
  match k.data with
  | [] => false
  | c :: cs =>
    (c :: cs).all Char.isDigit && (c != '0' || cs.isEmpty) && decide (indexValue k < 4294967295)

/-- The order `[[OwnPropertyKeys]]` puts on two keys `a`, `b` with `a` listed
before `b`: they differ, and if `b` is an array index then so is `a`, with a
smaller value. -/
def keyBefore (a b : String) : Prop :=
  a ≠ b ∧ (isArrayIndex b = true → isArrayIndex a = true ∧ indexValue a < indexValue b)

instance : DecidableRel keyBefore := fun a b => by
  unfold keyBefore; infer_instance

/-- Representation invariant of `JsObject`: keys are pairwise distinct, array
indices come first in ascending order, the other keys follow. -/
def WellFormed (o : JsObject) : Prop :=
  (o.map Prod.fst).Pairwise keyBefore

instance (o : JsObject) : Decidable (WellFormed o) := by
  unfold WellFormed; infer_instance

/-- `Object.entries(o)`. -/
def objectEntries (o : JsObject) : List (String × String) := o

/-- `Object.keys(o)`. -/
def objectKeys (o : JsObject) : List String := o.map Prod.fst

/-- `o[k]`, `none` standing for `undefined`. -/
def getProperty (o : JsObject) (k : String) : Option String :=
  (o.find? (fun p => p.1 == k)).map Prod.snd

/-- Place a new array-index key among the array indices, in numeric order. -/
def insertIndexKey (k v : String) : JsObject → JsObject
  | [] => [(k, v)]
  | p :: rest =>
    if isArrayIndex p.1 && decide (indexValue p.1 < indexValue k) then
      p :: insertIndexKey k v rest
    else
      (k, v) :: p :: rest

/-- `CreateDataProperty(o, k, v)`: an existing key keeps its place and takes
the new value; a new array index is placed in numeric order; any other new key
is appended. -/
def createDataProperty (o : JsObject) (k v : String) : JsObject :=
  if o.any (fun p => p.1 == k) then
    o.map (fun p => if p.1 == k then (p.1, v) else p)
  else if isArrayIndex k then
    insertIndexKey k v o
  else
    o ++ [(k, v)]

/-- The spread `{ ...src }`: `CopyDataProperties` into a fresh object, one
`CreateDataProperty` per own property of `src`, in key order. -/
def copyDataProperties (src : JsObject) : JsObject :=
  src.foldl (fun target p => createDataProperty target p.1 p.2) []

/-! ## Data model -/

/-- An employee record as held by the client. -/
structure Employee where
  id : Nat
  employee_id : String
  full_name : String
  email : String
  department : String
  deriving DecidableEq, Repr

/-- An attendance record as returned by the API. -/
structure AttendanceRecord where
  id : Nat
  employee_id : String
  date : String
  status : String
  deriving DecidableEq, Repr

/-- The value shown by the `Toast` component. -/
structure Toast where
  message : String
  type : String
  deriving DecidableEq, Repr

/-- Body of `POST /attendance`. -/
structure MarkPayload where
  employee_id : String
  date : String
  status : String
  deriving DecidableEq, Repr

/-- How the promise of an API call settles, seen from a caller that does not
use the response: it resolves, or it rejects with an `Error` carrying
`message`. -/
inductive Outcome where
  | resolved
  | rejected (message : String)
  deriving DecidableEq, Repr

/-- `attendanceApi.mark` seen from the caller. `σ` is the state of the outside
world (server, network), which a call may change. -/
abbrev MarkApi (σ : Type) := MarkPayload → σ → Outcome × σ

/-- `String.prototype.includes`: some position of `s` starts an occurrence of
`t`. -/
def includes (s t : String) : Bool :=
  s.data.tails.any (fun u => t.data.isPrefixOf u)

/-- `Math.ceil` on an exact quotient. -/
def mathCeil (q : ℚ) : Int := ⌈q⌉

/-- `Array.prototype.slice(start, end)` with integer arguments: a negative
argument counts from the end, both are clamped to the length. -/
def slice {α : Type} (xs : List α) (start stop : Int) : List α :=
  let len : Int := xs.length
  let k : Int := if start < 0 then max (len + start) 0 else min start len
  let final : Int := if stop < 0 then max (len + stop) 0 else min stop len
  (xs.drop k.toNat).take (max (final - k) 0).toNat

namespace Attendance

/-- `PAGE_SIZE`. -/
def PAGE_SIZE : Nat := 20

/-- The `useState` cells of the `Attendance` component. -/
structure PageState where
  employees : List Employee
  loading : Bool
  error : Option String
  toast : Option Toast
  search : String
  currentPage : Int
  markDate : String
  attendance : JsObject
  marking : Bool
  viewMode : String
  selectedEmployee : String
  attendanceRecords : List AttendanceRecord
  recordsLoading : Bool
  filterDate : String
  deriving DecidableEq, Repr

/-- What a handler of the page does, in program order: calls of the state
setters, and for each API operation the issue of a call and the settling of
its promise. -/
inductive Effect where
  | setEmployees (v : List Employee)
  | setLoading (v : Bool)
  | setError (v : Option String)
  | setToast (v : Option Toast)
  | setSearch (v : String)
  | setCurrentPage (v : Int)
  | setMarkDate (v : String)
  | setAttendance (v : JsObject)
  | setMarking (v : Bool)
  | setViewMode (v : String)
  | setSelectedEmployee (v : String)
  | setAttendanceRecords (v : List AttendanceRecord)
  | setRecordsLoading (v : Bool)
  | setFilterDate (v : String)
  | markCall (payload : MarkPayload)
  | markSettled (outcome : Outcome)
  | getAllCall
  | getAllSettled (outcome : Outcome)
  | getByEmployeeCall (employeeId : String) (date : Option String)
  | getByEmployeeSettled (outcome : Outcome)
  deriving DecidableEq, Repr

/-- State after one effect. -/
def applyEffect (st : PageState) : Effect → PageState
  | .setEmployees v => { st with employees := v }
  | .setLoading v => { st with loading := v }
  | .setError v => { st with error := v }
  | .setToast v => { st with toast := v }
  | .setSearch v => { st with search := v }
  | .setCurrentPage v => { st with currentPage := v }
  | .setMarkDate v => { st with markDate := v }
  | .setAttendance v => { st with attendance := v }
  | .setMarking v => { st with marking := v }
  | .setViewMode v => { st with viewMode := v }
  | .setSelectedEmployee v => { st with selectedEmployee := v }
  | .setAttendanceRecords v => { st with attendanceRecords := v }
  | .setRecordsLoading v => { st with recordsLoading := v }
  | .setFilterDate v => { st with filterDate := v }
  | .markCall _ => st
  | .markSettled _ => st
  | .getAllCall => st
  | .getAllSettled _ => st
  | .getByEmployeeCall _ _ => st
  | .getByEmployeeSettled _ => st

/-- State after a list of effects. -/
def applyEffects (st : PageState) (es : List Effect) : PageState :=
  es.foldl applyEffect st

/-- `filteredEmployees` of the Attendance page. `toLowerCase` is
`String.prototype.toLowerCase`. -/
def filteredEmployees (toLowerCase : String → String) (employees : List Employee)
    (search : String) : List Employee :=
  employees.filter (fun emp =>
    includes (toLowerCase emp.full_name) (toLowerCase search) ||
    includes (toLowerCase emp.employee_id) (toLowerCase search) ||
    includes (toLowerCase emp.department) (toLowerCase search))

/-- `totalPages`. The quotient is taken exactly. The source divides in double
precision, which gives the same ceiling for every array length `N < 2^32`:
when 20 divides `N` the quotient is an integer and exact, otherwise the real
quotient lies at least `1/20` away from every integer while rounding moves it
by less than `2^(-24)`. -/
def totalPages (filtered : List Employee) : Int :=
  mathCeil ((filtered.length : ℚ) / (PAGE_SIZE : ℚ))

/-- `paginatedEmployees`. -/
def paginatedEmployees (filtered : List Employee) (currentPage : Int) : List Employee :=
  slice filtered ((currentPage - 1) * PAGE_SIZE) (currentPage * PAGE_SIZE)

/-- The updater passed to `setAttendance` by `handleStatusChange`:
`(prev) => ({ ...prev, [employeeId]: status })`. -/
def statusUpdater (employeeId status : String) (prev : JsObject) : JsObject :=
  createDataProperty (copyDataProperties prev) employeeId status

/-- `handleStatusChange`. -/
def handleStatusChange (employeeId status : String) (st : PageState) : List Effect :=
  [Effect.setAttendance (statusUpdater employeeId status st.attendance)]

/-- The mutable locals of the `for` loop of `handleMarkAttendance`, with the
world and the effects performed so far. -/
structure LoopState (σ : Type) where
  world : σ
  successCount : Nat
  errorMessages : List String
  effects : List Effect

/-- One iteration of `for (const [employeeId, status] of entries)`: issue the
call, await it, then count the success or record the error message. -/
def markStep {σ : Type} (mark : MarkApi σ) (markDate : String) (acc : LoopState σ)
    (entry : String × String) : LoopState σ :=
  let payload : MarkPayload := { employee_id := entry.1, date := markDate, status := entry.2 }
  match mark payload acc.world with
  | (Outcome.resolved, w) =>
    { world := w
      successCount := acc.successCount + 1
      errorMessages := acc.errorMessages
      effects := acc.effects ++ [Effect.markCall payload, Effect.markSettled Outcome.resolved] }
  | (Outcome.rejected message, w) =>
    { world := w
      successCount := acc.successCount
      errorMessages := acc.errorMessages ++ [entry.1 ++ ": " ++ message]
      effects := acc.effects ++
        [Effect.markCall payload, Effect.markSettled (Outcome.rejected message)] }

/-- Result of running `handleMarkAttendance`: the effects in program order,
the world after the calls, and the locals `successCount`, `errorMessages` as
they stand after the loop (`none` when the function returned before
declaring them). -/
structure MarkRun (σ : Type) where
  effects : List Effect
  world : σ
  batch : Option (Nat × List String)

/-- `handleMarkAttendance`. The outer `catch` is not reached: every rejection
of `attendanceApi.mark` is an `Error` and is handled by the inner `catch`, and
no other statement of the `try` block throws. -/
def handleMarkAttendance {σ : Type} (mark : MarkApi σ) (w : σ) (st : PageState) : MarkRun σ :=
  let entries := objectEntries st.attendance
  if entries.length = 0 then
    { effects := [Effect.setToast (some
        { message := "Please select attendance for at least one employee", type := "error" })]
      world := w
      batch := none }
  else
    let loop := entries.foldl (markStep mark st.markDate)
      { world := w, successCount := 0, errorMessages := [],
        effects := [Effect.setMarking true] }
    if loop.errorMessages.length > 0 then
      { effects := loop.effects ++
          [Effect.setToast (some
            { message := "Marked " ++ toString loop.successCount ++ " of " ++
                toString entries.length ++ ". Errors: " ++
                ", ".intercalate loop.errorMessages
              type := "error" }),
           Effect.setMarking false]
        world := loop.world
        batch := some (loop.successCount, loop.errorMessages) }
    else
      { effects := loop.effects ++
          [Effect.setToast (some
            { message := "Attendance marked for " ++ toString loop.successCount ++
                " employee(s)"
              type := "success" }),
           Effect.setAttendance [],
           Effect.setMarking false]
        world := loop.world
        batch := some (loop.successCount, loop.errorMessages) }

/-- `markedCount`. -/
def markedCount (st : PageState) : Nat := (objectKeys st.attendance).length

/-- The `disabled` attribute of the submit button. -/
def submitDisabled (st : PageState) : Bool :=
  st.marking || markedCount st == 0

end Attendance

namespace Employees

/-- `filteredEmployees` of the Employees page. -/
def filteredEmployees (toLowerCase : String → String) (employees : List Employee)
    (search : String) : List Employee :=
  employees.filter (fun emp =>
    includes (toLowerCase emp.full_name) (toLowerCase search) ||
    includes (toLowerCase emp.employee_id) (toLowerCase search) ||
    includes (toLowerCase emp.email) (toLowerCase search) ||
    includes (toLowerCase emp.department) (toLowerCase search))

end Employees

/-- Lower-casing of the letters `A`-`Z`; agrees with
`String.prototype.toLowerCase` on ASCII strings. -/
def toLowerCaseAscii (s : String) : String := ⟨s.data.map Char.toLower⟩

/-! ## Reference descriptions used in the statements -/

/-- `t` occurs in `s` as a contiguous block: `s = pre ++ t ++ post`. -/
def IsSubstring (t s : String) : Prop := t.data <:+: s.data

instance (t s : String) : Decidable (IsSubstring t s) := by
  unfold IsSubstring; infer_instance

/-- The payload the page sends for one pending entry. -/
def payloadOf (markDate : String) (entry : String × String) : MarkPayload :=
  { employee_id := entry.1, date := markDate, status := entry.2 }

/-- The pending entries whose call is rejected, each with the message of the
rejection, when the entries are submitted one after the other from world `w`. -/
def failures {σ : Type} (mark : MarkApi σ) (markDate : String) :
    σ → List (String × String) → List ((String × String) × String)
  | _, [] => []
  | w, e :: es =>
    match mark (payloadOf markDate e) w with
    | (Outcome.resolved, w') => failures mark markDate w' es
    | (Outcome.rejected message, w') => (e, message) :: failures mark markDate w' es

/-- A strictly sequential exchange with the mark API: every call is followed by
its own outcome, and the next call is issued in the world the previous call
left behind. -/
def sequentialCalls {σ : Type} (mark : MarkApi σ) : σ → List MarkPayload → List Attendance.Effect
  | _, [] => []
  | w, p :: ps =>
    Attendance.Effect.markCall p :: Attendance.Effect.markSettled (mark p w).1 ::
      sequentialCalls mark (mark p w).2 ps

/-- Effects that belong to the exchange with the mark API. -/
def isApiEvent : Attendance.Effect → Bool
  | .markCall _ => true
  | .markSettled _ => true
  | _ => false

/-- The payload of an issued call. -/
def callPayload : Attendance.Effect → Option MarkPayload
  | .markCall p => some p
  | _ => none

/-- A call that settled by resolving. -/
def isResolution : Attendance.Effect → Bool
  | .markSettled Outcome.resolved => true
  | _ => false

/-- A call that settled by rejecting. -/
def isRejection : Attendance.Effect → Bool
  | .markSettled (Outcome.rejected _) => true
  | _ => false

/-- The value passed to `setToast`. -/
def toastOf : Attendance.Effect → Option (Option Toast)
  | .setToast t => some t
  | _ => none

/-- A call of `setMarking`. -/
def isSetMarking : Attendance.Effect → Bool
  | .setMarking _ => true
  | _ => false

/-- A page state with three pending selections, one of them under a numeric
employee id. -/
def sampleState : Attendance.PageState :=
  { employees := []
    loading := false
    error := none
    toast := none
    search := ""
    currentPage := 1
    markDate := "2026-01-15"
    attendance := [("7", "Present"), ("EMP001", "Present"), ("EMP002", "Absent")]
    marking := false
    viewMode := "mark"
    selectedEmployee := ""
    attendanceRecords := []
    recordsLoading := false
    filterDate := "" }

/-- A mark API that rejects the calls for `EMP002` and counts the calls it
received. -/
def sampleMark : MarkApi Nat := fun p n =>
  (if p.employee_id = "EMP002" then Outcome.rejected "Attendance already marked" else
    Outcome.resolved, n + 1)

/-- Two employees of the sample roster. -/
def sampleEmployees : List Employee :=
  [ { id := 1, employee_id := "EMP001", full_name := "Jane Doe", email := "jane@x.com",
      department := "Engineering" },
    { id := 2, employee_id := "EMP002", full_name := "Raj Patel", email := "raj@x.com",
      department := "Sales" } ]

/-! ## Promises with a value -/

/-- How a promise settles when the caller uses the value: it resolves with
`value`, or it rejects with an `Error` carrying `message`. -/
inductive Settled (α : Type) where
  | resolved (value : α)
  | rejected (message : String)
  deriving DecidableEq, Repr

/-- What is left of a settled promise for a caller that ignores the value. -/
def Settled.toOutcome {α : Type} : Settled α → Outcome
  | .resolved _ => Outcome.resolved
  | .rejected message => Outcome.rejected message

/-- Message of the `TypeError` thrown when property `prop` is read from
`null`. The wording is the engine's (here V8's); the program only passes it
on. -/
def nullReadMessage (prop : String) : String :=
  "Cannot read properties of null (reading '" ++ prop ++ "')"

/-! ## Strings: white space and regular expressions -/

/-- The code points of the ECMAScript productions `WhiteSpace` and
`LineTerminator`; they are what `String.prototype.trim` strips and what `\s`
matches. -/
def isWhiteSpace (c : Char) : Bool :=
  c.toNat == 9 || c.toNat == 10 || c.toNat == 11 || c.toNat == 12 || c.toNat == 13 ||
  c.toNat == 32 || c.toNat == 160 || c.toNat == 5760 ||
  (decide (8192 ≤ c.toNat) && decide (c.toNat ≤ 8202)) ||
  c.toNat == 8232 || c.toNat == 8233 || c.toNat == 8239 || c.toNat == 8287 ||
  c.toNat == 12288 || c.toNat == 65279

/-- `String.prototype.trim`. -/
def trim (s : String) : String :=
  ⟨((s.data.dropWhile isWhiteSpace).reverse.dropWhile isWhiteSpace).reverse⟩

/-- Regular expressions without captures, assertions or back-references; a
character class is given by its membership test. -/
inductive Regex where
  | nothing
  | empty
  | cls (p : Char → Bool)
  | alt (a b : Regex)
  | seq (a b : Regex)
  | star (a : Regex)

namespace Regex

/-- The pattern `a+`. -/
def plus (a : Regex) : Regex := seq a (star a)

/-- Whether the pattern matches the empty string. -/
def nullable : Regex → Bool
  | nothing => false
  | empty => true
  | cls _ => false
  | alt a b => nullable a || nullable b
  | seq a b => nullable a && nullable b
  | star _ => true

/-- The pattern matching what is left of a match after the character `c`. -/
def deriv : Regex → Char → Regex
  | nothing, _ => nothing
  | empty, _ => nothing
  | cls p, c => if p c then empty else nothing
  | alt a b, c => alt (deriv a c) (deriv b c)
  | seq a b, c =>
    if nullable a then alt (seq (deriv a c) b) (deriv b c) else seq (deriv a c) b
  | star a, c => seq (deriv a c) (star a)

/-- `/^pattern$/.test(s)`: the pattern matches the whole of `s`. For patterns of
this kind the backtracking search of the engine finds a match exactly when one
exists, which is what the derivatives decide. -/
def test : Regex → List Char → Bool
  | r, [] => nullable r
  | r, c :: s => test (deriv r c) s

end Regex

/-- The class `[^\s@]`. -/
def notSpaceOrAt (c : Char) : Bool := !(isWhiteSpace c || c == '@')

/-- The pattern of `/^[^\s@]+@[^\s@]+\.[^\s@]+$/`. -/
def emailPattern : Regex :=
  Regex.seq (Regex.plus (Regex.cls notSpaceOrAt))
    (Regex.seq (Regex.cls (fun c => c == '@'))
      (Regex.seq (Regex.plus (Regex.cls notSpaceOrAt))
        (Regex.seq (Regex.cls (fun c => c == '.'))
          (Regex.plus (Regex.cls notSpaceOrAt)))))

/-! ## api.js -/

/-- A value produced by `JSON.parse`. -/
inductive Json where
  | null
  | bool (b : Bool)
  | num (value : ℚ)
  | str (s : String)
  | arr (items : List Json)
  | obj (props : List (String × Json))

/-- `ToBoolean` on a parsed value. -/
def Json.truthy : Json → Bool
  | .null => false
  | .bool b => b
  | .num value => decide (value ≠ 0)
  | .str s => decide (s ≠ "")
  | .arr _ => true
  | .obj _ => true

/-- `value.detail` for a parsed value other than `null`: the own property of
an object, `undefined` (here `none`) for every other value. -/
def Json.detail : Json → Option Json
  | .obj props => (props.find? (fun p => p.1 == "detail")).map Prod.snd
  | _ => none

/-- A `Response` as far as `request` looks at it: the status, and how
`response.json()` settles (it rejects when the body is absent or is not
JSON). -/
structure Response where
  status : Nat
  json : Settled Json

/-- `response.ok`: the status is in the range 200-299. -/
def Response.ok (response : Response) : Bool :=
  decide (200 ≤ response.status) && decide (response.status ≤ 299)

/-- The `options` argument of `request`. -/
structure RequestOptions where
  method : Option String
  body : Option String

/-- The `config` passed to `fetch`. -/
structure FetchConfig where
  headers : List (String × String)
  method : Option String
  body : Option String
  deriving DecidableEq, Repr

/-- The global `fetch`: it resolves with a response or rejects (the transport
failed). `σ` is the state of the outside world. -/
abbrev FetchApi (σ : Type) := String → FetchConfig → σ → Settled Response × σ

/-- `API_BASE`, from the value of `import.meta.env.VITE_API_URL`. -/
def API_BASE (VITE_API_URL : Option String) : String :=
  (match VITE_API_URL with
    | some url => if url = "" then "http://localhost:8000" else url
    | none => "http://localhost:8000") ++ "/api"

/-- The message `request` gives to `new Error` on a non-success response whose
error data is `errorData`: `errorData.detail || "Request failed with status N"`,
converted to a string by the `Error` constructor (`jsToString` is `ToString`
on values that are not strings). -/
def errorMessage (jsToString : Json → String) (status : Nat) (errorData : Json) : String :=
  match errorData.detail with
  | some detail =>
    if detail.truthy then
      match detail with
      | .str s => s
      | other => jsToString other
    else "Request failed with status " ++ toString status
  | none => "Request failed with status " ++ toString status

/-- `request`. -/
def request {σ : Type} (base : String) (fetch : FetchApi σ) (jsToString : Json → String)
    (endpoint : String) (options : RequestOptions) (w : σ) : Settled Json × σ :=
  let url := base ++ endpoint
  let config : FetchConfig :=
    { headers := [("Content-Type", "application/json")]
      method := options.method
      body := options.body }
  match fetch url config w with
  | (Settled.rejected message, w1) => (Settled.rejected message, w1)
  | (Settled.resolved response, w1) =>
    if !response.ok then
      let errorData : Json :=
        match response.json with
        | Settled.resolved value => value
        | Settled.rejected _ => Json.obj []
      match errorData with
      | Json.null => (Settled.rejected (nullReadMessage "detail"), w1)
      | data => (Settled.rejected (errorMessage jsToString response.status data), w1)
    else
      (response.json, w1)

namespace employeeApi

/-- `employeeApi.getAll`. -/
def getAll {σ : Type} (base : String) (fetch : FetchApi σ) (jsToString : Json → String)
    (w : σ) : Settled Json × σ :=
  request base fetch jsToString "/employees" { method := none, body := none } w

/-- `employeeApi.create`; `stringify` is `JSON.stringify`. -/
def create {σ α : Type} (base : String) (fetch : FetchApi σ) (jsToString : Json → String)
    (stringify : α → String) (data : α) (w : σ) : Settled Json × σ :=
  request base fetch jsToString "/employees"
    { method := some "POST", body := some (stringify data) } w

/-- `employeeApi.delete`. -/
def delete {σ : Type} (base : String) (fetch : FetchApi σ) (jsToString : Json → String)
    (id : String) (w : σ) : Settled Json × σ :=
  request base fetch jsToString ("/employees/" ++ id) { method := some "DELETE", body := none } w

end employeeApi

/-! ## Employees.jsx -/

namespace Employees

/-- The value of the creation form. -/
structure Form where
  employee_id : String
  full_name : String
  email : String
  department : String
  deriving DecidableEq, Repr

/-- `initialForm`. -/
def initialForm : Form :=
  { employee_id := "", full_name := "", email := "", department := "" }

/-- The `useState` cells of the `Employees` component. -/
structure PageState where
  employees : List Employee
  loading : Bool
  error : Option String
  showAddModal : Bool
  form : Form
  formErrors : JsObject
  submitting : Bool
  deleteTarget : Option Employee
  deleting : Bool
  toast : Option Toast
  search : String
  deriving DecidableEq, Repr

/-- The operations of `employeeApi` seen from the page: `getAll` resolves with
the list it stores, the responses of `create` and `delete` are not used. -/
structure EmployeeApi (σ : Type) where
  getAll : σ → Settled (List Employee) × σ
  create : Form → σ → Outcome × σ
  delete : String → σ → Outcome × σ

/-- What a handler of the page does, in program order: calls of the state
setters, `e.preventDefault()`, and for each API operation the issue of a call
and the settling of its promise. -/
inductive Effect where
  | setEmployees (v : List Employee)
  | setLoading (v : Bool)
  | setError (v : Option String)
  | setShowAddModal (v : Bool)
  | setForm (v : Form)
  | setFormErrors (v : JsObject)
  | setSubmitting (v : Bool)
  | setDeleteTarget (v : Option Employee)
  | setDeleting (v : Bool)
  | setToast (v : Option Toast)
  | setSearch (v : String)
  | preventDefault
  | getAllCall
  | getAllSettled (outcome : Settled (List Employee))
  | createCall (data : Form)
  | createSettled (outcome : Outcome)
  | deleteCall (id : String)
  | deleteSettled (outcome : Outcome)
  deriving DecidableEq, Repr

/-- State after one effect. -/
def applyEffect (st : PageState) : Effect → PageState
  | .setEmployees v => { st with employees := v }
  | .setLoading v => { st with loading := v }
  | .setError v => { st with error := v }
  | .setShowAddModal v => { st with showAddModal := v }
  | .setForm v => { st with form := v }
  | .setFormErrors v => { st with formErrors := v }
  | .setSubmitting v => { st with submitting := v }
  | .setDeleteTarget v => { st with deleteTarget := v }
  | .setDeleting v => { st with deleting := v }
  | .setToast v => { st with toast := v }
  | .setSearch v => { st with search := v }
  | .preventDefault => st
  | .getAllCall => st
  | .getAllSettled _ => st
  | .createCall _ => st
  | .createSettled _ => st
  | .deleteCall _ => st
  | .deleteSettled _ => st

/-- State after a list of effects. -/
def applyEffects (st : PageState) (es : List Effect) : PageState :=
  es.foldl applyEffect st

/-- Result of running a handler: its effects in program order and the world
after its calls. -/
structure Run (σ : Type) where
  effects : List Effect
  world : σ

/-- `fetchEmployees` up to its `await`: the part that runs inside the caller's
turn, ending with the issue of the call. -/
def fetchEmployeesBegin : List Effect :=
  [Effect.setLoading true, Effect.setError none, Effect.getAllCall]

/-- `fetchEmployees` from the settling of `employeeApi.getAll()` on. -/
def fetchEmployeesEnd : Settled (List Employee) → List Effect
  | Settled.resolved data =>
    [Effect.getAllSettled (Settled.resolved data), Effect.setEmployees data,
     Effect.setLoading false]
  | Settled.rejected message =>
    [Effect.getAllSettled (Settled.rejected message), Effect.setError (some message),
     Effect.setLoading false]

/-- `fetchEmployees`. -/
def fetchEmployees {σ : Type} (api : EmployeeApi σ) (w : σ) : Run σ :=
  { effects := fetchEmployeesBegin ++ fetchEmployeesEnd (api.getAll w).1
    world := (api.getAll w).2 }

/-- `validateForm`; the result is the object `errors`. -/
def validateForm (form : Form) : JsObject :=
  let errors : JsObject := []
  let errors :=
    if trim form.employee_id = "" then
      createDataProperty errors "employee_id" "Employee ID is required"
    else errors
  let errors :=
    if trim form.full_name = "" then
      createDataProperty errors "full_name" "Full name is required"
    else errors
  let errors :=
    if trim form.email = "" then
      createDataProperty errors "email" "Email is required"
    else if !(emailPattern.test form.email.data) then
      createDataProperty errors "email" "Enter a valid email address"
    else errors
  let errors :=
    if trim form.department = "" then
      createDataProperty errors "department" "Department is required"
    else errors
  errors

/-- `handleSubmit`. `fetchEmployees()` is called without `await`: the handler
goes on to its `finally` once the call of `getAll` is issued, and the rest of
`fetchEmployees` runs when that call settles. -/
def handleSubmit {σ : Type} (api : EmployeeApi σ) (w : σ) (st : PageState) : Run σ :=
  let errors := validateForm st.form
  if (objectKeys errors).length > 0 then
    { effects := [Effect.preventDefault, Effect.setFormErrors errors]
      world := w }
  else
    match api.create st.form w with
    | (Outcome.resolved, w1) =>
      { effects :=
          [Effect.preventDefault, Effect.setSubmitting true, Effect.createCall st.form,
           Effect.createSettled Outcome.resolved,
           Effect.setShowAddModal false, Effect.setForm initialForm, Effect.setFormErrors [],
           Effect.setToast (some { message := "Employee added successfully!", type := "success" })]
          ++ fetchEmployeesBegin ++ [Effect.setSubmitting false]
          ++ fetchEmployeesEnd (api.getAll w1).1
        world := (api.getAll w1).2 }
    | (Outcome.rejected message, w1) =>
      { effects :=
          [Effect.preventDefault, Effect.setSubmitting true, Effect.createCall st.form,
           Effect.createSettled (Outcome.rejected message),
           Effect.setToast (some { message := message, type := "error" }),
           Effect.setSubmitting false]
        world := w1 }

/-- `handleDelete`. With `deleteTarget` null the argument of the call throws a
`TypeError` inside the `try` block and no call is issued. -/
def handleDelete {σ : Type} (api : EmployeeApi σ) (w : σ) (st : PageState) : Run σ :=
  match st.deleteTarget with
  | none =>
    { effects :=
        [Effect.setDeleting true,
         Effect.setToast (some { message := nullReadMessage "employee_id", type := "error" }),
         Effect.setDeleting false]
      world := w }
  | some target =>
    match api.delete target.employee_id w with
    | (Outcome.resolved, w1) =>
      { effects :=
          [Effect.setDeleting true, Effect.deleteCall target.employee_id,
           Effect.deleteSettled Outcome.resolved,
           Effect.setDeleteTarget none,
           Effect.setToast (some { message := "Employee deleted successfully", type := "success" })]
          ++ fetchEmployeesBegin ++ [Effect.setDeleting false]
          ++ fetchEmployeesEnd (api.getAll w1).1
        world := (api.getAll w1).2 }
    | (Outcome.rejected message, w1) =>
      { effects :=
          [Effect.setDeleting true, Effect.deleteCall target.employee_id,
           Effect.deleteSettled (Outcome.rejected message),
           Effect.setToast (some { message := message, type := "error" }),
           Effect.setDeleting false]
        world := w1 }

end Employees

/-! ## Reference descriptions for the creation form and the API client -/

/-- The field value is blank: nothing but white space. -/
def IsBlank (value : String) : Prop := ∀ c ∈ value.data, isWhiteSpace c = true

instance (value : String) : Decidable (IsBlank value) := by
  unfold IsBlank; infer_instance

/-- The shape `local@domain.tld`: no white space, exactly one `@`, a non-empty
local part before the `@`, and after it a domain containing a `.` with at least
one character before it and at least one character after it. -/
def HasEmailShape (email : String) : Prop :=
  (∀ c ∈ email.data, isWhiteSpace c = false) ∧
  email.data.count '@' = 1 ∧
  ∃ loc dom : List Char, email.data = loc ++ '@' :: dom ∧ loc ≠ [] ∧
    ∃ d1 d2 : List Char, dom = d1 ++ '.' :: d2 ∧ d1 ≠ [] ∧ d2 ≠ []

/-- The generic message for a response with status `N`. -/
def genericMessage (status : Nat) : String :=
  "Request failed with status " ++ toString status

/-- The form data of a call of `employeeApi.create`. -/
def Employees.createData : Employees.Effect → Option Employees.Form
  | .createCall data => some data
  | _ => none

/-- The id of a call of `employeeApi.delete`. -/
def Employees.deleteId : Employees.Effect → Option String
  | .deleteCall id => some id
  | _ => none

/-- Effects that issue a network call. -/
def Employees.isCall : Employees.Effect → Bool
  | .getAllCall => true
  | .createCall _ => true
  | .deleteCall _ => true
  | _ => false

/-- Issue of a call of `employeeApi.getAll`. -/
def Employees.isGetAllCall : Employees.Effect → Bool
  | .getAllCall => true
  | _ => false

/-- The list passed to `setEmployees`. -/
def Employees.employeesSet : Employees.Effect → Option (List Employee)
  | .setEmployees v => some v
  | _ => none

/-- The value passed to `setToast`. -/
def Employees.toastSet : Employees.Effect → Option (Option Toast)
  | .setToast v => some v
  | _ => none

/-- A page state of the Employees page with the creation form open and
filled in, and a delete target chosen. -/
def Employees.sampleState : Employees.PageState :=
  { employees := sampleEmployees
    loading := false
    error := none
    showAddModal := true
    form := { employee_id := "EMP010", full_name := "Jane Doe", email := "jane@x.com",
              department := "Engineering" }
    formErrors := []
    submitting := false
    deleteTarget := some { id := 2, employee_id := "EMP002", full_name := "Raj Patel",
                           email := "raj@x.com", department := "Sales" }
    deleting := false
    toast := none
    search := "" }

/-- An API whose world counts the calls: `getAll` resolves with the sample
roster, `create` resolves, `delete` resolves. -/
def Employees.sampleApi : Employees.EmployeeApi Nat :=
  { getAll := fun n => (Settled.resolved sampleEmployees, n + 1)
    create := fun _ n => (Outcome.resolved, n + 1)
    delete := fun _ n => (Outcome.resolved, n + 1) }

/-- An API whose `create` and `delete` reject. -/
def Employees.failingApi : Employees.EmployeeApi Nat :=
  { getAll := fun n => (Settled.resolved sampleEmployees, n + 1)
    create := fun _ n => (Outcome.rejected "Employee ID already exists", n + 1)
    delete := fun _ n => (Outcome.rejected "Employee not found", n + 1) }

/-- A stand-in for `ToString` on values that are not strings. -/
def sampleToString : Json → String := fun _ => "[object Object]"

/-- A server that answers every request with status 400 and the body
`{"detail": ""}`. -/
def fetchEmptyDetail : FetchApi Nat := fun _ _ n =>
  (Settled.resolved
    { status := 400, json := Settled.resolved (Json.obj [("detail", Json.str "")]) }, n + 1)

/-- A server that answers every request with status 404 and the body
`{"detail": "Employee not found"}`. -/
def fetchNotFound : FetchApi Nat := fun _ _ n =>
  (Settled.resolved
    { status := 404
      json := Settled.resolved (Json.obj [("detail", Json.str "Employee not found")]) }, n + 1)

/-- A transport that fails: `fetch` rejects. -/
def fetchOffline : FetchApi Nat := fun _ _ n => (Settled.rejected "Failed to fetch", n + 1)

/-- A server that answers every request with status 204 and no body, so that
`response.json()` rejects. -/
def fetchNoContent : FetchApi Nat := fun _ _ n =>
  (Settled.resolved
    { status := 204, json := Settled.rejected "Unexpected end of JSON input" }, n + 1)

/-- A server that answers every request with status 200 and a JSON body. -/
def fetchDeleted : FetchApi Nat := fun _ _ n =>
  (Settled.resolved
    { status := 200
      json := Settled.resolved
        (Json.obj [("message", Json.str "Employee deleted successfully")]) }, n + 1)

/-- The page API whose `delete` goes through `employeeApi.delete` to a server
answering with status 204 and no body. -/
def Employees.noContentApi : Employees.EmployeeApi Nat :=
  { getAll := fun n => (Settled.resolved sampleEmployees, n + 1)
    create := fun _ n => (Outcome.resolved, n + 1)
    delete := fun id n =>
      ((employeeApi.delete (API_BASE none) fetchNoContent sampleToString id n).1.toOutcome,
       (employeeApi.delete (API_BASE none) fetchNoContent sampleToString id n).2) }

/-! ## Dates -/

/-- Year, month and day of the month of the day that lies `days` days after
1970-01-01, in the proleptic Gregorian calendar (what `YearFromTime`,
`MonthFromTime` and `DateFromTime` compute). -/
def civilFromDays (days : Nat) : Nat × Nat × Nat :=
  let z := days + 719468
  let era := z / 146097
  let doe := z - era * 146097
  let yoe := (doe - doe / 1460 + doe / 36524 - doe / 146096) / 365
  let doy := doe - (365 * yoe + yoe / 4 - yoe / 100)
  let mp := (5 * doy + 2) / 153
  let d := doy - (153 * mp + 2) / 5 + 1
  let m := if mp < 10 then mp + 3 else mp - 9
  (if m ≤ 2 then yoe + era * 400 + 1 else yoe + era * 400, m, d)

/-- The decimal form of `n`, padded with zeros on the left to `width`. -/
def padZero (width n : Nat) : String :=
  ⟨List.replicate (width - (toString n).length) '0'⟩ ++ toString n

/-- The form `YYYY-MM-DD` of the day that contains the instant `ms`
milliseconds after the epoch, on a clock that shows UTC at the epoch. -/
def dateString (ms : Nat) : String :=
  padZero 4 (civilFromDays (ms / 86400000)).1 ++ "-" ++
  padZero 2 (civilFromDays (ms / 86400000)).2.1 ++ "-" ++
  padZero 2 (civilFromDays (ms / 86400000)).2.2

/-- `Date.prototype.toISOString` for an instant `ms` milliseconds after the
epoch (years 1970 to 9999): the UTC date and time. -/
def toISOString (ms : Nat) : String :=
  dateString ms ++ "T" ++ padZero 2 (ms / 3600000 % 24) ++ ":" ++
  padZero 2 (ms / 60000 % 60) ++ ":" ++ padZero 2 (ms / 1000 % 60) ++ "." ++
  padZero 3 (ms % 1000) ++ "Z"

/-- `String.prototype.slice(start, end)`. -/
def stringSlice (s : String) (start stop : Int) : String :=
  ⟨slice s.data start stop⟩

/-- The calendar date, as `YYYY-MM-DD`, that it is at the instant `now` for a
user whose local time is `offsetMinutes` minutes ahead of UTC. -/
def localCalendarDate (now : Nat) (offsetMinutes : Int) : String :=
  dateString ((now : Int) + offsetMinutes * 60000).toNat

/-! ## The phase a page renders -/

/-- What the component renders first: the spinner, the error state, or the
page. -/
inductive Phase where
  | loading
  | error
  | loaded
  deriving DecidableEq, Repr

/-- What a render yields: one of the three phases, or a `TypeError` thrown
while rendering. -/
inductive Rendered where
  | phase (p : Phase)
  | typeError
  deriving DecidableEq, Repr

/-- The render of the Employees page and of the Attendance page,
`if (loading) return <LoadingSpinner/>; if (error) return <ErrorState/>;`
and then the page, for a loading flag and an error that is `null` or a
message. What follows the two tests reads `employees`, an array from the
first render on. The Dashboard is `Dashboard.render`. -/
def renderedPhase (loading : Bool) (error : Option String) : Phase :=
  if loading then Phase.loading
  else
    match error with
    | some message => if message ≠ "" then Phase.error else Phase.loaded
    | none => Phase.loaded

/-! ## Attendance.jsx: fetches, counters and page controls -/

namespace Attendance

/-- The initial value of `markDate`, `new Date().toISOString().slice(0, 10)`,
when the component is created at the instant `now`. -/
def initialMarkDate (now : Nat) : String :=
  stringSlice (toISOString now) 0 10

/-- The read operations of the API seen from the page: `employeeApi.getAll`
and `attendanceApi.getByEmployee(employeeId, date)`, `none` standing for an
`undefined` date. -/
structure ReadApi (σ : Type) where
  getAll : σ → Settled (List Employee) × σ
  getByEmployee : String → Option String → σ → Settled (List AttendanceRecord) × σ

/-- Result of running a function of the page: its effects in program order and
the world after its calls. -/
structure Run (σ : Type) where
  effects : List Effect
  world : σ

/-- `fetchEmployees` up to its `await`. -/
def fetchEmployeesBegin : List Effect :=
  [Effect.setLoading true, Effect.setError none, Effect.getAllCall]

/-- `fetchEmployees` from the settling of `employeeApi.getAll()` on. -/
def fetchEmployeesEnd : Settled (List Employee) → List Effect
  | Settled.resolved data =>
    [Effect.getAllSettled Outcome.resolved, Effect.setEmployees data, Effect.setLoading false]
  | Settled.rejected message =>
    [Effect.getAllSettled (Outcome.rejected message), Effect.setError (some message),
     Effect.setLoading false]

/-- `fetchEmployees`. -/
def fetchEmployees {σ : Type} (api : ReadApi σ) (w : σ) : Run σ :=
  { effects := fetchEmployeesBegin ++ fetchEmployeesEnd (api.getAll w).1
    world := (api.getAll w).2 }

/-- `fetchAttendance(empId, dateFilter)`. -/
def fetchAttendance {σ : Type} (api : ReadApi σ) (empId dateFilter : String) (w : σ) : Run σ :=
  if empId = "" then
    { effects := [], world := w }
  else
    let date : Option String := if dateFilter = "" then none else some dateFilter
    match api.getByEmployee empId date w with
    | (Settled.resolved data, w1) =>
      { effects :=
          [Effect.setRecordsLoading true, Effect.getByEmployeeCall empId date,
           Effect.getByEmployeeSettled Outcome.resolved,
           Effect.setAttendanceRecords data, Effect.setRecordsLoading false]
        world := w1 }
    | (Settled.rejected message, w1) =>
      { effects :=
          [Effect.setRecordsLoading true, Effect.getByEmployeeCall empId date,
           Effect.getByEmployeeSettled (Outcome.rejected message),
           Effect.setToast (some { message := message, type := "error" }),
           Effect.setRecordsLoading false]
        world := w1 }

/-- The effect `useEffect(..., [selectedEmployee, filterDate, viewMode])` after
a render in state `st`; `prev` is the state of the previous render, `none` on
mount. The effect runs when one of its dependencies has changed. -/
def viewModeEffect {σ : Type} (api : ReadApi σ) (prev : Option PageState) (st : PageState)
    (w : σ) : Run σ :=
  let changed : Bool :=
    match prev with
    | none => true
    | some old =>
      decide (old.selectedEmployee ≠ st.selectedEmployee) ||
      decide (old.filterDate ≠ st.filterDate) || decide (old.viewMode ≠ st.viewMode)
  if changed then
    if st.selectedEmployee ≠ "" ∧ st.viewMode = "view" then
      fetchAttendance api st.selectedEmployee st.filterDate w
    else { effects := [], world := w }
  else { effects := [], world := w }

/-- `presentCount`. -/
def presentCount (st : PageState) : Nat :=
  (st.attendanceRecords.filter (fun r => r.status == "Present")).length

/-- `absentCount`. -/
def absentCount (st : PageState) : Nat :=
  (st.attendanceRecords.filter (fun r => r.status == "Absent")).length

/-- Whether the pagination controls are rendered: the page is loaded, there
are employees, the mode is `mark`, the filtered list is not empty and
`totalPages > 1`. -/
def paginationShown (toLowerCase : String → String) (st : PageState) : Bool :=
  decide (renderedPhase st.loading st.error = Phase.loaded) &&
  decide (st.employees.length ≠ 0) && decide (st.viewMode = "mark") &&
  decide ((filteredEmployees toLowerCase st.employees st.search).length ≠ 0) &&
  decide (totalPages (filteredEmployees toLowerCase st.employees st.search) > 1)

/-- The `onChange` handler of the search box: `setSearch(e.target.value)`. -/
def handleSearchChange (value : String) (_st : PageState) : List Effect :=
  [Effect.setSearch value]

/-- The effect `useEffect(() => { setCurrentPage(1); }, [search])` after a
render in state `st`; `prev` is the state of the previous render, `none` on
mount. The effect runs when `search` has changed. -/
def resetPageEffect (prev : Option PageState) (st : PageState) : List Effect :=
  match prev with
  | none => [Effect.setCurrentPage 1]
  | some old => if old.search ≠ st.search then [Effect.setCurrentPage 1] else []

/-- The state of the render that is committed after the search box has been
set to `value`, before the effects of that render run. -/
def searchRender (value : String) (st : PageState) : PageState :=
  applyEffects st (handleSearchChange value st)

/-- Clicking `Prev`: `setCurrentPage((p) => Math.max(1, p - 1))`, when the
button is rendered and not disabled. -/
def prevPage (toLowerCase : String → String) (st : PageState) : List Effect :=
  if paginationShown toLowerCase st = true ∧ st.currentPage ≠ 1 then
    [Effect.setCurrentPage (max 1 (st.currentPage - 1))]
  else []

/-- Clicking `Next`: `setCurrentPage((p) => Math.min(totalPages, p + 1))`, when
the button is rendered and not disabled. -/
def nextPage (toLowerCase : String → String) (st : PageState) : List Effect :=
  if paginationShown toLowerCase st = true ∧
      st.currentPage ≠ totalPages (filteredEmployees toLowerCase st.employees st.search) then
    [Effect.setCurrentPage
      (min (totalPages (filteredEmployees toLowerCase st.employees st.search))
        (st.currentPage + 1))]
  else []

/-- Clicking the button of page `page`; the buttons are those of
`Array.from({ length: totalPages }, (_, i) => i + 1)`. -/
def clickPage (toLowerCase : String → String) (page : Int) (st : PageState) : List Effect :=
  if paginationShown toLowerCase st = true ∧ 1 ≤ page ∧
      page ≤ totalPages (filteredEmployees toLowerCase st.employees st.search) then
    [Effect.setCurrentPage page]
  else []

/-- Choosing a date in the date input of mark mode: `setMarkDate(value)`. -/
def handleMarkDateChange (value : String) (_st : PageState) : List Effect :=
  [Effect.setMarkDate value]

/-- The actions on the page number of mark mode. -/
inductive PageAction where
  | changeSearch (value : String)
  | prev
  | next
  | click (page : Int)

/-- State after one action, once the effects of its render have run: a search
change goes through `searchRender` and then the reset effect of that render. -/
def pageStep (toLowerCase : String → String) (st : PageState) : PageAction → PageState
  | .changeSearch value =>
    applyEffects (searchRender value st) (resetPageEffect (some st) (searchRender value st))
  | .prev => applyEffects st (prevPage toLowerCase st)
  | .next => applyEffects st (nextPage toLowerCase st)
  | .click page => applyEffects st (clickPage toLowerCase page st)

end Attendance

/-! ## api.js: attendance -/

namespace attendanceApi

/-- `attendanceApi.getByEmployee`; `date` is `none` when the argument is
`undefined`. -/
def getByEmployee {σ : Type} (base : String) (fetch : FetchApi σ) (jsToString : Json → String)
    (employeeId : String) (date : Option String) (w : σ) : Settled Json × σ :=
  let params : String :=
    match date with
    | some d => if d ≠ "" then "?date=" ++ d else ""
    | none => ""
  request base fetch jsToString ("/attendance/" ++ employeeId ++ params)
    { method := none, body := none } w

end attendanceApi

namespace dashboardApi

/-- `dashboardApi.getSummary`. -/
def getSummary {σ : Type} (base : String) (fetch : FetchApi σ) (jsToString : Json → String)
    (w : σ) : Settled Json × σ :=
  request base fetch jsToString "/dashboard/summary" { method := none, body := none } w

end dashboardApi

/-! ## Dashboard.jsx -/

namespace Dashboard

/-- A row of `department_breakdown`. -/
structure DepartmentCount where
  department : String
  count : Nat
  deriving DecidableEq, Repr

/-- A row of `attendance_summary`. -/
structure AttendanceSummaryRow where
  employee_id : String
  full_name : String
  department : String
  present_days : Nat
  deriving DecidableEq, Repr

/-- The dashboard summary returned by the API. -/
structure DashboardSummary where
  total_employees : Nat
  present_today : Nat
  absent_today : Nat
  not_marked_today : Nat
  department_breakdown : List DepartmentCount
  attendance_summary : List AttendanceSummaryRow
  deriving DecidableEq, Repr

/-- The `useState` cells of the `Dashboard` component. -/
structure PageState where
  summary : Option DashboardSummary
  loading : Bool
  error : Option String
  deriving DecidableEq, Repr

/-- What `fetchSummary` does, in program order. -/
inductive Effect where
  | setSummary (v : Option DashboardSummary)
  | setLoading (v : Bool)
  | setError (v : Option String)
  | getSummaryCall
  | getSummarySettled (outcome : Outcome)
  deriving DecidableEq, Repr

/-- State after one effect. -/
def applyEffect (st : PageState) : Effect → PageState
  | .setSummary v => { st with summary := v }
  | .setLoading v => { st with loading := v }
  | .setError v => { st with error := v }
  | .getSummaryCall => st
  | .getSummarySettled _ => st

/-- State after a list of effects. -/
def applyEffects (st : PageState) (es : List Effect) : PageState :=
  es.foldl applyEffect st

/-- The cells at the first render: `useState(null)`, `useState(true)`,
`useState(null)`. -/
def initialState : PageState :=
  { summary := none, loading := true, error := none }

/-- The render of `Dashboard`: the spinner when `loading`, the error state when
`error` is truthy; after these two tests `statCards` reads
`summary.total_employees`, which throws a `TypeError` when `summary` is
`null`. -/
def render (st : PageState) : Rendered :=
  if st.loading then Rendered.phase Phase.loading
  else
    match st.error with
    | some message =>
      if message ≠ "" then Rendered.phase Phase.error
      else
        match st.summary with
        | some _ => Rendered.phase Phase.loaded
        | none => Rendered.typeError
    | none =>
      match st.summary with
      | some _ => Rendered.phase Phase.loaded
      | none => Rendered.typeError

/-- `fetchSummary` up to its `await`. -/
def fetchSummaryBegin : List Effect :=
  [Effect.setLoading true, Effect.setError none, Effect.getSummaryCall]

/-- `fetchSummary` from the settling of `dashboardApi.getSummary()` on. -/
def fetchSummaryEnd : Settled DashboardSummary → List Effect
  | Settled.resolved data =>
    [Effect.getSummarySettled Outcome.resolved, Effect.setSummary (some data),
     Effect.setLoading false]
  | Settled.rejected message =>
    [Effect.getSummarySettled (Outcome.rejected message), Effect.setError (some message),
     Effect.setLoading false]

/-- `fetchSummary`; `getSummary` is `dashboardApi.getSummary`. -/
def fetchSummary {σ : Type} (getSummary : σ → Settled DashboardSummary × σ) (w : σ) :
    List Effect × σ :=
  (fetchSummaryBegin ++ fetchSummaryEnd (getSummary w).1, (getSummary w).2)

end Dashboard

/-! ## Reference descriptions for the fetches and the page controls -/

/-- The `getByEmployee` calls among the effects: employee id and date. -/
def Attendance.recordRequests : Attendance.Effect → Option (String × Option String)
  | .getByEmployeeCall employeeId date => some (employeeId, date)
  | _ => none

/-- State after a sequence of page-number actions. -/
def Attendance.pageRun (toLowerCase : String → String) (st : Attendance.PageState)
    (actions : List Attendance.PageAction) : Attendance.PageState :=
  actions.foldl (Attendance.pageStep toLowerCase) st

/-- A transport that records the URL of each request and never answers. -/
def fetchRecording : FetchApi (List String) := fun url _ log =>
  (Settled.rejected "Failed to fetch", log ++ [url])

/-- A read API whose calls reject; the rejection of `getAll` carries no text. -/
def Attendance.failingReadApi : Attendance.ReadApi Nat :=
  { getAll := fun n => (Settled.rejected "", n + 1)
    getByEmployee := fun _ _ n => (Settled.rejected "Employee not found", n + 1) }

/-- A read API whose calls resolve. -/
def Attendance.sampleReadApi : Attendance.ReadApi Nat :=
  { getAll := fun n => (Settled.resolved sampleEmployees, n + 1)
    getByEmployee := fun employeeId date n =>
      (Settled.resolved
        [{ id := 1, employee_id := employeeId, date := date.getD "2026-01-14",
           status := "Present" }], n + 1) }

/-- The sample page in view mode with an employee selected, a date filter set
and two records loaded. -/
def Attendance.sampleViewState : Attendance.PageState :=
  { sampleState with
    employees := sampleEmployees
    viewMode := "view"
    selectedEmployee := "EMP001"
    filterDate := "2026-01-15"
    attendanceRecords :=
      [{ id := 1, employee_id := "EMP002", date := "2026-01-13", status := "Present" },
       { id := 2, employee_id := "EMP002", date := "2026-01-14", status := "Absent" }] }

/-- `ToString` on the values used here: the empty array gives the empty
string (`[].join(",")`), every other value stands for an object. -/
def arrayToString : Json → String
  | .arr [] => ""
  | _ => "[object Object]"

/-- A server that answers every request with status 500 and the body
`{"detail": []}`. -/
def fetchEmptyList : FetchApi Nat := fun _ _ n =>
  (Settled.resolved
    { status := 500, json := Settled.resolved (Json.obj [("detail", Json.arr [])]) }, n + 1)

/-- A `dashboardApi.getSummary` that rejects with an error that carries no
text. -/
def Dashboard.silentSummary : Nat → Settled Dashboard.DashboardSummary × Nat :=
  fun n => (Settled.rejected "", n + 1)

/-- A roster of 45 employees, `E1` to `E45`. -/
def Attendance.roster : List Employee :=
  (List.range 45).map (fun (i : Nat) =>
    { id := i + 1
      employee_id := "E" ++ toString (i + 1)
      full_name := "Worker " ++ toString (i + 1)
      email := "w" ++ toString (i + 1) ++ "@x.com"
      department := "Ops" })

/-- The loaded page in mark mode with the roster of 45 employees, on page 1
with no search text. -/
def Attendance.rosterState : Attendance.PageState :=
  { sampleState with employees := Attendance.roster }

/-- An `employeeApi` of the Employees page whose `getAll` rejects with an
error that carries no text. -/
def Employees.silentApi : Employees.EmployeeApi Nat :=
  { getAll := fun n => (Settled.rejected "", n + 1)
    create := fun _ n => (Outcome.resolved, n + 1)
    delete := fun _ n => (Outcome.resolved, n + 1) }

/-! ## Array-index keys: the numeric value determines the key -/

theorem isDigit_bounds {c : Char} (h : c.isDigit = true) : 48 ≤ c.toNat ∧ c.toNat ≤ 57 := by
  simp only [Char.isDigit, Bool.and_eq_true, decide_eq_true_eq] at h
  obtain ⟨h1, h2⟩ := h
  have h1' : (48 : UInt32).toNat ≤ c.val.toNat := h1
  have h2' : c.val.toNat ≤ (57 : UInt32).toNat := h2
  exact ⟨h1', h2'⟩

theorem char_eq_of_toNat_eq {a b : Char} (h : a.toNat = b.toNat) : a = b :=
  Char.ext (UInt32.ext h)

theorem digits_foldl_init (cs : List Char) (n : Nat) :
    cs.foldl (fun n c => 10 * n + (c.toNat - 48)) n
      = n * 10 ^ cs.length + cs.foldl (fun n c => 10 * n + (c.toNat - 48)) 0 := by
  induction cs generalizing n with
  | nil => simp
  | cons c cs ih =>
    simp only [List.foldl_cons, List.length_cons]
    rw [ih (10 * n + (c.toNat - 48)), ih (10 * 0 + (c.toNat - 48))]
    ring

theorem digits_foldl_lt (cs : List Char) (h : ∀ c ∈ cs, c.isDigit = true) :
    cs.foldl (fun n c => 10 * n + (c.toNat - 48)) 0 < 10 ^ cs.length := by
  induction cs with
  | nil => simp
  | cons c cs ih =>
    simp only [List.foldl_cons, List.length_cons]
    rw [digits_foldl_init]
    have hc := isDigit_bounds (h c (List.mem_cons_self _ _))
    have ih' := ih (fun d hd => h d (List.mem_cons_of_mem _ hd))
    have : 10 ^ (cs.length + 1) = 10 * 10 ^ cs.length := by ring
    rw [this]
    have h9 : (10 * 0 + (c.toNat - 48)) ≤ 9 := by omega
    nlinarith [Nat.mul_le_mul_right (10 ^ cs.length) h9]


theorem digits_foldl_cons (c : Char) (cs : List Char) :
    (c :: cs).foldl (fun n c => 10 * n + (c.toNat - 48)) 0
      = (c.toNat - 48) * 10 ^ cs.length + cs.foldl (fun n c => 10 * n + (c.toNat - 48)) 0 := by
  rw [List.foldl_cons, digits_foldl_init, Nat.mul_zero, Nat.zero_add]

theorem digits_eq_of_value_eq (as bs : List Char)
    (ha : ∀ c ∈ as, c.isDigit = true) (hb : ∀ c ∈ bs, c.isDigit = true)
    (hlen : as.length = bs.length)
    (hval : as.foldl (fun n c => 10 * n + (c.toNat - 48)) 0
      = bs.foldl (fun n c => 10 * n + (c.toNat - 48)) 0) : as = bs := by
  induction as generalizing bs with
  | nil =>
    cases bs with
    | nil => rfl
    | cons b bs => simp at hlen
  | cons a as ih =>
    cases bs with
    | nil => simp at hlen
    | cons b bs =>
      have hlen' : as.length = bs.length := by simpa using hlen
      have ha' : ∀ c ∈ as, c.isDigit = true := fun c hc => ha c (List.mem_cons_of_mem _ hc)
      have hb' : ∀ c ∈ bs, c.isDigit = true := fun c hc => hb c (List.mem_cons_of_mem _ hc)
      rw [digits_foldl_cons, digits_foldl_cons, hlen'] at hval
      have hx := digits_foldl_lt as ha'
      have hy := digits_foldl_lt bs hb'
      rw [hlen'] at hx
      have hda := isDigit_bounds (ha a (List.mem_cons_self _ _))
      have hdb := isDigit_bounds (hb b (List.mem_cons_self _ _))
      have hd : a.toNat - 48 = b.toNat - 48 := by
        rcases Nat.lt_trichotomy (a.toNat - 48) (b.toNat - 48) with h | h | h
        · have := Nat.mul_le_mul_right (10 ^ bs.length) (Nat.succ_le_of_lt h)
          rw [Nat.succ_mul] at this
          omega
        · exact h
        · have := Nat.mul_le_mul_right (10 ^ bs.length) (Nat.succ_le_of_lt h)
          rw [Nat.succ_mul] at this
          omega
      have hab : a = b := char_eq_of_toNat_eq (by omega)
      rw [hd] at hval
      have htl : as = bs := ih bs ha' hb' hlen' (by omega)
      rw [hab, htl]

theorem digits_value_ge (c : Char) (cs : List Char) (hc : c.isDigit = true) (h0 : c ≠ '0') :
    10 ^ cs.length ≤ (c :: cs).foldl (fun n c => 10 * n + (c.toNat - 48)) 0 := by
  rw [digits_foldl_cons]
  have hb := isDigit_bounds hc
  have h48 : c.toNat ≠ 48 := fun h => h0 (char_eq_of_toNat_eq (by rw [h]; rfl))
  have h1 : 1 ≤ c.toNat - 48 := by omega
  have := Nat.mul_le_mul_right (10 ^ cs.length) h1
  omega

theorem isArrayIndex_data {k : String} (h : isArrayIndex k = true) :
    ∃ c cs, k.data = c :: cs ∧ (∀ d ∈ c :: cs, d.isDigit = true) ∧ (c ≠ '0' ∨ cs = []) := by
  unfold isArrayIndex at h
  split at h
  · simp at h
  · next c cs hk =>
    simp only [Bool.and_eq_true, List.all_eq_true, Bool.or_eq_true, bne_iff_ne, ne_eq,
      List.isEmpty_iff, decide_eq_true_eq] at h
    exact ⟨c, cs, hk, h.1.1, h.1.2⟩

theorem indexValue_injective {a b : String} (ha : isArrayIndex a = true)
    (hb : isArrayIndex b = true) (h : indexValue a = indexValue b) : a = b := by
  obtain ⟨c, cs, hac, hda, hca⟩ := isArrayIndex_data ha
  obtain ⟨d, ds, hbd, hdb, hcb⟩ := isArrayIndex_data hb
  unfold indexValue at h
  rw [hac, hbd] at h
  have hlt_a := digits_foldl_lt (c :: cs) hda
  have hlt_b := digits_foldl_lt (d :: ds) hdb
  have key : c :: cs = d :: ds := by
    by_cases hc0 : c = '0'
    · have hcs : cs = [] := by
        rcases hca with h1 | h1
        · exact absurd hc0 h1
        · exact h1
      subst hc0; subst hcs
      by_cases hd0 : d = '0'
      · have hds : ds = [] := by
          rcases hcb with h1 | h1
          · exact absurd hd0 h1
          · exact h1
        rw [hd0, hds]
      · have hge := digits_value_ge d ds (hdb d (List.mem_cons_self _ _)) hd0
        have hpos : 0 < 10 ^ ds.length := Nat.pow_pos (by norm_num)
        have hz : ['0'].foldl (fun n c => 10 * n + (c.toNat - 48)) 0 = 0 := by decide
        omega
    · by_cases hd0 : d = '0'
      · have hds : ds = [] := by
          rcases hcb with h1 | h1
          · exact absurd hd0 h1
          · exact h1
        subst hd0; subst hds
        have hge := digits_value_ge c cs (hda c (List.mem_cons_self _ _)) hc0
        have hpos : 0 < 10 ^ cs.length := Nat.pow_pos (by norm_num)
        have hz : ['0'].foldl (fun n c => 10 * n + (c.toNat - 48)) 0 = 0 := by decide
        omega
      · have hga := digits_value_ge c cs (hda c (List.mem_cons_self _ _)) hc0
        have hgb := digits_value_ge d ds (hdb d (List.mem_cons_self _ _)) hd0
        have h1 : 10 ^ cs.length < 10 ^ (ds.length + 1) := by
          simp only [List.length_cons] at hlt_b; omega
        have h2 : 10 ^ ds.length < 10 ^ (cs.length + 1) := by
          simp only [List.length_cons] at hlt_a; omega
        have h1' := (Nat.pow_lt_pow_iff_right (by norm_num : 1 < 10)).mp h1
        have h2' := (Nat.pow_lt_pow_iff_right (by norm_num : 1 < 10)).mp h2
        exact digits_eq_of_value_eq _ _ hda hdb (by simp only [List.length_cons]; omega) h
  exact String.ext (by rw [hac, hbd, key])

/-! ## Plain objects: the representation invariant and property lookup -/

theorem insertIndexKey_append (k v : String) (o : JsObject)
    (h : ∀ p ∈ o, isArrayIndex p.1 = true ∧ indexValue p.1 < indexValue k) :
    insertIndexKey k v o = o ++ [(k, v)] := by
  induction o with
  | nil => rfl
  | cons p rest ih =>
    have hp := h p (List.mem_cons_self _ _)
    simp only [insertIndexKey, hp.1, hp.2, decide_True, Bool.and_self, if_true, List.cons_append]
    rw [ih (fun q hq => h q (List.mem_cons_of_mem _ hq))]

theorem any_key_eq_false {o : JsObject} {k : String} (h : ∀ p ∈ o, p.1 ≠ k) :
    o.any (fun p => p.1 == k) = false := by
  rw [Bool.eq_false_iff]
  intro hany
  obtain ⟨p, hp, hk⟩ := List.any_eq_true.mp hany
  exact h p hp (by simpa using hk)

theorem any_key_eq_true {o : JsObject} {k : String} :
    o.any (fun p => p.1 == k) = true ↔ k ∈ objectKeys o := by
  simp only [List.any_eq_true, objectKeys, List.mem_map, beq_iff_eq]

theorem createDataProperty_append (acc : JsObject) (p : String × String)
    (h : WellFormed (acc ++ [p])) : createDataProperty acc p.1 p.2 = acc ++ [p] := by
  unfold WellFormed at h
  rw [List.map_append, List.pairwise_append] at h
  obtain ⟨-, -, hcross⟩ := h
  have hb : ∀ q ∈ acc, keyBefore q.1 p.1 := fun q hq =>
    hcross q.1 (List.mem_map_of_mem _ hq) p.1 (by simp)
  unfold createDataProperty
  rw [any_key_eq_false (fun q hq => (hb q hq).1)]
  simp only [Bool.false_eq_true, if_false]
  split
  · next hidx => exact insertIndexKey_append _ _ _ (fun q hq => (hb q hq).2 hidx)
  · rfl

theorem foldl_createDataProperty (rest acc : JsObject) (h : WellFormed (acc ++ rest)) :
    rest.foldl (fun target p => createDataProperty target p.1 p.2) acc = acc ++ rest := by
  induction rest generalizing acc with
  | nil => simp
  | cons p rest ih =>
    have h' : WellFormed ((acc ++ [p]) ++ rest) := by simpa using h
    have hp : WellFormed (acc ++ [p]) := by
      unfold WellFormed at h' ⊢
      rw [List.map_append, List.pairwise_append] at h'
      exact h'.1
    rw [List.foldl_cons, createDataProperty_append acc p hp, ih _ h']
    simp

theorem copyDataProperties_eq (o : JsObject) (h : WellFormed o) : copyDataProperties o = o := by
  unfold copyDataProperties
  simpa using foldl_createDataProperty o [] (by simpa using h)

theorem statusUpdater_eq (e s : String) (o : JsObject) (h : WellFormed o) :
    Attendance.statusUpdater e s o = createDataProperty o e s := by
  unfold Attendance.statusUpdater
  rw [copyDataProperties_eq o h]

theorem keys_insertIndexKey (k v : String) (o : JsObject) (x : String) :
    x ∈ (insertIndexKey k v o).map Prod.fst ↔ x = k ∨ x ∈ o.map Prod.fst := by
  induction o with
  | nil => simp [insertIndexKey]
  | cons p rest ih =>
    unfold insertIndexKey
    split
    · simp only [List.map_cons, List.mem_cons, ih]; tauto
    · simp

theorem wellFormed_insertIndexKey (k v : String) (o : JsObject) (h : WellFormed o)
    (hk : isArrayIndex k = true) (hfresh : ∀ p ∈ o, p.1 ≠ k) :
    WellFormed (insertIndexKey k v o) := by
  induction o with
  | nil => simp [insertIndexKey, WellFormed]
  | cons p rest ih =>
    have hrest : WellFormed rest := by
      unfold WellFormed at h ⊢
      rw [List.map_cons, List.pairwise_cons] at h
      exact h.2
    have hp : ∀ x ∈ rest.map Prod.fst, keyBefore p.1 x := by
      unfold WellFormed at h
      rw [List.map_cons, List.pairwise_cons] at h
      exact h.1
    have hpk : p.1 ≠ k := hfresh p (List.mem_cons_self _ _)
    unfold insertIndexKey
    split
    · next hcond =>
      simp only [Bool.and_eq_true, decide_eq_true_eq] at hcond
      have ih' := ih hrest (fun q hq => hfresh q (List.mem_cons_of_mem _ hq))
      unfold WellFormed at ih' ⊢
      rw [List.map_cons, List.pairwise_cons]
      refine ⟨?_, ih'⟩
      intro x hx
      rcases (keys_insertIndexKey k v rest x).mp hx with rfl | hx'
      · exact ⟨hpk, fun _ => hcond⟩
      · exact hp x hx'
    · next hcond =>
      simp only [Bool.and_eq_true, decide_eq_true_eq, not_and, not_lt] at hcond
      unfold WellFormed at h ⊢
      rw [List.map_cons, List.pairwise_cons]
      refine ⟨?_, h⟩
      intro x hx
      have hxk : k ≠ x := by
        intro hkx
        obtain ⟨q, hq, hqx⟩ := List.mem_map.mp hx
        exact hfresh q hq (by rw [hqx, hkx])
      refine ⟨hxk, fun hxi => ⟨hk, ?_⟩⟩
      show indexValue k < indexValue x
      have hpx : isArrayIndex p.1 = true ∧ indexValue p.1 ≤ indexValue x := by
        rw [List.map_cons, List.mem_cons] at hx
        rcases hx with rfl | hx'
        · exact ⟨hxi, le_refl _⟩
        · have := (hp x hx').2 hxi
          exact ⟨this.1, le_of_lt this.2⟩
      have hle := hcond hpx.1
      have hne : indexValue k ≠ indexValue p.1 := fun heq =>
        hpk (indexValue_injective hk hpx.1 heq).symm
      omega

theorem keys_map_replace (o : JsObject) (k v : String) :
    (o.map (fun p => if p.1 == k then (p.1, v) else p)).map Prod.fst = o.map Prod.fst := by
  rw [List.map_map]
  apply List.map_congr_left
  intro p _
  simp only [Function.comp]
  split <;> rfl

theorem wellFormed_createDataProperty (o : JsObject) (k v : String) (h : WellFormed o) :
    WellFormed (createDataProperty o k v) := by
  unfold createDataProperty
  split
  · unfold WellFormed; rw [keys_map_replace]; exact h
  · next hany =>
    have hfresh : ∀ p ∈ o, p.1 ≠ k := by
      intro p hp hpk
      exact hany (List.any_eq_true.mpr ⟨p, hp, by simpa using hpk⟩)
    split
    · next hidx => exact wellFormed_insertIndexKey k v o h hidx hfresh
    · next hidx =>
      unfold WellFormed at h ⊢
      rw [List.map_append, List.pairwise_append]
      refine ⟨h, by simp, ?_⟩
      intro a ha b hb
      simp only [List.map_cons, List.map_nil, List.mem_singleton] at hb
      subst hb
      obtain ⟨q, hq, rfl⟩ := List.mem_map.mp ha
      exact ⟨hfresh q hq, fun hi => absurd hi hidx⟩

theorem getProperty_cons (p : String × String) (o : JsObject) (x : String) :
    getProperty (p :: o) x = if p.1 = x then some p.2 else getProperty o x := by
  unfold getProperty
  rw [List.find?_cons]
  by_cases h : p.1 = x
  · simp [h]
  · have hb : (p.1 == x) = false := by simpa using h
    rw [hb, if_neg h]

theorem getProperty_insertIndexKey_self (k v : String) (o : JsObject) :
    getProperty (insertIndexKey k v o) k = some v := by
  induction o with
  | nil => simp [insertIndexKey, getProperty_cons]
  | cons p rest ih =>
    unfold insertIndexKey
    split
    · next hcond =>
      simp only [Bool.and_eq_true, decide_eq_true_eq] at hcond
      have hne : p.1 ≠ k := fun h => by rw [h] at hcond; exact absurd hcond.2 (lt_irrefl _)
      rw [getProperty_cons, if_neg hne, ih]
    · rw [getProperty_cons]; simp

theorem getProperty_insertIndexKey_other (k v : String) (o : JsObject) (x : String)
    (hx : x ≠ k) : getProperty (insertIndexKey k v o) x = getProperty o x := by
  induction o with
  | nil => simp [insertIndexKey, getProperty_cons, Ne.symm hx]
  | cons p rest ih =>
    unfold insertIndexKey
    split
    · rw [getProperty_cons, getProperty_cons, ih]
    · rw [getProperty_cons, if_neg (Ne.symm hx)]

theorem getProperty_replace_self (k v : String) (o : JsObject)
    (h : o.any (fun p => p.1 == k) = true) :
    getProperty (o.map (fun p => if p.1 == k then (p.1, v) else p)) k = some v := by
  induction o with
  | nil => simp at h
  | cons p rest ih =>
    rw [List.map_cons, getProperty_cons]
    by_cases hp : p.1 = k
    · simp [hp]
    · have hb : (p.1 == k) = false := by simpa using hp
      rw [List.any_cons, hb, Bool.false_or] at h
      simp only [hb, Bool.false_eq_true, if_false, if_neg hp]
      exact ih h

theorem getProperty_replace_other (k v : String) (o : JsObject) (x : String) (hx : x ≠ k) :
    getProperty (o.map (fun p => if p.1 == k then (p.1, v) else p)) x = getProperty o x := by
  induction o with
  | nil => rfl
  | cons p rest ih =>
    rw [List.map_cons, getProperty_cons, getProperty_cons, ih]
    by_cases hp : p.1 = k
    · have hpx : p.1 ≠ x := fun h => hx (by rw [← h, hp])
      simp [hp, hpx, Ne.symm hx]
    · have hb : (p.1 == k) = false := by simpa using hp
      simp only [hb, Bool.false_eq_true, if_false]

theorem getProperty_append_singleton (o : JsObject) (k v x : String) :
    getProperty (o ++ [(k, v)]) x
      = if x ∈ objectKeys o then getProperty o x else if k = x then some v else none := by
  induction o with
  | nil => simp [getProperty_cons, objectKeys, getProperty]
  | cons p rest ih =>
    rw [List.cons_append, getProperty_cons, getProperty_cons, ih]
    by_cases hp : p.1 = x
    · simp [hp, objectKeys]
    · have : (x ∈ objectKeys (p :: rest)) ↔ x ∈ objectKeys rest := by
        simp [objectKeys, Ne.symm hp]
      simp only [hp, if_false, this]

theorem getProperty_createDataProperty_self (o : JsObject) (k v : String) :
    getProperty (createDataProperty o k v) k = some v := by
  unfold createDataProperty
  split
  · next h => exact getProperty_replace_self k v o h
  · next h =>
    split
    · exact getProperty_insertIndexKey_self k v o
    · have hk : k ∉ objectKeys o := by
        intro hmem
        apply h
        simp only [List.any_eq_true, beq_iff_eq]
        simpa [objectKeys] using hmem
      rw [getProperty_append_singleton, if_neg hk, if_pos rfl]

theorem getProperty_eq_none_of_not_mem (o : JsObject) (x : String) (h : x ∉ objectKeys o) :
    getProperty o x = none := by
  induction o with
  | nil => rfl
  | cons p rest ih =>
    have h1 : p.1 ≠ x := fun e => h (by simp [objectKeys, e])
    have h2 : x ∉ objectKeys rest := fun m => h (by
      simp only [objectKeys, List.map_cons, List.mem_cons]; exact Or.inr m)
    rw [getProperty_cons, if_neg h1, ih h2]

theorem getProperty_createDataProperty_other (o : JsObject) (k v x : String) (hx : x ≠ k) :
    getProperty (createDataProperty o k v) x = getProperty o x := by
  unfold createDataProperty
  split
  · exact getProperty_replace_other k v o x hx
  · split
    · exact getProperty_insertIndexKey_other k v o x hx
    · rw [getProperty_append_singleton]
      by_cases hm : x ∈ objectKeys o
      · rw [if_pos hm]
      · rw [if_neg hm, if_neg (Ne.symm hx), getProperty_eq_none_of_not_mem o x hm]

theorem mem_keys_createDataProperty (o : JsObject) (k v : String) :
    k ∈ objectKeys (createDataProperty o k v) := by
  unfold createDataProperty
  split
  · next h =>
    unfold objectKeys
    rw [keys_map_replace]
    obtain ⟨p, hp, hk⟩ := List.any_eq_true.mp h
    exact List.mem_map.mpr ⟨p, hp, by simpa using hk⟩
  · split
    · exact (keys_insertIndexKey k v o k).mpr (Or.inl rfl)
    · simp [objectKeys]

theorem wellFormed_nodup (o : JsObject) (h : WellFormed o) : (objectKeys o).Nodup := by
  unfold WellFormed at h
  unfold objectKeys List.Nodup
  exact h.imp (fun hab => hab.1)

open Attendance

theorem length_insertIndexKey (k v : String) (o : JsObject) :
    (insertIndexKey k v o).length = o.length + 1 := by
  induction o with
  | nil => rfl
  | cons p rest ih =>
    unfold insertIndexKey
    split
    · simp [ih]
    · simp

theorem length_createDataProperty (o : JsObject) (k v : String) :
    (createDataProperty o k v).length
      = if k ∈ objectKeys o then o.length else o.length + 1 := by
  unfold createDataProperty
  split
  · next h => rw [if_pos (any_key_eq_true.mp h), List.length_map]
  · next h =>
    rw [if_neg (fun hm => h (any_key_eq_true.mpr hm))]
    split
    · exact length_insertIndexKey k v o
    · simp

theorem createDataProperty_same (o : JsObject) (k v : String) (h : WellFormed o)
    (hv : getProperty o k = some v) : createDataProperty o k v = o := by
  unfold getProperty at hv
  obtain ⟨p, hfind, hp2⟩ := Option.map_eq_some'.mp hv
  have hpmem : p ∈ o := List.mem_of_find?_eq_some hfind
  have hp1 : p.1 = k := by simpa using List.find?_some hfind
  have hany : o.any (fun q => q.1 == k) = true :=
    List.any_eq_true.mpr ⟨p, hpmem, by simpa using hp1⟩
  unfold createDataProperty
  rw [if_pos hany]
  have hnd := wellFormed_nodup o h
  unfold objectKeys at hnd
  conv_rhs => rw [← List.map_id o]
  apply List.map_congr_left
  intro q hq
  by_cases hqk : q.1 = k
  · have hqp : q = p := List.inj_on_of_nodup_map hnd hq hpmem (by rw [hqk, hp1])
    have hb : (q.1 == k) = true := by simpa using hqk
    rw [hb, if_pos rfl, hqp, ← hp2]
    rfl
  · have hb : (q.1 == k) = false := by simpa using hqk
    rw [hb]; rfl

theorem applyEffects_handleStatusChange (st : PageState) (e s : String) :
    (applyEffects st (handleStatusChange e s st)).attendance
      = statusUpdater e s st.attendance := rfl

/-! ## The submission loop -/

theorem failures_length_le {σ : Type} (mark : MarkApi σ) (d : String) (w : σ)
    (entries : List (String × String)) :
    (failures mark d w entries).length ≤ entries.length := by
  induction entries generalizing w with
  | nil => simp [failures]
  | cons e es ih =>
    unfold failures
    split
    · next w' _ => have := ih w'; simp only [List.length_cons]; omega
    · next m w' _ => have := ih w'; simp only [List.length_cons]; omega

theorem failures_sublist {σ : Type} (mark : MarkApi σ) (d : String) (w : σ)
    (entries : List (String × String)) :
    ((failures mark d w entries).map Prod.fst).Sublist entries := by
  induction entries generalizing w with
  | nil => simp [failures]
  | cons e es ih =>
    unfold failures
    split
    · next w' _ => exact (ih w').cons e
    · next m w' _ => rw [List.map_cons]; exact (ih w').cons₂ e

theorem markLoop_spec {σ : Type} (mark : MarkApi σ) (d : String) (entries : List (String × String))
    (acc : LoopState σ) :
    (entries.foldl (markStep mark d) acc).successCount
        + (failures mark d acc.world entries).length = acc.successCount + entries.length ∧
    (entries.foldl (markStep mark d) acc).errorMessages
      = acc.errorMessages ++
          (failures mark d acc.world entries).map (fun f => f.1.1 ++ ": " ++ f.2) ∧
    (entries.foldl (markStep mark d) acc).effects
      = acc.effects ++ sequentialCalls mark acc.world (entries.map (payloadOf d)) := by
  induction entries generalizing acc with
  | nil => simp [failures, sequentialCalls]
  | cons e es ih =>
    rw [List.foldl_cons]
    have step := ih (markStep mark d acc e)
    cases hm : mark (payloadOf d e) acc.world with
    | mk out w' =>
      have hm' : mark { employee_id := e.1, date := d, status := e.2 } acc.world = (out, w') := hm
      cases out with
      | resolved =>
        have hs : markStep mark d acc e =
            { world := w', successCount := acc.successCount + 1,
              errorMessages := acc.errorMessages,
              effects := acc.effects ++
                [Effect.markCall (payloadOf d e), Effect.markSettled Outcome.resolved] } := by
          simp only [markStep, hm', payloadOf]
        rw [hs] at step ⊢
        simp only [failures, hm, List.map_cons, sequentialCalls, List.length_cons] at step ⊢
        refine ⟨by omega, step.2.1, ?_⟩
        rw [step.2.2]; simp
      | rejected msg =>
        have hs : markStep mark d acc e =
            { world := w', successCount := acc.successCount,
              errorMessages := acc.errorMessages ++ [e.1 ++ ": " ++ msg],
              effects := acc.effects ++
                [Effect.markCall (payloadOf d e),
                 Effect.markSettled (Outcome.rejected msg)] } := by
          simp only [markStep, hm', payloadOf]
        rw [hs] at step ⊢
        simp only [failures, hm, List.map_cons, sequentialCalls, List.length_cons] at step ⊢
        refine ⟨by omega, ?_, ?_⟩
        · rw [step.2.1]; simp
        · rw [step.2.2]; simp

theorem sequentialCalls_filter {σ : Type} (mark : MarkApi σ) (w : σ) (ps : List MarkPayload) :
    (sequentialCalls mark w ps).filter isApiEvent = sequentialCalls mark w ps := by
  induction ps generalizing w with
  | nil => rfl
  | cons p ps ih => simp [sequentialCalls, isApiEvent, ih]

theorem sequentialCalls_payloads {σ : Type} (mark : MarkApi σ) (w : σ) (ps : List MarkPayload) :
    (sequentialCalls mark w ps).filterMap callPayload = ps := by
  induction ps generalizing w with
  | nil => rfl
  | cons p ps ih => simp [sequentialCalls, callPayload, ih]

theorem sequentialCalls_toasts {σ : Type} (mark : MarkApi σ) (w : σ) (ps : List MarkPayload) :
    (sequentialCalls mark w ps).filterMap toastOf = [] := by
  induction ps generalizing w with
  | nil => rfl
  | cons p ps ih => simp [sequentialCalls, toastOf, ih]

theorem sequentialCalls_rejections {σ : Type} (mark : MarkApi σ) (d : String) (w : σ)
    (entries : List (String × String)) :
    (sequentialCalls mark w (entries.map (payloadOf d))).countP isRejection
      = (failures mark d w entries).length := by
  induction entries generalizing w with
  | nil => rfl
  | cons e es ih =>
    cases hm : mark (payloadOf d e) w with
    | mk out w' =>
      cases out with
      | resolved =>
        simp [sequentialCalls, failures, hm, isRejection, ih]
      | rejected msg =>
        simp [sequentialCalls, failures, hm, isRejection, ih]

theorem sequentialCalls_resolutions {σ : Type} (mark : MarkApi σ) (d : String) (w : σ)
    (entries : List (String × String)) :
    (sequentialCalls mark w (entries.map (payloadOf d))).countP isResolution
        + (failures mark d w entries).length = entries.length := by
  induction entries generalizing w with
  | nil => rfl
  | cons e es ih =>
    cases hm : mark (payloadOf d e) w with
    | mk out w' =>
      have := ih w'
      cases out with
      | resolved =>
        simp [sequentialCalls, failures, hm, isResolution]
        omega
      | rejected msg =>
        simp [sequentialCalls, failures, hm, isResolution]
        omega


theorem applyEffects_append (st : PageState) (xs ys : List Effect) :
    applyEffects st (xs ++ ys) = applyEffects (applyEffects st xs) ys := by
  unfold applyEffects; rw [List.foldl_append]

theorem applyEffects_sequentialCalls {σ : Type} (mark : MarkApi σ) (w : σ) (ps : List MarkPayload)
    (st : PageState) : applyEffects st (sequentialCalls mark w ps) = st := by
  induction ps generalizing w with
  | nil => rfl
  | cons p ps ih =>
    show applyEffects st (sequentialCalls mark (mark p w).2 ps) = st
    exact ih _

theorem handleMarkAttendance_empty {σ : Type} (mark : MarkApi σ) (w : σ) (st : PageState)
    (h : objectEntries st.attendance = []) :
    handleMarkAttendance mark w st =
      { effects := [Effect.setToast (some
          { message := "Please select attendance for at least one employee", type := "error" })]
        world := w
        batch := none } := by
  unfold handleMarkAttendance
  simp only [h, List.length_nil, if_true]

theorem handleMarkAttendance_failed {σ : Type} (mark : MarkApi σ) (w : σ) (st : PageState)
    (h : objectEntries st.attendance ≠ [])
    (hf : failures mark st.markDate w (objectEntries st.attendance) ≠ []) :
    (handleMarkAttendance mark w st).effects =
      Effect.setMarking true ::
        sequentialCalls mark w ((objectEntries st.attendance).map (payloadOf st.markDate)) ++
        [Effect.setToast (some
          { message := "Marked " ++
              toString ((objectEntries st.attendance).length
                - (failures mark st.markDate w (objectEntries st.attendance)).length) ++
              " of " ++ toString (objectEntries st.attendance).length ++ ". Errors: " ++
              ", ".intercalate
                ((failures mark st.markDate w (objectEntries st.attendance)).map
                  (fun f => f.1.1 ++ ": " ++ f.2))
            type := "error" }),
         Effect.setMarking false] ∧
    (handleMarkAttendance mark w st).batch =
      some ((objectEntries st.attendance).length
          - (failures mark st.markDate w (objectEntries st.attendance)).length,
        (failures mark st.markDate w (objectEntries st.attendance)).map
          (fun f => f.1.1 ++ ": " ++ f.2)) := by
  obtain ⟨h1, h2, h3⟩ := markLoop_spec mark st.markDate (objectEntries st.attendance)
    { world := w, successCount := 0, errorMessages := [], effects := [Effect.setMarking true] }
  simp only [List.nil_append, Nat.zero_add, List.singleton_append] at h1 h2 h3
  have hlen : (objectEntries st.attendance).length ≠ 0 := fun e => h (List.length_eq_zero.mp e)
  have hsc : (List.foldl (markStep mark st.markDate)
      { world := w, successCount := 0, errorMessages := [], effects := [Effect.setMarking true] }
      (objectEntries st.attendance)).successCount
        = (objectEntries st.attendance).length
          - (failures mark st.markDate w (objectEntries st.attendance)).length := by omega
  have hpos : ((failures mark st.markDate w (objectEntries st.attendance)).map
      (fun f => f.1.1 ++ ": " ++ f.2)).length > 0 := by
    rw [List.length_map]; exact List.length_pos.mpr hf
  unfold handleMarkAttendance
  simp only [if_neg hlen, h2, h3, hsc, if_pos hpos, List.cons_append, and_self]

theorem handleMarkAttendance_succeeded {σ : Type} (mark : MarkApi σ) (w : σ) (st : PageState)
    (h : objectEntries st.attendance ≠ [])
    (hf : failures mark st.markDate w (objectEntries st.attendance) = []) :
    (handleMarkAttendance mark w st).effects =
      Effect.setMarking true ::
        sequentialCalls mark w ((objectEntries st.attendance).map (payloadOf st.markDate)) ++
        [Effect.setToast (some
          { message := "Attendance marked for " ++
              toString (objectEntries st.attendance).length ++ " employee(s)"
            type := "success" }),
         Effect.setAttendance [],
         Effect.setMarking false] ∧
    (handleMarkAttendance mark w st).batch =
      some ((objectEntries st.attendance).length, []) := by
  obtain ⟨h1, h2, h3⟩ := markLoop_spec mark st.markDate (objectEntries st.attendance)
    { world := w, successCount := 0, errorMessages := [], effects := [Effect.setMarking true] }
  simp only [List.nil_append, Nat.zero_add, List.singleton_append, hf, List.length_nil,
    Nat.add_zero, List.map_nil] at h1 h2 h3
  have hlen : (objectEntries st.attendance).length ≠ 0 := fun e => h (List.length_eq_zero.mp e)
  have hpos : ¬ (([] : List String).length > 0) := by simp
  unfold handleMarkAttendance
  simp only [if_neg hlen, h1, h2, h3, if_neg hpos, List.cons_append, and_self]

/-! ## Search filter -/

theorem includes_iff (s t : String) : includes s t = true ↔ IsSubstring t s := by
  unfold includes IsSubstring
  rw [List.any_eq_true, List.infix_iff_prefix_suffix]
  constructor
  · rintro ⟨u, hu, hp⟩
    exact ⟨u, List.isPrefixOf_iff_prefix.mp hp, (List.mem_tails u s.data).mp hu⟩
  · rintro ⟨u, hp, hu⟩
    exact ⟨u, (List.mem_tails u s.data).mpr hu, List.isPrefixOf_iff_prefix.mpr hp⟩

theorem isSubstring_iff (t s : String) :
    IsSubstring t s ↔ ∃ pre post : String, s = pre ++ t ++ post := by
  unfold IsSubstring
  constructor
  · rintro ⟨a, b, h⟩
    exact ⟨⟨a⟩, ⟨b⟩, String.ext (by rw [String.data_append, String.data_append, h])⟩
  · rintro ⟨pre, post, h⟩
    exact ⟨pre.data, post.data, by rw [h, String.data_append, String.data_append]⟩

theorem includes_eq_decide (s t : String) : includes s t = decide (IsSubstring t s) := by
  rw [Bool.eq_iff_iff, includes_iff, decide_eq_true_iff]

/-! ## Pagination -/

theorem slice_of_nonneg {α : Type} (xs : List α) (a b : Nat) (hab : a ≤ b) :
    slice xs (a : Int) (b : Int) = (xs.drop a).take (b - a) := by
  unfold slice
  simp only [show ¬ ((a : Int) < 0) by omega, show ¬ ((b : Int) < 0) by omega, if_false]
  by_cases ha : a ≤ xs.length
  · have hk : (min (a : Int) (xs.length : Int)).toNat = a := by omega
    rw [hk]
    rw [List.take_eq_take]
    simp only [List.length_drop]
    omega
  · have hk : (min (a : Int) (xs.length : Int)).toNat = xs.length := by omega
    rw [hk, List.drop_eq_nil_of_le (le_refl _), List.drop_eq_nil_of_le (by omega)]
    simp

theorem paginatedEmployees_page (filtered : List Employee) (i : Nat) :
    paginatedEmployees filtered ((i : Int) + 1) = (filtered.drop (i * 20)).take 20 := by
  unfold paginatedEmployees PAGE_SIZE
  have h1 : ((i : Int) + 1 - 1) * ((20 : Nat) : Int) = ((i * 20 : Nat) : Int) := by push_cast; ring
  have h2 : ((i : Int) + 1) * ((20 : Nat) : Int) = (((i + 1) * 20 : Nat) : Int) := by
    push_cast; ring
  rw [h1, h2, slice_of_nonneg _ _ _ (by omega)]
  congr 1
  omega

theorem pages_flatten (filtered : List Employee) (n : Nat) :
    ((List.range n).map (fun (i : Nat) => paginatedEmployees filtered ((i : Int) + 1))).flatten
      = filtered.take (n * 20) := by
  induction n with
  | zero => simp
  | succ n ih =>
    rw [List.range_succ, List.map_append, List.flatten_append, ih, List.map_singleton,
      List.flatten_singleton, paginatedEmployees_page, Nat.succ_mul, List.take_add]

theorem totalPages_le_iff (filtered : List Employee) (p : Int) :
    totalPages filtered ≤ p ↔ (filtered.length : Int) ≤ 20 * p := by
  unfold totalPages mathCeil PAGE_SIZE
  have h20 : (((20 : Nat) : ℚ)) = 20 := by norm_num
  rw [Int.ceil_le, h20, div_le_iff₀ (by norm_num)]
  constructor
  · intro h
    have : ((filtered.length : Int) : ℚ) ≤ ((20 * p : Int) : ℚ) := by push_cast; linarith
    exact_mod_cast this
  · intro h
    have : ((filtered.length : Int) : ℚ) ≤ ((20 * p : Int) : ℚ) := by exact_mod_cast h
    push_cast at this; linarith

theorem totalPages_closed (filtered : List Employee) :
    totalPages filtered = (((filtered.length + 19) / 20 : Nat) : Int) := by
  apply le_antisymm
  · rw [totalPages_le_iff]; omega
  · have h := (totalPages_le_iff filtered (totalPages filtered)).mp (le_refl _)
    omega

theorem paginatedEmployees_length_le (filtered : List Employee) (p : Int) :
    (paginatedEmployees filtered p).length ≤ 20 := by
  unfold paginatedEmployees slice PAGE_SIZE
  simp only [List.length_take, List.length_drop]
  split <;> split <;> omega

/-! ## Submission: the exchange with the mark API -/

theorem handleMarkAttendance_api_events {σ : Type} (mark : MarkApi σ) (w : σ) (st : PageState) :
    (handleMarkAttendance mark w st).effects.filter isApiEvent
      = sequentialCalls mark w ((objectEntries st.attendance).map (payloadOf st.markDate)) := by
  by_cases h : objectEntries st.attendance = []
  · rw [handleMarkAttendance_empty mark w st h, h]; rfl
  · by_cases hf : failures mark st.markDate w (objectEntries st.attendance) = []
    · rw [(handleMarkAttendance_succeeded mark w st h hf).1, List.filter_append,
        List.filter_cons, sequentialCalls_filter]
      simp [isApiEvent]
    · rw [(handleMarkAttendance_failed mark w st h hf).1, List.filter_append,
        List.filter_cons, sequentialCalls_filter]
      simp [isApiEvent]

/-! ## The claims -/

/-- Claim C1: submitting a pending-selection mapping with `k` entries against a
mark API that rejects exactly the entries `F` (a sublist of the entries):
`k - |F|` calls resolve and `|F|` calls reject; for a non-empty mapping the
locals end as `successCount = k - |F|` and an error list of `|F|` messages
(for the empty mapping the function returns before declaring them, having made
no call); the mapping is empty afterwards if and only if `F` is empty, and it
is left exactly as it was when `F` is non-empty. -/
theorem handleMarkAttendance_counts {σ : Type} (mark : MarkApi σ) (w : σ) (st : PageState) :
    ((failures mark st.markDate w (objectEntries st.attendance)).map Prod.fst).Sublist
      (objectEntries st.attendance) ∧
    (handleMarkAttendance mark w st).effects.countP isResolution
      = (objectEntries st.attendance).length
        - (failures mark st.markDate w (objectEntries st.attendance)).length ∧
    (handleMarkAttendance mark w st).effects.countP isRejection
      = (failures mark st.markDate w (objectEntries st.attendance)).length ∧
    (objectEntries st.attendance ≠ [] →
      ∃ errs, (handleMarkAttendance mark w st).batch
          = some ((objectEntries st.attendance).length
              - (failures mark st.markDate w (objectEntries st.attendance)).length, errs) ∧
        errs.length = (failures mark st.markDate w (objectEntries st.attendance)).length) ∧
    ((applyEffects st (handleMarkAttendance mark w st).effects).attendance = [] ↔
      failures mark st.markDate w (objectEntries st.attendance) = []) ∧
    (failures mark st.markDate w (objectEntries st.attendance) ≠ [] →
      (applyEffects st (handleMarkAttendance mark w st).effects).attendance = st.attendance) := by
  have hres := sequentialCalls_resolutions mark st.markDate w (objectEntries st.attendance)
  have hrej := sequentialCalls_rejections mark st.markDate w (objectEntries st.attendance)
  refine ⟨failures_sublist _ _ _ _, ?_⟩
  by_cases h : objectEntries st.attendance = []
  · have hatt : st.attendance = [] := h
    rw [handleMarkAttendance_empty mark w st h, h]
    refine ⟨rfl, rfl, fun habs => absurd rfl habs, ?_, fun habs => absurd rfl habs⟩
    exact ⟨fun _ => rfl, fun _ => hatt⟩
  · by_cases hf : failures mark st.markDate w (objectEntries st.attendance) = []
    · obtain ⟨he, hb⟩ := handleMarkAttendance_succeeded mark w st h hf
      rw [he, hb]
      rw [hf] at hres hrej
      refine ⟨?_, ?_, fun _ => ⟨[], by rw [hf]; rfl, by rw [hf]; rfl⟩, ?_, fun habs => absurd hf habs⟩
      · simp only [List.countP_append, List.countP_cons, List.countP_nil, isResolution, hf,
          List.length_nil] at hres ⊢
        simpa using hres
      · simp only [List.countP_append, List.countP_cons, List.countP_nil, isRejection, hf,
          List.length_nil, hrej]
        simp
      · refine ⟨fun _ => hf, fun _ => ?_⟩
        rw [← List.singleton_append, List.append_assoc, applyEffects_append,
          applyEffects_append, applyEffects_sequentialCalls]
        rfl
    · obtain ⟨he, hb⟩ := handleMarkAttendance_failed mark w st h hf
      have hfinal : (applyEffects st (handleMarkAttendance mark w st).effects).attendance
          = st.attendance := by
        rw [he, ← List.singleton_append, List.append_assoc, applyEffects_append,
          applyEffects_append, applyEffects_sequentialCalls]
        rfl
      refine ⟨?_, ?_, fun _ => ⟨_, hb, by rw [List.length_map]⟩, ?_, fun _ => hfinal⟩
      · rw [he]
        simp only [List.countP_append, List.countP_cons, List.countP_nil, isResolution]
        simp only [Bool.false_eq_true, if_false, Nat.add_zero, Nat.zero_add]
        omega
      · rw [he]
        simp only [List.countP_append, List.countP_cons, List.countP_nil, isRejection, hrej]
        simp
      · rw [hfinal]
        exact ⟨fun e => absurd e h, fun e => absurd e hf⟩

theorem handleMarkAttendance_counts_witness :
    (failures sampleMark sampleState.markDate 0 (objectEntries sampleState.attendance)).map Prod.fst
      = [("EMP002", "Absent")] ∧
    (handleMarkAttendance sampleMark 0 sampleState).batch
      = some (2, ["EMP002: Attendance already marked"]) ∧
    (applyEffects sampleState (handleMarkAttendance sampleMark 0 sampleState).effects).attendance
      = sampleState.attendance :=
  ⟨by decide, by decide,
    (handleMarkAttendance_counts sampleMark 0 sampleState).2.2.2.2.2 (by decide)⟩

/-- Claim C2: the calls of `attendanceApi.mark` issued by `handleMarkAttendance`
are the entries of the mapping in entry order, one call per entry, each with
payload `{employee_id: key, date: markDate, status: value}`, whatever the
outcomes of the calls (a rejected call prevents no other call); the exchange
with the API is strictly sequential, each call being followed by its own
outcome before the next call is issued, and it contains nothing but these
calls. -/
theorem handleMarkAttendance_calls {σ : Type} (mark : MarkApi σ) (w : σ) (st : PageState) :
    (handleMarkAttendance mark w st).effects.filterMap callPayload
      = (objectEntries st.attendance).map
          (fun entry => { employee_id := entry.1, date := st.markDate, status := entry.2 }) ∧
    (handleMarkAttendance mark w st).effects.filter isApiEvent
      = sequentialCalls mark w ((objectEntries st.attendance).map
          (fun entry => { employee_id := entry.1, date := st.markDate, status := entry.2 })) := by
  have hev := handleMarkAttendance_api_events mark w st
  refine ⟨?_, hev⟩
  have hsub : ∀ es : List Effect, (es.filter isApiEvent).filterMap callPayload
      = es.filterMap callPayload := by
    intro es
    induction es with
    | nil => rfl
    | cons e es ih =>
      cases e <;> simp [List.filter_cons, isApiEvent, callPayload, ih]
  rw [← hsub, hev, sequentialCalls_payloads]
  rfl

/-- Claim C3: after a batch submission (a mapping with at least one entry)
`handleMarkAttendance` sets exactly one notification. With no rejected call
it is of type success and its message carries the count. With a rejected call
it is of type error and its message states the success count out of the
attempted count, then lists, in order of failure, each failed employee id
followed by the message of its rejection. -/
theorem handleMarkAttendance_notification {σ : Type} (mark : MarkApi σ) (w : σ)
    (st : PageState) (h : objectEntries st.attendance ≠ []) :
    (failures mark st.markDate w (objectEntries st.attendance) = [] →
      (handleMarkAttendance mark w st).effects.filterMap toastOf =
        [some { message := "Attendance marked for " ++
                  toString (objectEntries st.attendance).length ++ " employee(s)"
                type := "success" }]) ∧
    (failures mark st.markDate w (objectEntries st.attendance) ≠ [] →
      (handleMarkAttendance mark w st).effects.filterMap toastOf =
        [some { message := "Marked " ++
                  toString ((objectEntries st.attendance).length
                    - (failures mark st.markDate w (objectEntries st.attendance)).length) ++
                  " of " ++ toString (objectEntries st.attendance).length ++ ". Errors: " ++
                  ", ".intercalate
                    ((failures mark st.markDate w (objectEntries st.attendance)).map
                      (fun f => f.1.1 ++ ": " ++ f.2))
                type := "error" }]) := by
  constructor
  · intro hf
    rw [(handleMarkAttendance_succeeded mark w st h hf).1, List.filterMap_append,
      List.filterMap_cons, sequentialCalls_toasts]
    rfl
  · intro hf
    rw [(handleMarkAttendance_failed mark w st h hf).1, List.filterMap_append,
      List.filterMap_cons, sequentialCalls_toasts]
    rfl

theorem handleMarkAttendance_notification_witness :
    objectEntries sampleState.attendance ≠ [] ∧
    (handleMarkAttendance sampleMark 0 sampleState).effects.filterMap toastOf =
      [some { message := "Marked 2 of 3. Errors: EMP002: Attendance already marked"
              type := "error" }] :=
  ⟨by decide,
    ((handleMarkAttendance_notification sampleMark 0 sampleState (by decide)).2 (by decide)).trans
      (by decide)⟩

/-- Claim C4: on the Attendance page `filteredEmployees` is exactly the sublist of
`employees`, in the original order, of the employees whose lower-cased
`full_name`, `employee_id` or `department` contains the lower-cased search
text as a substring. -/
theorem attendance_filteredEmployees_exact (toLowerCase : String → String)
    (employees : List Employee) (search : String) :
    Attendance.filteredEmployees toLowerCase employees search
      = employees.filter (fun emp => decide
          (IsSubstring (toLowerCase search) (toLowerCase emp.full_name) ∨
           IsSubstring (toLowerCase search) (toLowerCase emp.employee_id) ∨
           IsSubstring (toLowerCase search) (toLowerCase emp.department))) ∧
    (Attendance.filteredEmployees toLowerCase employees search).Sublist employees ∧
    ∀ emp, emp ∈ Attendance.filteredEmployees toLowerCase employees search ↔
      emp ∈ employees ∧
        (IsSubstring (toLowerCase search) (toLowerCase emp.full_name) ∨
         IsSubstring (toLowerCase search) (toLowerCase emp.employee_id) ∨
         IsSubstring (toLowerCase search) (toLowerCase emp.department)) := by
  have key : Attendance.filteredEmployees toLowerCase employees search
      = employees.filter (fun emp => decide
          (IsSubstring (toLowerCase search) (toLowerCase emp.full_name) ∨
           IsSubstring (toLowerCase search) (toLowerCase emp.employee_id) ∨
           IsSubstring (toLowerCase search) (toLowerCase emp.department))) := by
    unfold Attendance.filteredEmployees
    congr 1
    funext emp
    simp only [includes_eq_decide, Bool.decide_or, Bool.or_assoc]
  refine ⟨key, ?_, ?_⟩
  · rw [key]; exact List.filter_sublist _
  · intro emp
    rw [key, List.mem_filter, decide_eq_true_iff]

/-- Claim C5, as amended: on the Employees page an employee is in
`filteredEmployees` exactly when it is in `employees` and the lower-cased
search text is a substring of its lower-cased `full_name`, `employee_id`,
`email` or `department`; in particular every employee matching on
`full_name`, `employee_id` or `department` is in `filteredEmployees`. -/
theorem employees_filteredEmployees_exact (toLowerCase : String → String)
    (employees : List Employee) (search : String) :
    Employees.filteredEmployees toLowerCase employees search
      = employees.filter (fun emp => decide
          (IsSubstring (toLowerCase search) (toLowerCase emp.full_name) ∨
           IsSubstring (toLowerCase search) (toLowerCase emp.employee_id) ∨
           IsSubstring (toLowerCase search) (toLowerCase emp.email) ∨
           IsSubstring (toLowerCase search) (toLowerCase emp.department))) ∧
    (∀ emp, emp ∈ Employees.filteredEmployees toLowerCase employees search ↔
      emp ∈ employees ∧
        (IsSubstring (toLowerCase search) (toLowerCase emp.full_name) ∨
         IsSubstring (toLowerCase search) (toLowerCase emp.employee_id) ∨
         IsSubstring (toLowerCase search) (toLowerCase emp.email) ∨
         IsSubstring (toLowerCase search) (toLowerCase emp.department))) ∧
    (∀ emp, emp ∈ employees →
        (IsSubstring (toLowerCase search) (toLowerCase emp.full_name) ∨
         IsSubstring (toLowerCase search) (toLowerCase emp.employee_id) ∨
         IsSubstring (toLowerCase search) (toLowerCase emp.department)) →
        emp ∈ Employees.filteredEmployees toLowerCase employees search) := by
  have key : Employees.filteredEmployees toLowerCase employees search
      = employees.filter (fun emp => decide
          (IsSubstring (toLowerCase search) (toLowerCase emp.full_name) ∨
           IsSubstring (toLowerCase search) (toLowerCase emp.employee_id) ∨
           IsSubstring (toLowerCase search) (toLowerCase emp.email) ∨
           IsSubstring (toLowerCase search) (toLowerCase emp.department))) := by
    unfold Employees.filteredEmployees
    congr 1
    funext emp
    simp only [includes_eq_decide, Bool.decide_or, Bool.or_assoc]
  have hmem : ∀ emp, emp ∈ Employees.filteredEmployees toLowerCase employees search ↔
      emp ∈ employees ∧
        (IsSubstring (toLowerCase search) (toLowerCase emp.full_name) ∨
         IsSubstring (toLowerCase search) (toLowerCase emp.employee_id) ∨
         IsSubstring (toLowerCase search) (toLowerCase emp.email) ∨
         IsSubstring (toLowerCase search) (toLowerCase emp.department)) := by
    intro emp
    rw [key, List.mem_filter, decide_eq_true_iff]
  refine ⟨key, hmem, ?_⟩
  intro emp hemp hm
  rw [hmem]
  refine ⟨hemp, ?_⟩
  rcases hm with h | h | h
  · exact Or.inl h
  · exact Or.inr (Or.inl h)
  · exact Or.inr (Or.inr (Or.inr h))

/-- Claim C5, as stated, fails: with the search text `x.com` both sample
employees are in `filteredEmployees` of the Employees page (the text occurs in
their `email`), and neither matches on `full_name`, `employee_id` or
`department`. -/
theorem employees_filter_email_only :
    ¬ ((∀ emp ∈ Employees.filteredEmployees toLowerCaseAscii sampleEmployees "x.com",
          IsSubstring (toLowerCaseAscii "x.com") (toLowerCaseAscii emp.full_name) ∨
          IsSubstring (toLowerCaseAscii "x.com") (toLowerCaseAscii emp.employee_id) ∨
          IsSubstring (toLowerCaseAscii "x.com") (toLowerCaseAscii emp.department)) ∧
       (∀ emp ∈ sampleEmployees,
          (IsSubstring (toLowerCaseAscii "x.com") (toLowerCaseAscii emp.full_name) ∨
           IsSubstring (toLowerCaseAscii "x.com") (toLowerCaseAscii emp.employee_id) ∨
           IsSubstring (toLowerCaseAscii "x.com") (toLowerCaseAscii emp.department)) →
          emp ∈ Employees.filteredEmployees toLowerCaseAscii sampleEmployees "x.com")) := by
  decide

/-- Claim C6: with the page size fixed at 20, `totalPages` of a filtered list of
length `N` is the ceiling of `N / 20`: it equals `(N + 19) / 20` in integer
division, it is the least integer `p` with `N ≤ 20 * p`, and it is 0 for the
empty list. -/
theorem totalPages_ceil (filtered : List Employee) :
    PAGE_SIZE = 20 ∧
    totalPages filtered = (((filtered.length + 19) / 20 : Nat) : Int) ∧
    (∀ p : Int, totalPages filtered ≤ p ↔ (filtered.length : Int) ≤ 20 * p) ∧
    totalPages ([] : List Employee) = 0 := by
  refine ⟨rfl, totalPages_closed filtered, totalPages_le_iff filtered, ?_⟩
  rw [totalPages_closed]; rfl

/-- Claim C7: concatenating the slices `paginatedEmployees` for
`currentPage = 1, 2, ..., totalPages` in order yields the filtered list; every
slice holds at most 20 elements, and every slice before the last holds exactly
20. -/
theorem pages_partition (filtered : List Employee) :
    ((List.range (totalPages filtered).toNat).map
        (fun (i : Nat) => paginatedEmployees filtered ((i : Int) + 1))).flatten = filtered ∧
    (∀ p : Int, (paginatedEmployees filtered p).length ≤ 20) ∧
    (∀ p : Int, 1 ≤ p → p < totalPages filtered →
      (paginatedEmployees filtered p).length = 20) := by
  have hc := totalPages_closed filtered
  refine ⟨?_, paginatedEmployees_length_le filtered, ?_⟩
  · rw [pages_flatten, List.take_of_length_le]
    omega
  · intro p hp1 hp2
    obtain ⟨i, rfl⟩ : ∃ i : Nat, p = (i : Int) + 1 := ⟨(p - 1).toNat, by omega⟩
    rw [paginatedEmployees_page, List.length_take, List.length_drop]
    omega

/-- Claim C8: on a mapping (a well-formed object) `handleStatusChange(e, s)`
yields a mapping in which `e` maps to `s`, every other employee id maps to
what it mapped to before, `e` has exactly one entry, the keys stay pairwise
distinct (the result is again well-formed), and the number of entries is
unchanged when `e` was present and grows by one otherwise. -/
theorem handleStatusChange_overwrites (st : PageState) (e s : String)
    (h : WellFormed st.attendance) :
    getProperty (applyEffects st (handleStatusChange e s st)).attendance e = some s ∧
    (∀ other, other ≠ e →
      getProperty (applyEffects st (handleStatusChange e s st)).attendance other
        = getProperty st.attendance other) ∧
    (objectKeys (applyEffects st (handleStatusChange e s st)).attendance).count e = 1 ∧
    WellFormed (applyEffects st (handleStatusChange e s st)).attendance ∧
    (objectEntries (applyEffects st (handleStatusChange e s st)).attendance).length
      = (if e ∈ objectKeys st.attendance then (objectEntries st.attendance).length
         else (objectEntries st.attendance).length + 1) := by
  rw [applyEffects_handleStatusChange, statusUpdater_eq e s _ h]
  have hwf := wellFormed_createDataProperty st.attendance e s h
  refine ⟨getProperty_createDataProperty_self _ _ _,
    fun other ho => getProperty_createDataProperty_other _ _ _ _ ho,
    List.count_eq_one_of_mem (wellFormed_nodup _ hwf) (mem_keys_createDataProperty _ _ _),
    hwf, length_createDataProperty _ _ _⟩

theorem handleStatusChange_overwrites_witness :
    WellFormed sampleState.attendance ∧
    getProperty (applyEffects sampleState
      (handleStatusChange "EMP001" "Absent" sampleState)).attendance "EMP001" = some "Absent" :=
  ⟨by decide, (handleStatusChange_overwrites sampleState "EMP001" "Absent" (by decide)).1⟩

/-- Claim C9: applying `handleStatusChange(e, s)` twice gives the same state as
applying it once, and applying it to a mapping that already holds `s` for `e`
gives a mapping with the same entries and the same number of entries. -/
theorem handleStatusChange_idempotent (st : PageState) (e s : String)
    (h : WellFormed st.attendance) :
    applyEffects (applyEffects st (handleStatusChange e s st))
        (handleStatusChange e s (applyEffects st (handleStatusChange e s st)))
      = applyEffects st (handleStatusChange e s st) ∧
    (getProperty st.attendance e = some s →
      (applyEffects st (handleStatusChange e s st)).attendance = st.attendance ∧
      (objectEntries (applyEffects st (handleStatusChange e s st)).attendance).length
        = (objectEntries st.attendance).length) := by
  have hwf := wellFormed_createDataProperty st.attendance e s h
  have hself := getProperty_createDataProperty_self st.attendance e s
  constructor
  · have key : statusUpdater e s (statusUpdater e s st.attendance)
        = statusUpdater e s st.attendance := by
      rw [statusUpdater_eq e s _ h, statusUpdater_eq e s _ hwf,
        createDataProperty_same _ e s hwf hself]
    show ({ ({ st with attendance := statusUpdater e s st.attendance } : PageState) with
        attendance := statusUpdater e s (statusUpdater e s st.attendance) } : PageState)
      = { st with attendance := statusUpdater e s st.attendance }
    rw [key]
  · intro hv
    rw [applyEffects_handleStatusChange, statusUpdater_eq e s _ h,
      createDataProperty_same _ e s h hv]
    exact ⟨rfl, rfl⟩

theorem handleStatusChange_idempotent_witness :
    WellFormed sampleState.attendance ∧
    getProperty sampleState.attendance "EMP001" = some "Present" ∧
    (applyEffects sampleState
        (handleStatusChange "EMP001" "Present" sampleState)).attendance
      = sampleState.attendance :=
  ⟨by decide, by decide,
    ((handleStatusChange_idempotent sampleState "EMP001" "Present" (by decide)).2
      (by decide)).1⟩

/-- Claim C10: the submit control is disabled exactly when `marking` is true or
the pending-selection mapping has no entry; invoked with an empty mapping,
`handleMarkAttendance` issues no mark call, never calls `setMarking`, and
leaves the marking flag, the mapping and the world unchanged. -/
theorem submit_disabled_or_empty {σ : Type} (mark : MarkApi σ) (w : σ) (st : PageState) :
    (submitDisabled st = true ↔
      (st.marking = true ∨ (objectEntries st.attendance).length = 0)) ∧
    ((objectEntries st.attendance).length = 0 →
      (handleMarkAttendance mark w st).effects.filterMap callPayload = [] ∧
      (handleMarkAttendance mark w st).effects.filter isApiEvent = [] ∧
      (handleMarkAttendance mark w st).effects.filter isSetMarking = [] ∧
      (applyEffects st (handleMarkAttendance mark w st).effects).marking = st.marking ∧
      (applyEffects st (handleMarkAttendance mark w st).effects).attendance = st.attendance ∧
      (handleMarkAttendance mark w st).world = w) := by
  constructor
  · simp [submitDisabled, markedCount, objectKeys, objectEntries]
  · intro h0
    have h : objectEntries st.attendance = [] := List.length_eq_zero.mp h0
    rw [handleMarkAttendance_empty mark w st h]
    exact ⟨rfl, rfl, rfl, rfl, rfl, rfl⟩

theorem submit_disabled_or_empty_witness :
    submitDisabled { sampleState with attendance := [] } = true ∧
    (handleMarkAttendance sampleMark 0 { sampleState with attendance := [] }).effects =
      [Effect.setToast (some
        { message := "Please select attendance for at least one employee", type := "error" })] ∧
    (handleMarkAttendance sampleMark 0 { sampleState with attendance := [] }).effects.filter
      isSetMarking = [] :=
  ⟨by decide, by decide,
    ((submit_disabled_or_empty sampleMark 0 { sampleState with attendance := [] }).2
      (by decide)).2.2.1⟩

end HRMS

namespace HRMS

/-! ## White space and the email pattern -/

theorem dropWhile_eq_nil_iff_all {p : Char → Bool} (l : List Char) :
    l.dropWhile p = [] ↔ ∀ c ∈ l, p c = true := by
  induction l with
  | nil => simp
  | cons a l ih =>
    by_cases h : p a = true
    · simp [List.dropWhile_cons, h, ih]
    · simp [List.dropWhile_cons, h]

theorem trim_eq_empty_iff (s : String) :
    trim s = "" ↔ ∀ c ∈ s.data, isWhiteSpace c = true := by
  unfold trim
  constructor
  · intro h
    have h1 : ((s.data.dropWhile isWhiteSpace).reverse.dropWhile isWhiteSpace).reverse = [] :=
      congrArg String.data h
    rw [List.reverse_eq_nil_iff, dropWhile_eq_nil_iff_all] at h1
    have h2 : ∀ c ∈ s.data.dropWhile isWhiteSpace, isWhiteSpace c = true :=
      fun c hc => h1 c (List.mem_reverse.mpr hc)
    have h3 : s.data.dropWhile isWhiteSpace = [] := by
      cases hd : s.data.dropWhile isWhiteSpace with
      | nil => rfl
      | cons a rest =>
        have hhead := List.head_dropWhile_not isWhiteSpace s.data (by rw [hd]; simp)
        have ha := h2 a (by rw [hd]; simp)
        simp only [hd, List.head_cons] at hhead
        rw [ha] at hhead
        exact absurd hhead (by decide)
    exact (dropWhile_eq_nil_iff_all s.data).mp h3
  · intro h
    have h3 : s.data.dropWhile isWhiteSpace = [] := (dropWhile_eq_nil_iff_all s.data).mpr h
    rw [h3]
    rfl

namespace Regex

theorem test_nothing (x : List Char) : test nothing x = false := by
  induction x with
  | nil => rfl
  | cons c x ih => simpa [test, deriv] using ih

theorem test_empty (x : List Char) : test empty x = true ↔ x = [] := by
  cases x with
  | nil => simp [test, nullable]
  | cons c x => simp [test, deriv, test_nothing]

theorem test_cls (p : Char → Bool) (x : List Char) :
    test (cls p) x = true ↔ ∃ c, x = [c] ∧ p c = true := by
  cases x with
  | nil => simp [test, nullable]
  | cons c x =>
    simp only [test, deriv]
    by_cases hp : p c = true
    · rw [if_pos hp, test_empty]
      constructor
      · rintro rfl; exact ⟨c, rfl, hp⟩
      · rintro ⟨d, hd, _⟩
        exact (List.cons.inj hd).2
    · rw [if_neg hp, test_nothing]
      constructor
      · intro h; exact absurd h (by decide)
      · rintro ⟨d, hd, hpd⟩
        have : c = d := (List.cons.inj hd).1
        subst this
        exact absurd hpd hp

theorem test_alt (a b : Regex) (x : List Char) :
    test (alt a b) x = (test a x || test b x) := by
  induction x generalizing a b with
  | nil => rfl
  | cons c x ih => simp only [test, deriv, ih]

theorem test_seq (a b : Regex) (x : List Char) :
    test (seq a b) x = true ↔ ∃ t u, x = t ++ u ∧ test a t = true ∧ test b u = true := by
  induction x generalizing a b with
  | nil =>
    simp only [test, nullable, Bool.and_eq_true]
    constructor
    · rintro ⟨ha, hb⟩; exact ⟨[], [], rfl, ha, hb⟩
    · rintro ⟨t, u, h, ha, hb⟩
      have ht : t = [] := (List.append_eq_nil.mp h.symm).1
      have hu : u = [] := (List.append_eq_nil.mp h.symm).2
      subst ht; subst hu
      exact ⟨ha, hb⟩
  | cons c x ih =>
    simp only [test, deriv]
    by_cases hn : nullable a = true
    · rw [if_pos hn, test_alt, Bool.or_eq_true, ih]
      constructor
      · rintro (⟨t, u, hx, ha, hb⟩ | hb)
        · exact ⟨c :: t, u, by rw [hx]; rfl, ha, hb⟩
        · exact ⟨[], c :: x, rfl, hn, hb⟩
      · rintro ⟨t, u, hx, ha, hb⟩
        cases t with
        | nil =>
          right
          have hu : u = c :: x := by simpa using hx.symm
          rw [hu] at hb
          exact hb
        | cons d t =>
          left
          have hcd : c = d ∧ x = t ++ u := by simpa using hx
          obtain ⟨rfl, hx'⟩ := hcd
          exact ⟨t, u, hx', ha, hb⟩
    · rw [if_neg hn, ih]
      constructor
      · rintro ⟨t, u, hx, ha, hb⟩
        exact ⟨c :: t, u, by rw [hx]; rfl, ha, hb⟩
      · rintro ⟨t, u, hx, ha, hb⟩
        cases t with
        | nil => exact absurd ha hn
        | cons d t =>
          have hcd : c = d ∧ x = t ++ u := by simpa using hx
          obtain ⟨rfl, hx'⟩ := hcd
          exact ⟨t, u, hx', ha, hb⟩

theorem test_star_cls (p : Char → Bool) (x : List Char) :
    test (star (cls p)) x = true ↔ ∀ c ∈ x, p c = true := by
  induction x with
  | nil => simp [test, nullable]
  | cons c x ih =>
    simp only [test, deriv]
    rw [test_seq]
    by_cases hp : p c = true
    · rw [if_pos hp]
      simp only [test_empty]
      constructor
      · rintro ⟨t, u, hx, ht, hu⟩
        subst ht
        simp only [List.nil_append] at hx
        subst hx
        intro d hd
        rcases List.mem_cons.mp hd with rfl | hd'
        · exact hp
        · exact ih.mp hu d hd'
      · intro h
        exact ⟨[], x, rfl, rfl, ih.mpr (fun d hd => h d (List.mem_cons_of_mem _ hd))⟩
    · rw [if_neg hp]
      constructor
      · rintro ⟨t, u, _, ht, _⟩
        rw [test_nothing] at ht
        exact absurd ht (by decide)
      · intro h
        exact absurd (h c (List.mem_cons_self _ _)) hp

theorem test_plus_cls (p : Char → Bool) (x : List Char) :
    test (plus (cls p)) x = true ↔ x ≠ [] ∧ ∀ c ∈ x, p c = true := by
  unfold plus
  rw [test_seq]
  constructor
  · rintro ⟨t, u, hx, ht, hu⟩
    obtain ⟨c, rfl, hc⟩ := (test_cls p t).mp ht
    subst hx
    refine ⟨by simp, ?_⟩
    intro d hd
    rcases List.mem_cons.mp hd with rfl | hd'
    · exact hc
    · exact (test_star_cls p u).mp hu d hd'
  · rintro ⟨hne, hall⟩
    cases x with
    | nil => exact absurd rfl hne
    | cons c x =>
      exact ⟨[c], x, rfl, (test_cls p [c]).mpr ⟨c, rfl, hall c (List.mem_cons_self _ _)⟩,
        (test_star_cls p x).mpr (fun d hd => hall d (List.mem_cons_of_mem _ hd))⟩

end Regex

theorem notSpaceOrAt_iff (c : Char) :
    notSpaceOrAt c = true ↔ isWhiteSpace c = false ∧ c ≠ '@' := by
  unfold notSpaceOrAt
  cases h : isWhiteSpace c <;> simp

theorem emailPattern_test_iff (x : List Char) :
    emailPattern.test x = true ↔
      ∃ l d t : List Char, x = l ++ '@' :: (d ++ '.' :: t) ∧
        (l ≠ [] ∧ ∀ c ∈ l, notSpaceOrAt c = true) ∧
        (d ≠ [] ∧ ∀ c ∈ d, notSpaceOrAt c = true) ∧
        (t ≠ [] ∧ ∀ c ∈ t, notSpaceOrAt c = true) := by
  unfold emailPattern
  simp only [Regex.test_seq, Regex.test_plus_cls, Regex.test_cls]
  constructor
  · rintro ⟨l, u1, hx, hl, a, u2, hu1, ⟨ca, rfl, hca⟩, d, u3, hu2, hd, dt, t, hu3, ⟨cd, rfl, hcd⟩, ht⟩
    have hca' : ca = '@' := by simpa using hca
    have hcd' : cd = '.' := by simpa using hcd
    subst hca'; subst hcd'
    refine ⟨l, d, t, ?_, hl, hd, ht⟩
    rw [hx, hu1, hu2, hu3]
    rfl
  · rintro ⟨l, d, t, hx, hl, hd, ht⟩
    exact ⟨l, '@' :: (d ++ '.' :: t), hx, hl, ['@'], d ++ '.' :: t, rfl,
      ⟨'@', rfl, by simp⟩, d, '.' :: t, rfl, hd, ['.'], t, rfl, ⟨'.', rfl, by simp⟩, ht⟩

theorem emailPattern_test_iff_shape (email : String) :
    emailPattern.test email.data = true ↔ HasEmailShape email := by
  rw [emailPattern_test_iff]
  unfold HasEmailShape
  constructor
  · rintro ⟨l, d, t, hx, ⟨hl, hla⟩, ⟨hd, hda⟩, ⟨ht, hta⟩⟩
    have hl' := fun c hc => (notSpaceOrAt_iff c).mp (hla c hc)
    have hd' := fun c hc => (notSpaceOrAt_iff c).mp (hda c hc)
    have ht' := fun c hc => (notSpaceOrAt_iff c).mp (hta c hc)
    refine ⟨?_, ?_, l, d ++ '.' :: t, hx, hl, d, t, rfl, hd, ht⟩
    · intro c hc
      rw [hx] at hc
      simp only [List.mem_append, List.mem_cons] at hc
      rcases hc with hc | rfl | hc | rfl | hc
      · exact (hl' c hc).1
      · decide
      · exact (hd' c hc).1
      · decide
      · exact (ht' c hc).1
    · rw [hx]
      have cl : l.count '@' = 0 := List.count_eq_zero.mpr (fun hm => (hl' _ hm).2 rfl)
      have cd : d.count '@' = 0 := List.count_eq_zero.mpr (fun hm => (hd' _ hm).2 rfl)
      have ct : t.count '@' = 0 := List.count_eq_zero.mpr (fun hm => (ht' _ hm).2 rfl)
      rw [List.count_append, List.count_cons_self, List.count_append,
        List.count_cons_of_ne (by decide), cl, cd, ct]
  · rintro ⟨hws, hcount, loc, dom, hx, hloc, d1, d2, hdom, hd1, hd2⟩
    rw [hx, List.count_append, List.count_cons_self] at hcount
    have cl : loc.count '@' = 0 := by omega
    have cdom : dom.count '@' = 0 := by omega
    have hnl : '@' ∉ loc := List.count_eq_zero.mp cl
    have hndom : '@' ∉ dom := List.count_eq_zero.mp cdom
    refine ⟨loc, d1, d2, by rw [hx, hdom], ⟨hloc, ?_⟩, ⟨hd1, ?_⟩, ⟨hd2, ?_⟩⟩
    · intro c hc
      refine (notSpaceOrAt_iff c).mpr ⟨hws c (by rw [hx]; simp [hc]), ?_⟩
      rintro rfl; exact hnl hc
    · intro c hc
      refine (notSpaceOrAt_iff c).mpr ⟨hws c (by rw [hx, hdom]; simp [hc]), ?_⟩
      rintro rfl; exact hndom (by rw [hdom]; simp [hc])
    · intro c hc
      refine (notSpaceOrAt_iff c).mpr ⟨hws c (by rw [hx, hdom]; simp [hc]), ?_⟩
      rintro rfl; exact hndom (by rw [hdom]; simp [hc])

/-! ## The creation form -/

theorem isBlank_iff_trim (value : String) : IsBlank value ↔ trim value = "" :=
  (trim_eq_empty_iff value).symm

theorem hasEmailShape_not_blank (email : String) (h : HasEmailShape email) : ¬ IsBlank email := by
  obtain ⟨hws, -, loc, dom, hx, -⟩ := h
  intro hb
  have hmem : '@' ∈ email.data := by rw [hx]; simp
  have h1 := hws _ hmem
  have h2 := hb _ hmem
  rw [h1] at h2
  exact absurd h2 (by decide)

/-- The object built by `validateForm`, field by field. -/
theorem validateForm_eq (form : Employees.Form) :
    Employees.validateForm form =
      (if IsBlank form.employee_id then [("employee_id", "Employee ID is required")] else []) ++
      (if IsBlank form.full_name then [("full_name", "Full name is required")] else []) ++
      (if IsBlank form.email then [("email", "Email is required")]
        else if emailPattern.test form.email.data = true then []
        else [("email", "Enter a valid email address")]) ++
      (if IsBlank form.department then [("department", "Department is required")] else []) := by
  unfold Employees.validateForm
  simp only [← isBlank_iff_trim]
  by_cases h1 : IsBlank form.employee_id <;> by_cases h2 : IsBlank form.full_name <;>
    by_cases h3 : IsBlank form.email <;> by_cases h4 : IsBlank form.department <;>
    by_cases h5 : emailPattern.test form.email.data = true <;>
    simp only [h1, h2, h3, h4, h5, if_true, if_false, Bool.not_true, Bool.not_false,
      Bool.false_eq_true, not_false_eq_true] <;> rfl

open Employees

theorem validateForm_keys_nil_iff (form : Form) :
    objectKeys (validateForm form) = [] ↔
      ¬ IsBlank form.employee_id ∧ ¬ IsBlank form.full_name ∧ HasEmailShape form.email ∧
        ¬ IsBlank form.department := by
  rw [validateForm_eq, ← emailPattern_test_iff_shape]
  have hsb : emailPattern.test form.email.data = true → ¬ IsBlank form.email :=
    fun h => hasEmailShape_not_blank _ ((emailPattern_test_iff_shape _).mp h)
  by_cases h5 : emailPattern.test form.email.data = true
  · have h3 := hsb h5
    by_cases h1 : IsBlank form.employee_id <;> by_cases h2 : IsBlank form.full_name <;>
      by_cases h4 : IsBlank form.department <;>
      simp [objectKeys, h1, h2, h3, h4, h5]
  · by_cases h1 : IsBlank form.employee_id <;> by_cases h2 : IsBlank form.full_name <;>
      by_cases h3 : IsBlank form.email <;> by_cases h4 : IsBlank form.department <;>
      simp [objectKeys, h1, h2, h3, h4, h5]

/-! ## The handlers of the Employees page -/

theorem applyEffects_fetchEmployeesEnd (st : PageState) (o : Settled (List Employee)) :
    applyEffects st (fetchEmployeesEnd o) =
      match o with
      | Settled.resolved data => { st with employees := data, loading := false }
      | Settled.rejected message => { st with error := some message, loading := false } := by
  cases o <;> rfl

theorem handleSubmit_invalid {σ : Type} (api : EmployeeApi σ) (w : σ) (st : PageState)
    (hv : objectKeys (validateForm st.form) ≠ []) :
    handleSubmit api w st =
      { effects := [Effect.preventDefault, Effect.setFormErrors (validateForm st.form)]
        world := w } := by
  unfold handleSubmit
  have hpos : (objectKeys (validateForm st.form)).length > 0 := List.length_pos.mpr hv
  simp only [hpos, if_true]

theorem handleSubmit_created {σ : Type} (api : EmployeeApi σ) (w : σ) (st : PageState)
    (hv : objectKeys (validateForm st.form) = [])
    (hc : (api.create st.form w).1 = Outcome.resolved) :
    handleSubmit api w st =
      { effects :=
          [Effect.preventDefault, Effect.setSubmitting true, Effect.createCall st.form,
           Effect.createSettled Outcome.resolved,
           Effect.setShowAddModal false, Effect.setForm initialForm, Effect.setFormErrors [],
           Effect.setToast (some { message := "Employee added successfully!", type := "success" })]
          ++ fetchEmployeesBegin ++ [Effect.setSubmitting false]
          ++ fetchEmployeesEnd (api.getAll (api.create st.form w).2).1
        world := (api.getAll (api.create st.form w).2).2 } := by
  unfold handleSubmit
  simp only [hv, List.length_nil, gt_iff_lt, Nat.lt_irrefl, if_false]
  cases hcr : api.create st.form w with
  | mk out w1 =>
    rw [hcr] at hc
    simp only at hc
    subst hc
    rfl

theorem handleSubmit_rejected {σ : Type} (api : EmployeeApi σ) (w : σ) (st : PageState)
    (message : String)
    (hv : objectKeys (validateForm st.form) = [])
    (hc : (api.create st.form w).1 = Outcome.rejected message) :
    handleSubmit api w st =
      { effects :=
          [Effect.preventDefault, Effect.setSubmitting true, Effect.createCall st.form,
           Effect.createSettled (Outcome.rejected message),
           Effect.setToast (some { message := message, type := "error" }),
           Effect.setSubmitting false]
        world := (api.create st.form w).2 } := by
  unfold handleSubmit
  simp only [hv, List.length_nil, gt_iff_lt, Nat.lt_irrefl, if_false]
  cases hcr : api.create st.form w with
  | mk out w1 =>
    rw [hcr] at hc
    simp only at hc
    subst hc
    rfl

theorem handleDelete_deleted {σ : Type} (api : EmployeeApi σ) (w : σ) (st : PageState)
    (target : Employee) (ht : st.deleteTarget = some target)
    (hd : (api.delete target.employee_id w).1 = Outcome.resolved) :
    handleDelete api w st =
      { effects :=
          [Effect.setDeleting true, Effect.deleteCall target.employee_id,
           Effect.deleteSettled Outcome.resolved,
           Effect.setDeleteTarget none,
           Effect.setToast (some { message := "Employee deleted successfully", type := "success" })]
          ++ fetchEmployeesBegin ++ [Effect.setDeleting false]
          ++ fetchEmployeesEnd (api.getAll (api.delete target.employee_id w).2).1
        world := (api.getAll (api.delete target.employee_id w).2).2 } := by
  unfold handleDelete
  simp only [ht]
  cases hdr : api.delete target.employee_id w with
  | mk out w1 =>
    rw [hdr] at hd
    simp only at hd
    subst hd
    rfl

theorem handleDelete_rejected {σ : Type} (api : EmployeeApi σ) (w : σ) (st : PageState)
    (target : Employee) (message : String) (ht : st.deleteTarget = some target)
    (hd : (api.delete target.employee_id w).1 = Outcome.rejected message) :
    handleDelete api w st =
      { effects :=
          [Effect.setDeleting true, Effect.deleteCall target.employee_id,
           Effect.deleteSettled (Outcome.rejected message),
           Effect.setToast (some { message := message, type := "error" }),
           Effect.setDeleting false]
        world := (api.delete target.employee_id w).2 } := by
  unfold handleDelete
  simp only [ht]
  cases hdr : api.delete target.employee_id w with
  | mk out w1 =>
    rw [hdr] at hd
    simp only at hd
    subst hd
    rfl

/-! ## The API client -/

theorem request_fetch_rejected {σ : Type} (base : String) (fetch : FetchApi σ)
    (jsToString : Json → String) (endpoint : String) (options : RequestOptions) (w : σ)
    (message : String) (w1 : σ)
    (hf : fetch (base ++ endpoint)
      { headers := [("Content-Type", "application/json")], method := options.method,
        body := options.body } w = (Settled.rejected message, w1)) :
    request base fetch jsToString endpoint options w = (Settled.rejected message, w1) := by
  unfold request
  simp only [hf]

theorem request_ok {σ : Type} (base : String) (fetch : FetchApi σ)
    (jsToString : Json → String) (endpoint : String) (options : RequestOptions) (w : σ)
    (response : Response) (w1 : σ)
    (hf : fetch (base ++ endpoint)
      { headers := [("Content-Type", "application/json")], method := options.method,
        body := options.body } w = (Settled.resolved response, w1))
    (hok : response.ok = true) :
    request base fetch jsToString endpoint options w = (response.json, w1) := by
  unfold request
  simp only [hf, hok, Bool.not_true, Bool.false_eq_true, if_false]

theorem request_not_ok {σ : Type} (base : String) (fetch : FetchApi σ)
    (jsToString : Json → String) (endpoint : String) (options : RequestOptions) (w : σ)
    (response : Response) (w1 : σ)
    (hf : fetch (base ++ endpoint)
      { headers := [("Content-Type", "application/json")], method := options.method,
        body := options.body } w = (Settled.resolved response, w1))
    (hok : response.ok = false) :
    request base fetch jsToString endpoint options w =
      match response.json with
      | Settled.rejected _ =>
        (Settled.rejected (errorMessage jsToString response.status (Json.obj [])), w1)
      | Settled.resolved Json.null => (Settled.rejected (nullReadMessage "detail"), w1)
      | Settled.resolved data =>
        (Settled.rejected (errorMessage jsToString response.status data), w1) := by
  unfold request
  simp only [hf, hok, Bool.not_false, if_true]
  cases hj : response.json with
  | rejected m => rfl
  | resolved v => cases v <;> rfl

theorem errorMessage_no_detail (jsToString : Json → String) (status : Nat) (data : Json)
    (h : data.detail = none) : errorMessage jsToString status data = genericMessage status := by
  unfold errorMessage
  rw [h]
  rfl

theorem errorMessage_falsy (jsToString : Json → String) (status : Nat) (data detail : Json)
    (h : data.detail = some detail) (hf : detail.truthy = false) :
    errorMessage jsToString status data = genericMessage status := by
  unfold errorMessage
  rw [h]
  simp only [hf, Bool.false_eq_true, if_false]
  rfl

theorem errorMessage_string (jsToString : Json → String) (status : Nat) (data : Json)
    (s : String) (h : data.detail = some (Json.str s)) (hs : s ≠ "") :
    errorMessage jsToString status data = s := by
  unfold errorMessage
  rw [h]
  simp [Json.truthy, hs]

theorem errorMessage_other (jsToString : Json → String) (status : Nat) (data detail : Json)
    (h : data.detail = some detail) (ht : detail.truthy = true)
    (hns : ∀ s, detail ≠ Json.str s) :
    errorMessage jsToString status data = jsToString detail := by
  unfold errorMessage
  rw [h]
  cases detail with
  | str s => exact absurd rfl (hns s)
  | _ => simp only [ht, if_true]

theorem genericMessage_ne_failed (status : Nat) : genericMessage status ≠ "Failed to fetch" := by
  intro h
  have hd := congrArg String.data h
  unfold genericMessage at hd
  rw [String.data_append] at hd
  have : ("Request failed with status ".data ++ (toString status).data).head? = some 'R' := rfl
  rw [hd] at this
  exact absurd this (by decide)

/-! ## The claims on the creation form, the handlers and the API client -/

/-- Claim C11: `handleSubmit` calls `employeeApi.create` if and only if
`validateForm` returns no field error, and then with the form value. When
`validateForm` returns at least one error, `handleSubmit` only stores the
object of field messages in `formErrors`: it issues no network call and leaves
every other cell of the state (the form values, the modal, the employee list)
unchanged. -/
theorem handleSubmit_validation_gate {σ : Type} (api : EmployeeApi σ) (w : σ) (st : PageState) :
    ((handleSubmit api w st).effects.filterMap createData ≠ [] ↔
      objectKeys (validateForm st.form) = []) ∧
    (objectKeys (validateForm st.form) = [] →
      (handleSubmit api w st).effects.filterMap createData = [st.form]) ∧
    (objectKeys (validateForm st.form) ≠ [] →
      (handleSubmit api w st).effects
        = [Effect.preventDefault, Effect.setFormErrors (validateForm st.form)] ∧
      (handleSubmit api w st).effects.filter isCall = [] ∧
      (handleSubmit api w st).world = w ∧
      applyEffects st (handleSubmit api w st).effects
        = { st with formErrors := validateForm st.form }) := by
  have hsome : objectKeys (validateForm st.form) = [] →
      (handleSubmit api w st).effects.filterMap createData = [st.form] := by
    intro hv
    unfold handleSubmit
    simp only [hv, List.length_nil, gt_iff_lt, Nat.lt_irrefl, if_false]
    cases hc : api.create st.form w with
    | mk out w1 =>
      cases out with
      | resolved =>
        cases hg : (api.getAll w1).1 <;>
          simp [fetchEmployeesBegin, fetchEmployeesEnd, createData, hg]
      | rejected message => simp [createData]
  have hnone : objectKeys (validateForm st.form) ≠ [] →
      (handleSubmit api w st) =
        { effects := [Effect.preventDefault, Effect.setFormErrors (validateForm st.form)]
          world := w } := by
    intro hv
    unfold handleSubmit
    have hpos : (objectKeys (validateForm st.form)).length > 0 := List.length_pos.mpr hv
    simp only [hpos, if_true]
  refine ⟨?_, hsome, ?_⟩
  · constructor
    · intro hcalls
      by_contra hv
      rw [hnone hv] at hcalls
      exact hcalls rfl
    · intro hv
      rw [hsome hv]
      simp
  · intro hv
    rw [hnone hv]
    exact ⟨rfl, rfl, rfl, rfl⟩

/-- Claim C12: for each of the fields `employee_id`, `full_name` and
`department`, `validateForm` reports the field's required-message exactly
when the value is blank (empty once trimmed), and the entry for a field is the
same for any two forms that agree on that field. -/
theorem validateForm_required_fields (form : Form) :
    (IsBlank form.employee_id →
      getProperty (validateForm form) "employee_id" = some "Employee ID is required") ∧
    (¬ IsBlank form.employee_id → getProperty (validateForm form) "employee_id" = none) ∧
    (IsBlank form.full_name →
      getProperty (validateForm form) "full_name" = some "Full name is required") ∧
    (¬ IsBlank form.full_name → getProperty (validateForm form) "full_name" = none) ∧
    (IsBlank form.department →
      getProperty (validateForm form) "department" = some "Department is required") ∧
    (¬ IsBlank form.department → getProperty (validateForm form) "department" = none) ∧
    (∀ other : Form,
      (other.employee_id = form.employee_id →
        getProperty (validateForm other) "employee_id"
          = getProperty (validateForm form) "employee_id") ∧
      (other.full_name = form.full_name →
        getProperty (validateForm other) "full_name"
          = getProperty (validateForm form) "full_name") ∧
      (other.department = form.department →
        getProperty (validateForm other) "department"
          = getProperty (validateForm form) "department")) := by
  have key : ∀ f : Form,
      getProperty (validateForm f) "employee_id"
        = (if IsBlank f.employee_id then some "Employee ID is required" else none) ∧
      getProperty (validateForm f) "full_name"
        = (if IsBlank f.full_name then some "Full name is required" else none) ∧
      getProperty (validateForm f) "department"
        = (if IsBlank f.department then some "Department is required" else none) := by
    intro f
    rw [validateForm_eq]
    by_cases h1 : IsBlank f.employee_id <;> by_cases h2 : IsBlank f.full_name <;>
      by_cases h3 : IsBlank f.email <;> by_cases h4 : IsBlank f.department <;>
      by_cases h5 : emailPattern.test f.email.data = true <;>
      simp only [h1, h2, h3, h4, h5, if_true, if_false] <;> decide
  obtain ⟨k1, k2, k3⟩ := key form
  refine ⟨fun h => by rw [k1, if_pos h], fun h => by rw [k1, if_neg h],
    fun h => by rw [k2, if_pos h], fun h => by rw [k2, if_neg h],
    fun h => by rw [k3, if_pos h], fun h => by rw [k3, if_neg h], ?_⟩
  intro other
  obtain ⟨o1, o2, o3⟩ := key other
  refine ⟨fun h => by rw [o1, k1, h], fun h => by rw [o2, k2, h], fun h => by rw [o3, k3, h]⟩

/-- Claim C13: `validateForm` reports no error on `email` if and only if the
email is non-empty and has the shape `local@domain.tld` (no white space,
exactly one `@`, a non-empty local part, a domain with a `.` that has at least
one character on each side); a blank email is reported as required, any other
email without the shape as invalid. -/
theorem validateForm_email (form : Form) :
    (getProperty (validateForm form) "email" = none ↔
      (form.email ≠ "" ∧ HasEmailShape form.email)) ∧
    (IsBlank form.email → getProperty (validateForm form) "email" = some "Email is required") ∧
    (¬ IsBlank form.email → ¬ HasEmailShape form.email →
      getProperty (validateForm form) "email" = some "Enter a valid email address") := by
  have key : getProperty (validateForm form) "email"
      = (if IsBlank form.email then some "Email is required"
         else if emailPattern.test form.email.data = true then none
         else some "Enter a valid email address") := by
    rw [validateForm_eq]
    by_cases h1 : IsBlank form.employee_id <;> by_cases h2 : IsBlank form.full_name <;>
      by_cases h3 : IsBlank form.email <;> by_cases h4 : IsBlank form.department <;>
      by_cases h5 : emailPattern.test form.email.data = true <;>
      simp only [h1, h2, h3, h4, h5, if_true, if_false] <;> decide
  refine ⟨?_, ?_, ?_⟩
  · rw [key]
    constructor
    · intro h
      by_cases h3 : IsBlank form.email
      · rw [if_pos h3] at h; exact absurd h (by simp)
      · rw [if_neg h3] at h
        by_cases h5 : emailPattern.test form.email.data = true
        · refine ⟨?_, (emailPattern_test_iff_shape _).mp h5⟩
          intro he
          apply h3
          rw [he]
          intro c hc
          simp at hc
        · rw [if_neg h5] at h; exact absurd h (by simp)
    · rintro ⟨-, hs⟩
      rw [if_neg (hasEmailShape_not_blank _ hs), if_pos ((emailPattern_test_iff_shape _).mpr hs)]
  · intro h3
    rw [key, if_pos h3]
  · intro h3 hs
    rw [key, if_neg h3, if_neg (fun h5 => hs ((emailPattern_test_iff_shape _).mp h5))]

/-- Claim C14: with `email = "not-an-email"` and the other three fields filled
in, `validateForm` returns an object whose only key is `email`, and
`handleSubmit` calls neither `employeeApi.create` nor any other network
operation; the field error is stored in `formErrors`. -/
theorem handleSubmit_not_an_email {σ : Type} (api : EmployeeApi σ) (w : σ) (st : PageState)
    (hemail : st.form.email = "not-an-email")
    (hid : ¬ IsBlank st.form.employee_id) (hname : ¬ IsBlank st.form.full_name)
    (hdept : ¬ IsBlank st.form.department) :
    validateForm st.form = [("email", "Enter a valid email address")] ∧
    objectKeys (validateForm st.form) = ["email"] ∧
    (handleSubmit api w st).effects.filterMap createData = [] ∧
    (handleSubmit api w st).effects.filter isCall = [] ∧
    (applyEffects st (handleSubmit api w st).effects).formErrors
      = [("email", "Enter a valid email address")] := by
  have hv : validateForm st.form = [("email", "Enter a valid email address")] := by
    rw [validateForm_eq, hemail, if_neg hid, if_neg hname, if_neg hdept]
    decide
  have hk : objectKeys (validateForm st.form) ≠ [] := by rw [hv]; decide
  rw [handleSubmit_invalid api w st hk, hv]
  exact ⟨rfl, rfl, rfl, rfl, rfl⟩

theorem handleSubmit_not_an_email_witness :
    objectKeys (validateForm
      { Employees.sampleState.form with email := "not-an-email" }) = ["email"] ∧
    (handleSubmit Employees.sampleApi 0
        { Employees.sampleState with
          form := { Employees.sampleState.form with email := "not-an-email" } }).effects.filterMap
      createData = [] :=
  ⟨(handleSubmit_not_an_email Employees.sampleApi 0
      { Employees.sampleState with
        form := { Employees.sampleState.form with email := "not-an-email" } }
      rfl (by decide) (by decide) (by decide)).2.1,
   (handleSubmit_not_an_email Employees.sampleApi 0
      { Employees.sampleState with
        form := { Employees.sampleState.form with email := "not-an-email" } }
      rfl (by decide) (by decide) (by decide)).2.2.1⟩

/-- Claim C15: for a form that passes validation and a create call that
resolves, `handleSubmit` closes the modal, resets the form to the empty
values, clears the field errors, sets submitting back to false, shows the
success notification, and issues after the create call exactly one call of
`getAll`; the only list it ever stores in `employees` is the one that call
returns (the list is left as it was when the re-fetch fails). -/
theorem handleSubmit_success {σ : Type} (api : EmployeeApi σ) (w : σ) (st : PageState)
    (hv : objectKeys (validateForm st.form) = [])
    (hc : (api.create st.form w).1 = Outcome.resolved) :
    (applyEffects st (handleSubmit api w st).effects).showAddModal = false ∧
    (applyEffects st (handleSubmit api w st).effects).form
      = { employee_id := "", full_name := "", email := "", department := "" } ∧
    (applyEffects st (handleSubmit api w st).effects).formErrors = [] ∧
    (applyEffects st (handleSubmit api w st).effects).submitting = false ∧
    (handleSubmit api w st).effects.filterMap toastSet
      = [some { message := "Employee added successfully!", type := "success" }] ∧
    (handleSubmit api w st).effects.filter isCall
      = [Effect.createCall st.form, Effect.getAllCall] ∧
    (handleSubmit api w st).effects.filterMap employeesSet
      = (match (api.getAll (api.create st.form w).2).1 with
         | Settled.resolved data => [data]
         | Settled.rejected _ => []) ∧
    (applyEffects st (handleSubmit api w st).effects).employees
      = (match (api.getAll (api.create st.form w).2).1 with
         | Settled.resolved data => data
         | Settled.rejected _ => st.employees) := by
  rw [handleSubmit_created api w st hv hc]
  generalize (api.getAll (api.create st.form w).2).1 = o
  cases o with
  | resolved data => refine ⟨?_, ?_, ?_, ?_, ?_, ?_, ?_, ?_⟩ <;> rfl
  | rejected message => refine ⟨?_, ?_, ?_, ?_, ?_, ?_, ?_, ?_⟩ <;> rfl

theorem handleSubmit_success_witness :
    objectKeys (validateForm Employees.sampleState.form) = [] ∧
    (applyEffects Employees.sampleState
        (handleSubmit Employees.sampleApi 0 Employees.sampleState).effects).form
      = { employee_id := "", full_name := "", email := "", department := "" } ∧
    (handleSubmit Employees.sampleApi 0 Employees.sampleState).effects.filter isCall
      = [Effect.createCall Employees.sampleState.form, Effect.getAllCall] :=
  ⟨by decide,
    (handleSubmit_success Employees.sampleApi 0 Employees.sampleState (by decide) rfl).2.1,
    (handleSubmit_success Employees.sampleApi 0 Employees.sampleState (by decide) rfl).2.2.2.2.2.1⟩

/-- Claim C16: with a delete target chosen, `handleDelete` calls
`employeeApi.delete` once, with the target's `employee_id`, and ends with the
deleting flag false. When the call resolves it clears the delete target, shows
the success notification and re-fetches the list. When the call rejects it
shows an error notification carrying the message of the rejection, issues no
re-fetch and leaves the employee list unchanged. -/
theorem handleDelete_paths {σ : Type} (api : EmployeeApi σ) (w : σ) (st : PageState)
    (target : Employee) (ht : st.deleteTarget = some target) :
    (handleDelete api w st).effects.filterMap deleteId = [target.employee_id] ∧
    (applyEffects st (handleDelete api w st).effects).deleting = false ∧
    ((api.delete target.employee_id w).1 = Outcome.resolved →
      (applyEffects st (handleDelete api w st).effects).deleteTarget = none ∧
      (handleDelete api w st).effects.filterMap toastSet
        = [some { message := "Employee deleted successfully", type := "success" }] ∧
      (handleDelete api w st).effects.filter isCall
        = [Effect.deleteCall target.employee_id, Effect.getAllCall]) ∧
    (∀ message, (api.delete target.employee_id w).1 = Outcome.rejected message →
      (handleDelete api w st).effects.filterMap toastSet
        = [some { message := message, type := "error" }] ∧
      (handleDelete api w st).effects.filter isCall = [Effect.deleteCall target.employee_id] ∧
      (handleDelete api w st).effects.filterMap employeesSet = [] ∧
      (applyEffects st (handleDelete api w st).effects).employees = st.employees) := by
  cases hd : (api.delete target.employee_id w).1 with
  | resolved =>
    have h := handleDelete_deleted api w st target ht hd
    cases hg : (api.getAll (api.delete target.employee_id w).2).1 with
    | resolved data =>
      rw [hg] at h
      rw [h]
      refine ⟨rfl, rfl, fun _ => ⟨rfl, rfl, rfl⟩, ?_⟩
      intro m hm
      cases hm
    | rejected message =>
      rw [hg] at h
      rw [h]
      refine ⟨rfl, rfl, fun _ => ⟨rfl, rfl, rfl⟩, ?_⟩
      intro m hm
      cases hm
  | rejected message =>
    rw [handleDelete_rejected api w st target message ht hd]
    refine ⟨rfl, rfl, ?_, ?_⟩
    · intro h
      cases h
    · intro m hm
      cases hm
      exact ⟨rfl, rfl, rfl, rfl⟩

theorem handleDelete_paths_witness :
    (handleDelete Employees.failingApi 0 Employees.sampleState).effects.filterMap toastSet
      = [some { message := "Employee not found", type := "error" }] ∧
    (handleDelete Employees.sampleApi 0 Employees.sampleState).effects.filter isCall
      = [Effect.deleteCall "EMP002", Effect.getAllCall] :=
  ⟨((handleDelete_paths Employees.failingApi 0 Employees.sampleState _ rfl).2.2.2
      "Employee not found" rfl).1,
    ((handleDelete_paths Employees.sampleApi 0 Employees.sampleState _ rfl).2.2.1 rfl).2.2⟩

/-- Claim C17: when `employeeApi.create` rejects, `handleSubmit` shows an error
notification carrying the message of the rejection and issues no re-fetch;
afterwards the state differs from the state before only in the notification
and in `submitting`, which is false: the employee list, the form values, the
field errors and the modal are unchanged. -/
theorem handleSubmit_failed_create {σ : Type} (api : EmployeeApi σ) (w : σ) (st : PageState)
    (message : String)
    (hv : objectKeys (validateForm st.form) = [])
    (hc : (api.create st.form w).1 = Outcome.rejected message) :
    (handleSubmit api w st).effects.filterMap toastSet
      = [some { message := message, type := "error" }] ∧
    (handleSubmit api w st).effects.filter isCall = [Effect.createCall st.form] ∧
    (handleSubmit api w st).effects.filter isGetAllCall = [] ∧
    applyEffects st (handleSubmit api w st).effects
      = { st with toast := some { message := message, type := "error" }, submitting := false } ∧
    (applyEffects st (handleSubmit api w st).effects).employees = st.employees ∧
    (applyEffects st (handleSubmit api w st).effects).form = st.form ∧
    (applyEffects st (handleSubmit api w st).effects).formErrors = st.formErrors ∧
    (applyEffects st (handleSubmit api w st).effects).showAddModal = st.showAddModal ∧
    (applyEffects st (handleSubmit api w st).effects).submitting = false := by
  rw [handleSubmit_rejected api w st message hv hc]
  exact ⟨rfl, rfl, rfl, rfl, rfl, rfl, rfl, rfl, rfl⟩

theorem handleSubmit_failed_create_witness :
    objectKeys (validateForm Employees.sampleState.form) = [] ∧
    applyEffects Employees.sampleState
        (handleSubmit Employees.failingApi 0 Employees.sampleState).effects
      = { Employees.sampleState with
          toast := some { message := "Employee ID already exists", type := "error" },
          submitting := false } :=
  ⟨by decide,
    (handleSubmit_failed_create Employees.failingApi 0 Employees.sampleState
      "Employee ID already exists" (by decide) rfl).2.2.2.1⟩

/-- Claim C18, as amended: on a response with a non-success status `N`, whose
body is not the JSON value `null`, `request` rejects with one error. Its
message is the `detail` of the body when the body parses as JSON and carries a
truthy `detail` (a non-empty string as it is, another truthy value converted
to a string), and it is `Request failed with status N` otherwise: body absent
or unparseable, no `detail`, or a falsy `detail` such as the empty string. -/
theorem request_error_message {σ : Type} (base : String) (fetch : FetchApi σ)
    (jsToString : Json → String) (endpoint : String) (options : RequestOptions) (w : σ)
    (response : Response) (w1 : σ)
    (hf : fetch (base ++ endpoint)
      { headers := [("Content-Type", "application/json")], method := options.method,
        body := options.body } w = (Settled.resolved response, w1))
    (hok : response.ok = false) :
    (∀ m, response.json = Settled.rejected m →
      request base fetch jsToString endpoint options w
        = (Settled.rejected ("Request failed with status " ++ toString response.status), w1)) ∧
    (∀ data, response.json = Settled.resolved data → data ≠ Json.null →
      (data.detail = none →
        request base fetch jsToString endpoint options w
          = (Settled.rejected ("Request failed with status " ++ toString response.status),
             w1)) ∧
      (∀ detail, data.detail = some detail → detail.truthy = false →
        request base fetch jsToString endpoint options w
          = (Settled.rejected ("Request failed with status " ++ toString response.status),
             w1)) ∧
      (∀ s, data.detail = some (Json.str s) → s ≠ "" →
        request base fetch jsToString endpoint options w = (Settled.rejected s, w1)) ∧
      (∀ detail, data.detail = some detail → detail.truthy = true →
        (∀ s, detail ≠ Json.str s) →
        request base fetch jsToString endpoint options w
          = (Settled.rejected (jsToString detail), w1))) := by
  have h := request_not_ok base fetch jsToString endpoint options w response w1 hf hok
  constructor
  · intro m hm
    rw [h, hm]
    rfl
  · intro data hdata hnull
    have h' : request base fetch jsToString endpoint options w
        = (Settled.rejected (errorMessage jsToString response.status data), w1) := by
      rw [h, hdata]
      cases data with
      | null => exact absurd rfl hnull
      | _ => rfl
    rw [h']
    refine ⟨?_, ?_, ?_, ?_⟩
    · intro hd
      rw [errorMessage_no_detail jsToString _ _ hd]; rfl
    · intro detail hd hfalsy
      rw [errorMessage_falsy jsToString _ _ detail hd hfalsy]; rfl
    · intro s hd hs
      rw [errorMessage_string jsToString _ _ s hd hs]
    · intro detail hd ht hns
      rw [errorMessage_other jsToString _ _ detail hd ht hns]

theorem request_error_message_witness :
    request (API_BASE none) fetchNotFound sampleToString "/employees/EMP404"
        { method := some "DELETE", body := none } 0
      = (Settled.rejected "Employee not found", 1) :=
  ((request_error_message (API_BASE none) fetchNotFound sampleToString "/employees/EMP404"
      { method := some "DELETE", body := none } 0
      { status := 404
        json := Settled.resolved (Json.obj [("detail", Json.str "Employee not found")]) } 1
      rfl rfl).2 _ rfl (by simp)).2.2.1 "Employee not found" rfl (by decide)

/-- Claim C18, as stated, fails: on status 400 with the body `{"detail": ""}`
the body carries a `detail`, and the message of the error is
`Request failed with status 400`, not that detail. -/
theorem request_empty_detail :
    (Json.obj [("detail", Json.str "")]).detail = some (Json.str "") ∧
    (request (API_BASE none) fetchEmptyDetail sampleToString "/employees"
        { method := none, body := none } 0).1
      = Settled.rejected "Request failed with status 400" ∧
    ¬ ((request (API_BASE none) fetchEmptyDetail sampleToString "/employees"
        { method := none, body := none } 0).1 = Settled.rejected "") := by
  refine ⟨rfl, rfl, ?_⟩
  intro h
  have h2 : (Settled.rejected "Request failed with status 400" : Settled Json)
      = Settled.rejected "" := h
  injection h2 with h3
  exact absurd h3 (by decide)

/-- Claim C19, as amended: every failure of a call through `request` reaches the
caller as a rejection carrying a message. A rejection of the transport call
is passed on unchanged; on a success status the outcome is that of
`response.json()`, so a body that cannot be parsed is passed on as the
parser's rejection; on a non-success status (body other than JSON `null`) the
caller gets the normalized error, whose message is the generic status message
or the truthy `detail` of the body. -/
theorem request_failures {σ : Type} (base : String) (fetch : FetchApi σ)
    (jsToString : Json → String) (endpoint : String) (options : RequestOptions) (w : σ) :
    (∀ message w1,
      fetch (base ++ endpoint)
        { headers := [("Content-Type", "application/json")], method := options.method,
          body := options.body } w = (Settled.rejected message, w1) →
      request base fetch jsToString endpoint options w = (Settled.rejected message, w1)) ∧
    (∀ response w1,
      fetch (base ++ endpoint)
        { headers := [("Content-Type", "application/json")], method := options.method,
          body := options.body } w = (Settled.resolved response, w1) →
      (response.ok = true →
        request base fetch jsToString endpoint options w = (response.json, w1)) ∧
      (response.ok = false → response.json ≠ Settled.resolved Json.null →
        ∃ message,
          request base fetch jsToString endpoint options w = (Settled.rejected message, w1) ∧
          (message = "Request failed with status " ++ toString response.status ∨
            ∃ data detail, response.json = Settled.resolved data ∧
              data.detail = some detail ∧ detail.truthy = true ∧
              (message = jsToString detail ∨ detail = Json.str message)))) := by
  constructor
  · intro message w1 hf
    exact request_fetch_rejected base fetch jsToString endpoint options w message w1 hf
  · intro response w1 hf
    constructor
    · intro hok
      exact request_ok base fetch jsToString endpoint options w response w1 hf hok
    · intro hok hnull
      have h := request_not_ok base fetch jsToString endpoint options w response w1 hf hok
      cases hj : response.json with
      | rejected m =>
        rw [hj] at h
        exact ⟨_, h, Or.inl rfl⟩
      | resolved data =>
        have hdn : data ≠ Json.null := fun e => hnull (by rw [hj, e])
        have h' : request base fetch jsToString endpoint options w
            = (Settled.rejected (errorMessage jsToString response.status data), w1) := by
          rw [h, hj]
          cases data with
          | null => exact absurd rfl hdn
          | _ => rfl
        refine ⟨_, h', ?_⟩
        cases hd : data.detail with
        | none => exact Or.inl (errorMessage_no_detail jsToString _ _ hd)
        | some detail =>
          cases ht : detail.truthy with
          | false => exact Or.inl (errorMessage_falsy jsToString _ _ detail hd ht)
          | true =>
            right
            refine ⟨data, detail, rfl, hd, ht, ?_⟩
            by_cases hs : ∃ s, detail = Json.str s
            · obtain ⟨s, rfl⟩ := hs
              right
              have hne : s ≠ "" := by
                intro e; rw [e] at ht; exact absurd ht (by decide)
              rw [errorMessage_string jsToString _ _ s hd hne]
            · left
              exact errorMessage_other jsToString _ _ detail hd ht
                (fun s e => hs ⟨s, e⟩)

/-- Claim C19, as stated, fails: when `fetch` itself rejects with
`Failed to fetch` there is no response, and `request` rejects with that same
message, which is not the generic status message of any status. -/
theorem request_transport_failure :
    (request (API_BASE none) fetchOffline sampleToString "/employees"
        { method := none, body := none } 0).1 = Settled.rejected "Failed to fetch" ∧
    ¬ ∃ status : Nat, "Failed to fetch" = "Request failed with status " ++ toString status := by
  refine ⟨rfl, ?_⟩
  rintro ⟨status, h⟩
  exact genericMessage_ne_failed status h.symm

/-- Claim C20, as amended: for every id, when the server answers
`DELETE /employees/{id}` with a success status and a body that parses as JSON,
`employeeApi.delete` resolves (with the parsed value), so a caller that
ignores the value sees no error. -/
theorem delete_resolves_on_json {σ : Type} (base : String) (fetch : FetchApi σ)
    (jsToString : Json → String) (id : String) (w : σ) (response : Response) (w1 : σ)
    (value : Json)
    (hf : fetch (base ++ ("/employees/" ++ id))
      { headers := [("Content-Type", "application/json")], method := some "DELETE",
        body := none } w = (Settled.resolved response, w1))
    (hok : response.ok = true) (hjson : response.json = Settled.resolved value) :
    employeeApi.delete base fetch jsToString id w = (Settled.resolved value, w1) ∧
    (employeeApi.delete base fetch jsToString id w).1.toOutcome = Outcome.resolved := by
  have h : employeeApi.delete base fetch jsToString id w = (Settled.resolved value, w1) := by
    unfold employeeApi.delete
    rw [request_ok base fetch jsToString _ _ w response w1 hf hok, hjson]
  rw [h]
  exact ⟨rfl, rfl⟩

theorem delete_resolves_on_json_witness :
    (employeeApi.delete (API_BASE none) fetchDeleted sampleToString "EMP002" 0).1.toOutcome
      = Outcome.resolved :=
  (delete_resolves_on_json (API_BASE none) fetchDeleted sampleToString "EMP002" 0
    { status := 200
      json := Settled.resolved
        (Json.obj [("message", Json.str "Employee deleted successfully")]) } 1 _
    rfl rfl rfl).2

/-- Claim C20, as stated, fails: when the server answers the DELETE with status
204 and no body, `response.json()` rejects and `employeeApi.delete` rejects
with it; `handleDelete` then takes its failure path, showing the parser's
message as an error notification and issuing no re-fetch. -/
theorem delete_no_body_rejects :
    (employeeApi.delete (API_BASE none) fetchNoContent sampleToString "EMP002" 0).1
      = Settled.rejected "Unexpected end of JSON input" ∧
    (handleDelete Employees.noContentApi 0 Employees.sampleState).effects.filterMap toastSet
      = [some { message := "Unexpected end of JSON input", type := "error" }] ∧
    (handleDelete Employees.noContentApi 0 Employees.sampleState).effects.filter isGetAllCall
      = [] :=
  ⟨rfl, rfl, rfl⟩

end HRMS

namespace HRMS

/-! ## Search filter: substrings -/

/-- A field that contains a text contains each of its substrings. -/
theorem includes_mono (field s1 s2 : String) (h : IsSubstring s1 s2)
    (h2 : includes field s2 = true) : includes field s1 = true := by
  rw [includes_iff] at h2 ⊢
  exact List.IsInfix.trans h h2

/-- Every field contains the empty text. -/
theorem includes_empty (field : String) : includes field "" = true := by
  rw [includes_iff]
  exact List.nil_infix

/-- Filtering by a stronger test keeps a sublist of what a weaker test keeps. -/
theorem filter_sublist_of_imp {α : Type} (p q : α → Bool) (h : ∀ a, p a = true → q a = true)
    (l : List α) : (l.filter p).Sublist (l.filter q) := by
  have e : l.filter p = (l.filter q).filter p := by
    rw [List.filter_filter]
    apply List.filter_congr
    intro a _
    cases hp : p a
    · simp
    · simp [h a hp]
  rw [e]
  exact List.filter_sublist _

/-! ## The view-mode fetch -/

/-- The effects of `fetchAttendance` when the call resolves. -/
theorem fetchAttendance_resolved {σ : Type} (api : Attendance.ReadApi σ) (empId dateFilter : String)
    (w : σ) (data : List AttendanceRecord) (hemp : empId ≠ "")
    (h : (api.getByEmployee empId (if dateFilter = "" then none else some dateFilter) w).1
      = Settled.resolved data) :
    (Attendance.fetchAttendance api empId dateFilter w).effects =
      [Attendance.Effect.setRecordsLoading true,
       Attendance.Effect.getByEmployeeCall empId (if dateFilter = "" then none else some dateFilter),
       Attendance.Effect.getByEmployeeSettled Outcome.resolved,
       Attendance.Effect.setAttendanceRecords data,
       Attendance.Effect.setRecordsLoading false] := by
  unfold Attendance.fetchAttendance
  simp only [hemp, if_false]
  cases hc : api.getByEmployee empId (if dateFilter = "" then none else some dateFilter) w with
  | mk out w1 =>
    rw [hc] at h
    simp only at h
    subst h
    rfl

/-- The effects of `fetchAttendance` when the call rejects. -/
theorem fetchAttendance_rejected {σ : Type} (api : Attendance.ReadApi σ) (empId dateFilter : String)
    (w : σ) (message : String) (hemp : empId ≠ "")
    (h : (api.getByEmployee empId (if dateFilter = "" then none else some dateFilter) w).1
      = Settled.rejected message) :
    (Attendance.fetchAttendance api empId dateFilter w).effects =
      [Attendance.Effect.setRecordsLoading true,
       Attendance.Effect.getByEmployeeCall empId (if dateFilter = "" then none else some dateFilter),
       Attendance.Effect.getByEmployeeSettled (Outcome.rejected message),
       Attendance.Effect.setToast (some { message := message, type := "error" }),
       Attendance.Effect.setRecordsLoading false] := by
  unfold Attendance.fetchAttendance
  simp only [hemp, if_false]
  cases hc : api.getByEmployee empId (if dateFilter = "" then none else some dateFilter) w with
  | mk out w1 =>
    rw [hc] at h
    simp only at h
    subst h
    rfl

/-- With an employee id, `fetchAttendance` calls `getByEmployee` once, with the
id, and with the date filter when that is not empty. -/
theorem fetchAttendance_requests {σ : Type} (api : Attendance.ReadApi σ)
    (empId dateFilter : String) (w : σ) (hemp : empId ≠ "") :
    (Attendance.fetchAttendance api empId dateFilter w).effects.filterMap
        Attendance.recordRequests
      = [(empId, if dateFilter = "" then none else some dateFilter)] := by
  cases h : (api.getByEmployee empId (if dateFilter = "" then none else some dateFilter) w).1 with
  | resolved data => rw [fetchAttendance_resolved api empId dateFilter w data hemp h]; rfl
  | rejected message => rw [fetchAttendance_rejected api empId dateFilter w message hemp h]; rfl

/-! ## The page fetch and the rendered phase -/

/-- The phase rendered by the Employees and Attendance pages for a loading flag
and an error. -/
theorem renderedPhase_cases (loading : Bool) (error : Option String) :
    (renderedPhase loading error = Phase.loading ↔ loading = true) ∧
    (renderedPhase loading error = Phase.error ↔
      loading = false ∧ ∃ message, error = some message ∧ message ≠ "") ∧
    (renderedPhase loading error = Phase.loaded ↔
      loading = false ∧ (error = none ∨ error = some "")) := by
  unfold renderedPhase
  cases loading with
  | true => simp
  | false =>
    cases error with
    | none => simp
    | some message =>
      by_cases hm : message = ""
      · simp [hm]
      · simp [hm]

/-- The render of the Dashboard: which state gives which result. -/
theorem dashboard_render_cases (st : Dashboard.PageState) :
    (Dashboard.render st = Rendered.phase Phase.loading ↔ st.loading = true) ∧
    (Dashboard.render st = Rendered.phase Phase.error ↔
      st.loading = false ∧ ∃ message, st.error = some message ∧ message ≠ "") ∧
    (Dashboard.render st = Rendered.phase Phase.loaded ↔
      st.loading = false ∧ (st.error = none ∨ st.error = some "") ∧ st.summary ≠ none) ∧
    (Dashboard.render st = Rendered.typeError ↔
      st.loading = false ∧ (st.error = none ∨ st.error = some "") ∧ st.summary = none) := by
  obtain ⟨summary, loading, error⟩ := st
  unfold Dashboard.render
  cases loading with
  | true => simp
  | false =>
    cases error with
    | none => cases summary <;> simp
    | some message =>
      by_cases hm : message = ""
      · cases summary <;> simp [hm]
      · simp [hm]

/-- What a fetch leaves in the state of each of the three pages: starting it
sets `loading` and clears the error; when it completes `loading` is false, the
error is absent exactly when the call resolved, and then the data is the
response; the error is a message exactly when the call rejected with that
message, and then the data is the data held before. -/
theorem fetch_settles {σ : Type} (employeesApi : Employees.EmployeeApi σ)
    (attendanceApi : Attendance.ReadApi σ)
    (getSummary : σ → Settled Dashboard.DashboardSummary × σ) (w : σ)
    (es : Employees.PageState) (as : Attendance.PageState) (ds : Dashboard.PageState) :
    ((Employees.applyEffects es Employees.fetchEmployeesBegin).loading = true ∧
     (Employees.applyEffects es Employees.fetchEmployeesBegin).error = none ∧
     (Employees.applyEffects es (Employees.fetchEmployees employeesApi w).effects).loading
       = false ∧
     ((Employees.applyEffects es (Employees.fetchEmployees employeesApi w).effects).error
         = none ↔ ∃ data, (employeesApi.getAll w).1 = Settled.resolved data) ∧
     (∀ data, (employeesApi.getAll w).1 = Settled.resolved data →
       (Employees.applyEffects es (Employees.fetchEmployees employeesApi w).effects).employees
         = data) ∧
     (∀ message,
       (Employees.applyEffects es (Employees.fetchEmployees employeesApi w).effects).error
         = some message ↔ (employeesApi.getAll w).1 = Settled.rejected message) ∧
     (∀ message, (employeesApi.getAll w).1 = Settled.rejected message →
       (Employees.applyEffects es (Employees.fetchEmployees employeesApi w).effects).employees
         = es.employees)) ∧
    ((Attendance.applyEffects as Attendance.fetchEmployeesBegin).loading = true ∧
     (Attendance.applyEffects as Attendance.fetchEmployeesBegin).error = none ∧
     (Attendance.applyEffects as (Attendance.fetchEmployees attendanceApi w).effects).loading
       = false ∧
     ((Attendance.applyEffects as (Attendance.fetchEmployees attendanceApi w).effects).error
         = none ↔ ∃ data, (attendanceApi.getAll w).1 = Settled.resolved data) ∧
     (∀ data, (attendanceApi.getAll w).1 = Settled.resolved data →
       (Attendance.applyEffects as (Attendance.fetchEmployees attendanceApi w).effects).employees
         = data) ∧
     (∀ message,
       (Attendance.applyEffects as (Attendance.fetchEmployees attendanceApi w).effects).error
         = some message ↔ (attendanceApi.getAll w).1 = Settled.rejected message) ∧
     (∀ message, (attendanceApi.getAll w).1 = Settled.rejected message →
       (Attendance.applyEffects as (Attendance.fetchEmployees attendanceApi w).effects).employees
         = as.employees)) ∧
    ((Dashboard.applyEffects ds Dashboard.fetchSummaryBegin).loading = true ∧
     (Dashboard.applyEffects ds Dashboard.fetchSummaryBegin).error = none ∧
     (Dashboard.applyEffects ds (Dashboard.fetchSummary getSummary w).1).loading = false ∧
     ((Dashboard.applyEffects ds (Dashboard.fetchSummary getSummary w).1).error = none ↔
       ∃ data, (getSummary w).1 = Settled.resolved data) ∧
     (∀ data, (getSummary w).1 = Settled.resolved data →
       (Dashboard.applyEffects ds (Dashboard.fetchSummary getSummary w).1).summary
         = some data) ∧
     (∀ message,
       (Dashboard.applyEffects ds (Dashboard.fetchSummary getSummary w).1).error
         = some message ↔ (getSummary w).1 = Settled.rejected message) ∧
     (∀ message, (getSummary w).1 = Settled.rejected message →
       (Dashboard.applyEffects ds (Dashboard.fetchSummary getSummary w).1).summary
         = ds.summary)) := by
  refine ⟨?_, ?_, ?_⟩
  · unfold Employees.fetchEmployees
    generalize (employeesApi.getAll w).1 = o
    cases o with
    | resolved data =>
      refine ⟨rfl, rfl, rfl, ⟨fun _ => ⟨data, rfl⟩, fun _ => rfl⟩, ?_, ?_, ?_⟩
      · intro d hd
        cases hd
        rfl
      · intro m
        constructor
        · intro hm
          cases hm
        · intro hm
          cases hm
      · intro m hm
        cases hm
    | rejected message =>
      refine ⟨rfl, rfl, rfl, ⟨?_, ?_⟩, ?_, ?_, ?_⟩
      · intro h
        cases h
      · rintro ⟨d, hd⟩
        cases hd
      · intro d hd
        cases hd
      · intro m
        constructor
        · intro hm
          have e : some message = some m := hm
          cases e
          rfl
        · intro hm
          cases hm
          rfl
      · intro m hm
        cases hm
        rfl
  · unfold Attendance.fetchEmployees
    generalize (attendanceApi.getAll w).1 = o
    cases o with
    | resolved data =>
      refine ⟨rfl, rfl, rfl, ⟨fun _ => ⟨data, rfl⟩, fun _ => rfl⟩, ?_, ?_, ?_⟩
      · intro d hd
        cases hd
        rfl
      · intro m
        constructor
        · intro hm
          cases hm
        · intro hm
          cases hm
      · intro m hm
        cases hm
    | rejected message =>
      refine ⟨rfl, rfl, rfl, ⟨?_, ?_⟩, ?_, ?_, ?_⟩
      · intro h
        cases h
      · rintro ⟨d, hd⟩
        cases hd
      · intro d hd
        cases hd
      · intro m
        constructor
        · intro hm
          have e : some message = some m := hm
          cases e
          rfl
        · intro hm
          cases hm
          rfl
      · intro m hm
        cases hm
        rfl
  · unfold Dashboard.fetchSummary
    generalize (getSummary w).1 = o
    cases o with
    | resolved data =>
      refine ⟨rfl, rfl, rfl, ⟨fun _ => ⟨data, rfl⟩, fun _ => rfl⟩, ?_, ?_, ?_⟩
      · intro d hd
        cases hd
        rfl
      · intro m
        constructor
        · intro hm
          cases hm
        · intro hm
          cases hm
      · intro m hm
        cases hm
    | rejected message =>
      refine ⟨rfl, rfl, rfl, ⟨?_, ?_⟩, ?_, ?_, ?_⟩
      · intro h
        cases h
      · rintro ⟨d, hd⟩
        cases hd
      · intro d hd
        cases hd
      · intro m
        constructor
        · intro hm
          have e : some message = some m := hm
          cases e
          rfl
        · intro hm
          cases hm
          rfl
      · intro m hm
        cases hm
        rfl

/-! ## The page number -/

/-- The page controls are rendered only when there is more than one page. -/
theorem paginationShown_totalPages (toLowerCase : String → String) (st : Attendance.PageState)
    (h : Attendance.paginationShown toLowerCase st = true) :
    Attendance.totalPages
      (Attendance.filteredEmployees toLowerCase st.employees st.search) > 1 := by
  unfold Attendance.paginationShown at h
  simp only [Bool.and_eq_true, decide_eq_true_eq] at h
  exact h.2

/-- The render committed after a search change has the new search text and the
page number, the roster and everything else as before. -/
theorem searchRender_eq (value : String) (st : Attendance.PageState) :
    Attendance.searchRender value st = { st with search := value } := rfl

/-- A search change, once the reset effect of its render has run: nothing changes
when the text is the same, otherwise the text is the new one and the page
number is 1. -/
theorem pageStep_changeSearch (toLowerCase : String → String) (st : Attendance.PageState)
    (value : String) :
    Attendance.pageStep toLowerCase st (Attendance.PageAction.changeSearch value)
      = if st.search = value then st else { st with search := value, currentPage := 1 } := by
  simp only [Attendance.pageStep, Attendance.resetPageEffect, searchRender_eq]
  by_cases hv : st.search = value
  · rw [if_pos hv]
    simp only [ne_eq, hv, not_true_eq_false, if_false]
    subst hv
    rfl
  · rw [if_neg hv]
    simp only [ne_eq, hv, not_false_eq_true, if_true]
    rfl

/-- One action, with the effects of its render, keeps the page number within the
pages of the filtered list. -/
theorem pageStep_range (toLowerCase : String → String) (st : Attendance.PageState)
    (a : Attendance.PageAction)
    (h1 : 1 ≤ st.currentPage)
    (h2 : st.currentPage ≤ max 1 (Attendance.totalPages
      (Attendance.filteredEmployees toLowerCase st.employees st.search))) :
    1 ≤ (Attendance.pageStep toLowerCase st a).currentPage ∧
    (Attendance.pageStep toLowerCase st a).currentPage ≤ max 1 (Attendance.totalPages
      (Attendance.filteredEmployees toLowerCase
        (Attendance.pageStep toLowerCase st a).employees
        (Attendance.pageStep toLowerCase st a).search)) := by
  cases a with
  | changeSearch value =>
    rw [pageStep_changeSearch]
    by_cases hv : st.search = value
    · rw [if_pos hv]
      exact ⟨h1, h2⟩
    · rw [if_neg hv]
      show (1 : Int) ≤ 1 ∧ (1 : Int) ≤ max 1 (Attendance.totalPages
        (Attendance.filteredEmployees toLowerCase st.employees value))
      exact ⟨le_refl _, le_max_left _ _⟩
  | prev =>
    simp only [Attendance.pageStep, Attendance.prevPage]
    split
    · show 1 ≤ max 1 (st.currentPage - 1) ∧ max 1 (st.currentPage - 1) ≤ max 1
        (Attendance.totalPages (Attendance.filteredEmployees toLowerCase st.employees st.search))
      omega
    · exact ⟨h1, h2⟩
  | next =>
    simp only [Attendance.pageStep, Attendance.nextPage]
    split
    · next hc =>
      have htp := paginationShown_totalPages toLowerCase st hc.1
      show 1 ≤ min (Attendance.totalPages
          (Attendance.filteredEmployees toLowerCase st.employees st.search))
          (st.currentPage + 1) ∧
        min (Attendance.totalPages
          (Attendance.filteredEmployees toLowerCase st.employees st.search))
          (st.currentPage + 1) ≤ max 1 (Attendance.totalPages
          (Attendance.filteredEmployees toLowerCase st.employees st.search))
      omega
    · exact ⟨h1, h2⟩
  | click page =>
    simp only [Attendance.pageStep, Attendance.clickPage]
    split
    · next hc =>
      show 1 ≤ page ∧ page ≤ max 1 (Attendance.totalPages
        (Attendance.filteredEmployees toLowerCase st.employees st.search))
      have := hc.2.2
      omega
    · exact ⟨h1, h2⟩

/-- A sequence of actions, each with the effects of its render, keeps the page
number within the pages of the filtered list. -/
theorem pageRun_range (toLowerCase : String → String) (actions : List Attendance.PageAction)
    (st : Attendance.PageState)
    (h1 : 1 ≤ st.currentPage)
    (h2 : st.currentPage ≤ max 1 (Attendance.totalPages
      (Attendance.filteredEmployees toLowerCase st.employees st.search))) :
    1 ≤ (Attendance.pageRun toLowerCase st actions).currentPage ∧
    (Attendance.pageRun toLowerCase st actions).currentPage ≤ max 1 (Attendance.totalPages
      (Attendance.filteredEmployees toLowerCase
        (Attendance.pageRun toLowerCase st actions).employees
        (Attendance.pageRun toLowerCase st actions).search)) := by
  induction actions generalizing st with
  | nil => exact ⟨h1, h2⟩
  | cons a rest ih =>
    have hs := pageStep_range toLowerCase st a h1 h2
    exact ih (Attendance.pageStep toLowerCase st a) hs.1 hs.2

/-- The slice of a page within `1..totalPages` is not empty. -/
theorem paginatedEmployees_ne_nil (filtered : List Employee) (page : Int)
    (h1 : 1 ≤ page) (h2 : page ≤ Attendance.totalPages filtered) :
    Attendance.paginatedEmployees filtered page ≠ [] := by
  obtain ⟨i, rfl⟩ : ∃ i : Nat, page = (i : Int) + 1 := ⟨(page - 1).toNat, by omega⟩
  rw [totalPages_closed] at h2
  intro hnil
  have hlen := congrArg List.length hnil
  rw [paginatedEmployees_page, List.length_take, List.length_drop] at hlen
  simp only [List.length_nil] at hlen
  omega

/-- Between actions the page number is in range: starting from `currentPage = 1`,
after every sequence of search changes, `Prev`, `Next` and page clicks, each
with the effects of its render, `currentPage` lies within
`1..max(1, totalPages)` of the filtered list and the displayed slice is not
empty when the filtered list is not empty. The render between a search change
and its reset effect is not one of these states. -/
theorem currentPage_in_range (toLowerCase : String → String) (st : Attendance.PageState)
    (actions : List Attendance.PageAction) (h : st.currentPage = 1) :
    1 ≤ (Attendance.pageRun toLowerCase st actions).currentPage ∧
    (Attendance.pageRun toLowerCase st actions).currentPage ≤ max 1 (Attendance.totalPages
      (Attendance.filteredEmployees toLowerCase
        (Attendance.pageRun toLowerCase st actions).employees
        (Attendance.pageRun toLowerCase st actions).search)) ∧
    (Attendance.filteredEmployees toLowerCase
        (Attendance.pageRun toLowerCase st actions).employees
        (Attendance.pageRun toLowerCase st actions).search ≠ [] →
      Attendance.paginatedEmployees
        (Attendance.filteredEmployees toLowerCase
          (Attendance.pageRun toLowerCase st actions).employees
          (Attendance.pageRun toLowerCase st actions).search)
        (Attendance.pageRun toLowerCase st actions).currentPage ≠ []) := by
  have hr := pageRun_range toLowerCase actions st (by rw [h])
    (by rw [h]; exact le_max_left _ _)
  refine ⟨hr.1, hr.2, ?_⟩
  intro hne
  apply paginatedEmployees_ne_nil _ _ hr.1
  have hpos : 0 < (Attendance.filteredEmployees toLowerCase
      (Attendance.pageRun toLowerCase st actions).employees
      (Attendance.pageRun toLowerCase st actions).search).length := List.length_pos.mpr hne
  have hc := totalPages_closed (Attendance.filteredEmployees toLowerCase
      (Attendance.pageRun toLowerCase st actions).employees
      (Attendance.pageRun toLowerCase st actions).search)
  have h2 := hr.2
  rw [hc] at h2 ⊢
  omega

/-- With no search text the filter keeps the whole roster. -/
theorem roster_filtered : Attendance.filteredEmployees toLowerCaseAscii Attendance.roster ""
    = Attendance.roster := by
  decide

/-- The page controls are rendered for the roster, which has three pages. -/
theorem roster_paginationShown (page : Int) :
    Attendance.paginationShown toLowerCaseAscii
      { Attendance.rosterState with currentPage := page } = true := by
  unfold Attendance.paginationShown
  have hf : Attendance.filteredEmployees toLowerCaseAscii
      ({ Attendance.rosterState with currentPage := page } : Attendance.PageState).employees
      ({ Attendance.rosterState with currentPage := page } : Attendance.PageState).search
      = Attendance.roster := roster_filtered
  have hl : Attendance.roster.length = 45 := by decide
  rw [hf, totalPages_closed, hl]
  simp only [Bool.and_eq_true, decide_eq_true_eq]
  refine ⟨⟨⟨⟨rfl, ?_⟩, rfl⟩, by decide⟩, by decide⟩
  show Attendance.roster.length ≠ 0
  rw [hl]
  decide

/-- `Next` on the roster, before the last page. -/
theorem roster_next (page : Int) (h : page < 3) :
    Attendance.pageStep toLowerCaseAscii { Attendance.rosterState with currentPage := page }
      Attendance.PageAction.next
      = { Attendance.rosterState with currentPage := page + 1 } := by
  have hf : Attendance.filteredEmployees toLowerCaseAscii
      ({ Attendance.rosterState with currentPage := page } : Attendance.PageState).employees
      ({ Attendance.rosterState with currentPage := page } : Attendance.PageState).search
      = Attendance.roster := roster_filtered
  have ht : Attendance.totalPages Attendance.roster = 3 := by
    rw [totalPages_closed]
    decide
  simp only [Attendance.pageStep, Attendance.nextPage, roster_paginationShown, hf, ht]
  have hne : ({ Attendance.rosterState with currentPage := page } : Attendance.PageState).currentPage
      ≠ 3 := by
    show page ≠ 3
    omega
  rw [if_pos ⟨trivial, hne⟩]
  show ({ Attendance.rosterState with currentPage := min 3 (page + 1) } : Attendance.PageState)
    = { Attendance.rosterState with currentPage := page + 1 }
  rw [min_eq_right (by omega)]

/-! ## Pending selections -/

/-- The payloads of the calls are those of the API events. -/
theorem callPayload_of_apiEvents (es : List Attendance.Effect) :
    (es.filter isApiEvent).filterMap callPayload = es.filterMap callPayload := by
  induction es with
  | nil => rfl
  | cons e es ih =>
    cases e <;> simp [List.filter_cons, isApiEvent, callPayload, ih]

/-- The payloads that `handleMarkAttendance` submits: one for each entry of the
mapping, in the order of `Object.entries`, each under `markDate`. -/
theorem handleMarkAttendance_payloads {σ : Type} (mark : MarkApi σ) (w : σ)
    (st : Attendance.PageState) :
    (Attendance.handleMarkAttendance mark w st).effects.filterMap callPayload
      = (objectEntries st.attendance).map (payloadOf st.markDate) := by
  rw [← callPayload_of_apiEvents, handleMarkAttendance_api_events, sequentialCalls_payloads]

/-- Setting the page number leaves the pending selections as they are. -/
theorem attendance_of_setCurrentPage (st : Attendance.PageState) (es : List Attendance.Effect)
    (h : ∀ e ∈ es, ∃ v, e = Attendance.Effect.setCurrentPage v) :
    (Attendance.applyEffects st es).attendance = st.attendance := by
  induction es generalizing st with
  | nil => rfl
  | cons e rest ih =>
    obtain ⟨v, rfl⟩ := h e (List.mem_cons_self _ _)
    have := ih (Attendance.applyEffect st (Attendance.Effect.setCurrentPage v))
      (fun x hx => h x (List.mem_cons_of_mem _ hx))
    exact this

/-! ## The claims on the attendance records, the fetches and the page controls -/

/-- Claim C21: for every employee id, `attendanceApi.getByEmployee` requests the
path `/attendance/{employeeId}`, with no query string, when the date is
`undefined` or empty, and the path `/attendance/{employeeId}?date={date}` when
a date is given; a transport that records its requests sees the base URL
followed by that path, once. -/
theorem getByEmployee_path {σ : Type} (base : String) (fetch : FetchApi σ)
    (jsToString : Json → String) (employeeId : String) (w : σ) :
    attendanceApi.getByEmployee base fetch jsToString employeeId none w
      = request base fetch jsToString ("/attendance/" ++ employeeId)
          { method := none, body := none } w ∧
    attendanceApi.getByEmployee base fetch jsToString employeeId (some "") w
      = request base fetch jsToString ("/attendance/" ++ employeeId)
          { method := none, body := none } w ∧
    (∀ date, date ≠ "" →
      attendanceApi.getByEmployee base fetch jsToString employeeId (some date) w
        = request base fetch jsToString ("/attendance/" ++ employeeId ++ "?date=" ++ date)
            { method := none, body := none } w) ∧
    (attendanceApi.getByEmployee base fetchRecording jsToString employeeId none []).2
      = [base ++ ("/attendance/" ++ employeeId)] ∧
    (attendanceApi.getByEmployee base fetchRecording jsToString employeeId (some "") []).2
      = [base ++ ("/attendance/" ++ employeeId)] ∧
    (∀ date, date ≠ "" →
      (attendanceApi.getByEmployee base fetchRecording jsToString employeeId (some date) []).2
        = [base ++ ("/attendance/" ++ employeeId ++ "?date=" ++ date)]) := by
  have h1 : ∀ {τ : Type} (f : FetchApi τ) (v : τ),
      attendanceApi.getByEmployee base f jsToString employeeId none v
        = request base f jsToString ("/attendance/" ++ employeeId)
            { method := none, body := none } v := by
    intro τ f v
    unfold attendanceApi.getByEmployee
    simp only [String.append_empty]
  have h2 : ∀ {τ : Type} (f : FetchApi τ) (v : τ),
      attendanceApi.getByEmployee base f jsToString employeeId (some "") v
        = request base f jsToString ("/attendance/" ++ employeeId)
            { method := none, body := none } v := by
    intro τ f v
    unfold attendanceApi.getByEmployee
    simp only [ne_eq, not_true_eq_false, if_false, String.append_empty]
  have h3 : ∀ {τ : Type} (f : FetchApi τ) (v : τ) (date : String), date ≠ "" →
      attendanceApi.getByEmployee base f jsToString employeeId (some date) v
        = request base f jsToString ("/attendance/" ++ employeeId ++ "?date=" ++ date)
            { method := none, body := none } v := by
    intro τ f v date hd
    unfold attendanceApi.getByEmployee
    simp only [ne_eq, hd, not_false_eq_true, if_true, String.append_assoc]
  have hrec : ∀ endpoint : String,
      (request base fetchRecording jsToString endpoint { method := none, body := none } []).2
        = [base ++ endpoint] := by
    intro endpoint
    rfl
  refine ⟨h1 fetch w, h2 fetch w, fun d hd => h3 fetch w d hd, ?_, ?_, ?_⟩
  · rw [h1, hrec]
  · rw [h2, hrec]
  · intro d hd
    rw [h3 _ _ d hd, hrec]

/-- Claim C22: `presentCount` is the number of loaded records whose status is
`Present` and `absentCount` the number whose status is `Absent`; their sum
never exceeds the number of records, and equals it when the status of every
record is one of the two. -/
theorem presentCount_absentCount (st : Attendance.PageState) :
    Attendance.presentCount st
      = st.attendanceRecords.countP (fun r => decide (r.status = "Present")) ∧
    Attendance.absentCount st
      = st.attendanceRecords.countP (fun r => decide (r.status = "Absent")) ∧
    Attendance.presentCount st + Attendance.absentCount st ≤ st.attendanceRecords.length ∧
    ((∀ r ∈ st.attendanceRecords, r.status = "Present" ∨ r.status = "Absent") →
      Attendance.presentCount st + Attendance.absentCount st = st.attendanceRecords.length) := by
  unfold Attendance.presentCount Attendance.absentCount
  generalize st.attendanceRecords = records
  have step : ∀ (r : AttendanceRecord) (rest : List AttendanceRecord),
      ((r :: rest).filter (fun r => r.status == "Present")).length
        + ((r :: rest).filter (fun r => r.status == "Absent")).length
      = (rest.filter (fun r => r.status == "Present")).length
        + (rest.filter (fun r => r.status == "Absent")).length
        + (if r.status = "Present" ∨ r.status = "Absent" then 1 else 0) := by
    intro r rest
    by_cases hp : r.status = "Present"
    · have e1 : (r.status == "Present") = true := by simp [hp]
      have e2 : (r.status == "Absent") = false := by simp [hp]
      rw [if_pos (Or.inl hp)]
      simp only [List.filter_cons, e1, e2, if_true, Bool.false_eq_true, if_false,
        List.length_cons]
      omega
    · by_cases ha : r.status = "Absent"
      · have e1 : (r.status == "Present") = false := by simp [ha]
        have e2 : (r.status == "Absent") = true := by simp [ha]
        rw [if_pos (Or.inr ha)]
        simp only [List.filter_cons, e1, e2, if_true, Bool.false_eq_true, if_false,
          List.length_cons]
        omega
      · have e1 : (r.status == "Present") = false := by simp [hp]
        have e2 : (r.status == "Absent") = false := by simp [ha]
        rw [if_neg (fun h => h.elim hp ha)]
        simp only [List.filter_cons, e1, e2, Bool.false_eq_true, if_false, Nat.add_zero]
  refine ⟨?_, ?_, ?_, ?_⟩
  · rw [List.countP_eq_length_filter]
    congr 1
  · rw [List.countP_eq_length_filter]
    congr 1
  · induction records with
    | nil => simp
    | cons r rest ih =>
      rw [step, List.length_cons]
      split <;> omega
  · intro hall
    induction records with
    | nil => simp
    | cons r rest ih =>
      have ih' := ih (fun x hx => hall x (List.mem_cons_of_mem _ hx))
      rw [step, List.length_cons, if_pos (hall r (List.mem_cons_self _ _)), ih']

/-- Claim C23: in view mode with an employee selected, a change of the selected
employee or of the date filter makes the effect issue exactly one
`getByEmployee` call, for that employee, with the date filter when it is set
and with no date when it is empty; with no employee selected, or outside view
mode, nothing is issued, and a render that changes none of the dependencies
issues nothing. -/
theorem viewModeEffect_fetches {σ : Type} (api : Attendance.ReadApi σ) (w : σ)
    (prev st : Attendance.PageState) :
    (st.viewMode = "view" → st.selectedEmployee ≠ "" →
      (prev.selectedEmployee ≠ st.selectedEmployee ∨ prev.filterDate ≠ st.filterDate) →
      (Attendance.viewModeEffect api (some prev) st w).effects.filterMap
          Attendance.recordRequests
        = [(st.selectedEmployee, if st.filterDate = "" then none else some st.filterDate)]) ∧
    ((st.selectedEmployee = "" ∨ st.viewMode ≠ "view") →
      ∀ before, (Attendance.viewModeEffect api before st w).effects = []) ∧
    (prev.selectedEmployee = st.selectedEmployee → prev.filterDate = st.filterDate →
      prev.viewMode = st.viewMode →
      (Attendance.viewModeEffect api (some prev) st w).effects = []) := by
  refine ⟨?_, ?_, ?_⟩
  · intro hview hsel hchg
    have hc : (decide (prev.selectedEmployee ≠ st.selectedEmployee) ||
        decide (prev.filterDate ≠ st.filterDate) || decide (prev.viewMode ≠ st.viewMode))
        = true := by
      rcases hchg with h | h
      · simp [h]
      · simp [h]
    have hcond : st.selectedEmployee ≠ "" ∧ st.viewMode = "view" := ⟨hsel, hview⟩
    unfold Attendance.viewModeEffect
    simp only [hc, if_true]
    rw [if_pos hcond]
    exact fetchAttendance_requests api _ _ w hsel
  · intro hno before
    unfold Attendance.viewModeEffect
    have hcond : ¬ (st.selectedEmployee ≠ "" ∧ st.viewMode = "view") := by
      rintro ⟨h1, h2⟩
      rcases hno with h | h
      · exact h1 h
      · exact h h2
    simp only [hcond, if_false]
    split <;> rfl
  · intro h1 h2 h3
    unfold Attendance.viewModeEffect
    simp [h1, h2, h3]

/-- Setting the date filter of the sample page fetches the records of `EMP001` for
that date, and clearing it fetches them with no date. -/
theorem viewModeEffect_fetches_witness :
    (Attendance.viewModeEffect Attendance.sampleReadApi
        (some { Attendance.sampleViewState with filterDate := "" })
        Attendance.sampleViewState 0).effects.filterMap Attendance.recordRequests
      = [("EMP001", some "2026-01-15")] ∧
    (Attendance.viewModeEffect Attendance.sampleReadApi
        (some Attendance.sampleViewState)
        { Attendance.sampleViewState with filterDate := "" } 0).effects.filterMap
        Attendance.recordRequests
      = [("EMP001", none)] :=
  ⟨(viewModeEffect_fetches Attendance.sampleReadApi 0
      { Attendance.sampleViewState with filterDate := "" } Attendance.sampleViewState).1
      rfl (by decide) (Or.inr (by decide)),
   (viewModeEffect_fetches Attendance.sampleReadApi 0 Attendance.sampleViewState
      { Attendance.sampleViewState with filterDate := "" }).1
      rfl (by decide) (Or.inr (by decide))⟩

/-- Claim C24, which the code breaks when a fetch fails with an error whose
message is empty, as `request` produces for a response with status 500 and
body `{"detail": []}`. The fetch ends with `loading` false and the error set
to that message, the empty string, and the render does not show the error
phase, because `if (error)` tests an empty string: the Dashboard, whose
`summary` is still `null`, throws a `TypeError` at `summary.total_employees`,
and the Employees and Attendance pages render the loaded page. -/
theorem fetch_failure_without_text :
    (dashboardApi.getSummary (API_BASE none) fetchEmptyList arrayToString 0).1
      = Settled.rejected "" ∧
    (Dashboard.silentSummary 0).1.toOutcome
      = (dashboardApi.getSummary (API_BASE none) fetchEmptyList arrayToString 0).1.toOutcome ∧
    Dashboard.applyEffects Dashboard.initialState
        (Dashboard.fetchSummary Dashboard.silentSummary 0).1
      = { summary := none, loading := false, error := some "" } ∧
    Dashboard.render (Dashboard.applyEffects Dashboard.initialState
        (Dashboard.fetchSummary Dashboard.silentSummary 0).1) = Rendered.typeError ∧
    (Employees.applyEffects Employees.sampleState
      (Employees.fetchEmployees Employees.silentApi 0).effects).loading = false ∧
    (Employees.applyEffects Employees.sampleState
      (Employees.fetchEmployees Employees.silentApi 0).effects).error = some "" ∧
    renderedPhase
        (Employees.applyEffects Employees.sampleState
          (Employees.fetchEmployees Employees.silentApi 0).effects).loading
        (Employees.applyEffects Employees.sampleState
          (Employees.fetchEmployees Employees.silentApi 0).effects).error = Phase.loaded ∧
    (Attendance.applyEffects sampleState
      (Attendance.fetchEmployees Attendance.failingReadApi 0).effects).error = some "" ∧
    renderedPhase
        (Attendance.applyEffects sampleState
          (Attendance.fetchEmployees Attendance.failingReadApi 0).effects).loading
        (Attendance.applyEffects sampleState
          (Attendance.fetchEmployees Attendance.failingReadApi 0).effects).error
      = Phase.loaded :=
  ⟨rfl, rfl, rfl, rfl, rfl, rfl, rfl, rfl, rfl⟩

/-- Claim C25: the initial `markDate` is the UTC date of the instant, not the
calendar date of the user. At 2026-01-14T20:00:00Z the page created by a user
whose clock is five and a half hours ahead of UTC starts with `2026-01-14`,
while the date is `2026-01-15` for that user. -/
theorem initialMarkDate_is_utc_date :
    toISOString 1768420800000 = "2026-01-14T20:00:00.000Z" ∧
    Attendance.initialMarkDate 1768420800000 = "2026-01-14" ∧
    localCalendarDate 1768420800000 330 = "2026-01-15" ∧
    Attendance.initialMarkDate 1768420800000 ≠ localCalendarDate 1768420800000 330 := by
  decide

/-- Claim C26, which the code breaks in the render between a search change and
its reset effect. With the roster of 45 employees the page is brought to
page 3 by two clicks on `Next`; then `E1` is typed into the search box. The
render committed after `setSearch` has the new search text and still
`currentPage = 3`: eleven employees match, `totalPages` is 1, so `currentPage`
is outside `1..max(1, totalPages)` and the displayed slice is empty although
the filtered list is not. Only the effect of that render sets `currentPage`
to 1. -/
theorem search_change_stale_page :
    Attendance.pageRun toLowerCaseAscii Attendance.rosterState
        [Attendance.PageAction.next, Attendance.PageAction.next]
      = { Attendance.rosterState with currentPage := 3 } ∧
    Attendance.searchRender "E1" { Attendance.rosterState with currentPage := 3 }
      = { Attendance.rosterState with currentPage := 3, search := "E1" } ∧
    (Attendance.filteredEmployees toLowerCaseAscii Attendance.roster "E1").map
        (fun emp => emp.employee_id)
      = ["E1", "E10", "E11", "E12", "E13", "E14", "E15", "E16", "E17", "E18", "E19"] ∧
    Attendance.totalPages (Attendance.filteredEmployees toLowerCaseAscii Attendance.roster "E1")
      = 1 ∧
    ¬ ((Attendance.searchRender "E1"
          { Attendance.rosterState with currentPage := 3 }).currentPage
        ≤ max 1 (Attendance.totalPages
          (Attendance.filteredEmployees toLowerCaseAscii Attendance.roster "E1"))) ∧
    Attendance.paginatedEmployees
        (Attendance.filteredEmployees toLowerCaseAscii Attendance.roster "E1")
        (Attendance.searchRender "E1"
          { Attendance.rosterState with currentPage := 3 }).currentPage = [] ∧
    Attendance.resetPageEffect (some { Attendance.rosterState with currentPage := 3 })
        (Attendance.searchRender "E1" { Attendance.rosterState with currentPage := 3 })
      = [Attendance.Effect.setCurrentPage 1] ∧
    Attendance.pageStep toLowerCaseAscii { Attendance.rosterState with currentPage := 3 }
        (Attendance.PageAction.changeSearch "E1")
      = { Attendance.rosterState with currentPage := 1, search := "E1" } := by
  have ht : Attendance.totalPages
      (Attendance.filteredEmployees toLowerCaseAscii Attendance.roster "E1") = 1 := by
    rw [totalPages_closed]
    decide
  refine ⟨?_, rfl, by decide, ht, ?_, by decide, by decide, by decide⟩
  · show Attendance.pageStep toLowerCaseAscii
        (Attendance.pageStep toLowerCaseAscii Attendance.rosterState Attendance.PageAction.next)
        Attendance.PageAction.next = _
    have h1 := roster_next 1 (by decide)
    have h2 := roster_next 2 (by decide)
    have e1 : ({ Attendance.rosterState with currentPage := 1 } : Attendance.PageState)
        = Attendance.rosterState := rfl
    rw [e1] at h1
    rw [h1]
    exact h2
  · rw [ht]
    decide

/-- Claim C27: changing the search text (the handler, and the reset effect that
follows it), the page number (`Prev`, `Next`, a page click) or the mark date
leaves the pending selections unchanged. The payloads that
`handleMarkAttendance` submits are the same in two states with the same
selections and mark date: every pending entry is submitted, whatever the
search text and the page number, under the mark date of the state at
submission, so after a change of the date every entry goes out under the new
date. -/
theorem selections_survive_view_changes {σ : Type} (toLowerCase : String → String)
    (mark : MarkApi σ) (w : σ) (st : Attendance.PageState) :
    (∀ value, (Attendance.applyEffects st
      (Attendance.handleSearchChange value st)).attendance = st.attendance) ∧
    (∀ prev, (Attendance.applyEffects st
      (Attendance.resetPageEffect prev st)).attendance = st.attendance) ∧
    (Attendance.applyEffects st (Attendance.prevPage toLowerCase st)).attendance
      = st.attendance ∧
    (Attendance.applyEffects st (Attendance.nextPage toLowerCase st)).attendance
      = st.attendance ∧
    (∀ page, (Attendance.applyEffects st
      (Attendance.clickPage toLowerCase page st)).attendance = st.attendance) ∧
    (∀ value, (Attendance.applyEffects st
      (Attendance.handleMarkDateChange value st)).attendance = st.attendance) ∧
    (∀ other : Attendance.PageState,
      other.attendance = st.attendance → other.markDate = st.markDate →
      (Attendance.handleMarkAttendance mark w other).effects.filterMap callPayload
        = (Attendance.handleMarkAttendance mark w st).effects.filterMap callPayload) ∧
    (∀ entry ∈ objectEntries st.attendance,
      ({ employee_id := entry.1, date := st.markDate, status := entry.2 } : MarkPayload)
        ∈ (Attendance.handleMarkAttendance mark w st).effects.filterMap callPayload) ∧
    (∀ value,
      (Attendance.handleMarkAttendance mark w
          (Attendance.applyEffects st
            (Attendance.handleMarkDateChange value st))).effects.filterMap callPayload
        = (objectEntries st.attendance).map
            (fun entry => { employee_id := entry.1, date := value, status := entry.2 })) := by
  refine ⟨?_, ?_, ?_, ?_, ?_, ?_, ?_, ?_, ?_⟩
  · intro value
    rfl
  · intro prev
    apply attendance_of_setCurrentPage
    intro e he
    unfold Attendance.resetPageEffect at he
    split at he
    · exact ⟨_, List.mem_singleton.mp he⟩
    · split at he
      · exact ⟨_, List.mem_singleton.mp he⟩
      · cases he
  · apply attendance_of_setCurrentPage
    intro e he
    unfold Attendance.prevPage at he
    split at he
    · exact ⟨_, List.mem_singleton.mp he⟩
    · cases he
  · apply attendance_of_setCurrentPage
    intro e he
    unfold Attendance.nextPage at he
    split at he
    · exact ⟨_, List.mem_singleton.mp he⟩
    · cases he
  · intro page
    apply attendance_of_setCurrentPage
    intro e he
    unfold Attendance.clickPage at he
    split at he
    · exact ⟨_, List.mem_singleton.mp he⟩
    · cases he
  · intro value
    rfl
  · intro other ha hd
    rw [handleMarkAttendance_payloads, handleMarkAttendance_payloads, ha, hd]
  · intro entry he
    rw [handleMarkAttendance_payloads]
    exact List.mem_map.mpr ⟨entry, he, rfl⟩
  · intro value
    rw [handleMarkAttendance_payloads]
    rfl

/-- Claim C28: when the lower-cased `s1` is a substring of the lower-cased `s2`,
the employees kept for `s2` form a sublist of those kept for `s1`, on the
Attendance page and on the Employees page. -/
theorem filteredEmployees_narrowing (toLowerCase : String → String)
    (employees : List Employee) (s1 s2 : String)
    (h : IsSubstring (toLowerCase s1) (toLowerCase s2)) :
    (Attendance.filteredEmployees toLowerCase employees s2).Sublist
      (Attendance.filteredEmployees toLowerCase employees s1) ∧
    (Employees.filteredEmployees toLowerCase employees s2).Sublist
      (Employees.filteredEmployees toLowerCase employees s1) := by
  constructor
  · unfold Attendance.filteredEmployees
    apply filter_sublist_of_imp
    intro emp hm
    simp only [Bool.or_eq_true] at hm ⊢
    rcases hm with (hm | hm) | hm
    · exact Or.inl (Or.inl (includes_mono _ _ _ h hm))
    · exact Or.inl (Or.inr (includes_mono _ _ _ h hm))
    · exact Or.inr (includes_mono _ _ _ h hm)
  · unfold Employees.filteredEmployees
    apply filter_sublist_of_imp
    intro emp hm
    simp only [Bool.or_eq_true] at hm ⊢
    rcases hm with ((hm | hm) | hm) | hm
    · exact Or.inl (Or.inl (Or.inl (includes_mono _ _ _ h hm)))
    · exact Or.inl (Or.inl (Or.inr (includes_mono _ _ _ h hm)))
    · exact Or.inl (Or.inr (includes_mono _ _ _ h hm))
    · exact Or.inr (includes_mono _ _ _ h hm)

/-- The sample employees: `jane DOE` narrows `Do`. -/
theorem filteredEmployees_narrowing_witness :
    IsSubstring (toLowerCaseAscii "Do") (toLowerCaseAscii "jane DOE") ∧
    (Attendance.filteredEmployees toLowerCaseAscii sampleEmployees "jane DOE").Sublist
      (Attendance.filteredEmployees toLowerCaseAscii sampleEmployees "Do") :=
  ⟨by decide,
    (filteredEmployees_narrowing toLowerCaseAscii sampleEmployees "Do" "jane DOE"
      (by decide)).1⟩

/-- Claim C29: with an empty search text (whose lower-cased form is empty) the
filter keeps the whole employee list, in the same order, on the Attendance page
and on the Employees page. -/
theorem filteredEmployees_empty_search (toLowerCase : String → String)
    (employees : List Employee) (h : toLowerCase "" = "") :
    Attendance.filteredEmployees toLowerCase employees "" = employees ∧
    Employees.filteredEmployees toLowerCase employees "" = employees := by
  constructor
  · unfold Attendance.filteredEmployees
    rw [List.filter_eq_self]
    intro emp _
    rw [h, includes_empty]
    rfl
  · unfold Employees.filteredEmployees
    rw [List.filter_eq_self]
    intro emp _
    rw [h, includes_empty]
    rfl

/-- The sample employees under the empty search text. -/
theorem filteredEmployees_empty_search_witness :
    toLowerCaseAscii "" = "" ∧
    Attendance.filteredEmployees toLowerCaseAscii sampleEmployees "" = sampleEmployees ∧
    Employees.filteredEmployees toLowerCaseAscii sampleEmployees "" = sampleEmployees :=
  ⟨rfl, filteredEmployees_empty_search toLowerCaseAscii sampleEmployees rfl⟩

/-- Claim C30: when the `getByEmployee` call of `fetchAttendance` rejects, the
state afterwards is the state before with the error notification carrying the
message of the rejection and `recordsLoading` false: `attendanceRecords`, and
with it `presentCount` and `absentCount`, are unchanged, and that notification
is the only one shown. -/
theorem fetchAttendance_failure {σ : Type} (api : Attendance.ReadApi σ)
    (empId dateFilter : String) (w : σ) (st : Attendance.PageState) (message : String)
    (hemp : empId ≠ "")
    (h : (api.getByEmployee empId (if dateFilter = "" then none else some dateFilter) w).1
      = Settled.rejected message) :
    Attendance.applyEffects st (Attendance.fetchAttendance api empId dateFilter w).effects
      = { st with toast := some { message := message, type := "error" },
                  recordsLoading := false } ∧
    (Attendance.applyEffects st
      (Attendance.fetchAttendance api empId dateFilter w).effects).attendanceRecords
      = st.attendanceRecords ∧
    Attendance.presentCount (Attendance.applyEffects st
      (Attendance.fetchAttendance api empId dateFilter w).effects)
      = Attendance.presentCount st ∧
    Attendance.absentCount (Attendance.applyEffects st
      (Attendance.fetchAttendance api empId dateFilter w).effects)
      = Attendance.absentCount st ∧
    (Attendance.fetchAttendance api empId dateFilter w).effects.filterMap toastOf
      = [some { message := message, type := "error" }] ∧
    (Attendance.applyEffects st
      (Attendance.fetchAttendance api empId dateFilter w).effects).recordsLoading = false := by
  rw [fetchAttendance_rejected api empId dateFilter w message hemp h]
  refine ⟨?_, ?_, ?_, ?_, ?_, ?_⟩ <;> rfl

/-- A failed fetch on the sample page in view mode. -/
theorem fetchAttendance_failure_witness :
    Attendance.applyEffects Attendance.sampleViewState
        (Attendance.fetchAttendance Attendance.failingReadApi "EMP001" "2026-01-15" 0).effects
      = { Attendance.sampleViewState with
          toast := some { message := "Employee not found", type := "error" },
          recordsLoading := false } :=
  (fetchAttendance_failure Attendance.failingReadApi "EMP001" "2026-01-15" 0
    Attendance.sampleViewState "Employee not found" (by decide) rfl).1

end HRMS
